import Mathlib

/-!
Impersonation reconciler (pkg/impersonation, pkg/controllers/managementuser/rbac).

A shallow embedding of `pkg/impersonation/impersonation.go` and of
`pkg/controllers/managementuser/rbac/impersonation_handler.go`.

Conventions of the embedding.

* Go strings are `String`. A Go slice that takes part in a `reflect.DeepEqual`
  comparison is a `Slice`, which tells the nil slice from an empty one; the other
  slices, of which the code reads the length and the elements only, are `List`s.
* A Go `map[string]T` is an association list read with `List.lookup`; the order of its
  entries carries no meaning, and a `range` over it visits them in an order that the
  Go runtime chooses anew each time (`Client.rangeOrder`).
* A lister `Get` returns `(obj, err)` with exactly one of the two set; it is an
  `Except Err T`. A typed client call (`Create`, `Update`, `Get`) returns an object
  together with an error that may be nil; it is a pair `T × Option Err`.
* The cluster and the management caches are an arbitrary environment: a `Client σ` is
  a record of response functions over an environment state `σ`. Every call the code
  issues is appended to a log of `Call`s, so that theorems can speak about the calls
  that were (not) issued.
-/

namespace Impersonation

/-! ## Errors -/

/-- Reason carried by an API status error (`metav1.StatusReason`). -/
inductive StatusReason
  | notFound
  | alreadyExists
  | other (reason : String)
  deriving DecidableEq, Repr

/-- Go error values that occur in the two files. -/
inductive Err
  /-- An API status error (`*apierrors.StatusError`). -/
  | status (reason : StatusReason) (message : String)
  /-- An error without a cause: `errors.New`, or `fmt.Errorf` without the wrapping verb. -/
  | plain (message : String)
  /-- Result of `fmt.Errorf(pre + "%w", inner)`. -/
  | wrap (pre : String) (inner : Err)
  deriving DecidableEq, Repr

/-- Text of `err.Error()`. -/
def Err.Error : Err → String
  | .status _ m => m
  | .plain m => m
  | .wrap pre inner => pre ++ inner.Error

/-- Reason found by `apierrors.ReasonForError`, which looks through wrapped errors. -/
def Err.reason : Err → Option StatusReason
  | .status r _ => some r
  | .plain _ => none
  | .wrap _ inner => inner.reason

deriving instance DecidableEq for Except

/-- Model of `apierrors.IsNotFound(err)` on a non-nil error. -/
def IsNotFound (e : Err) : Bool := e.reason = some StatusReason.notFound

/-- Model of `apierrors.IsAlreadyExists(err)` on a non-nil error. -/
def IsAlreadyExists (e : Err) : Bool := e.reason = some StatusReason.alreadyExists

/-! ## Kubernetes and management objects -/

/-- `metav1.OwnerReference`. -/
structure OwnerReference where
  APIVersion : String := ""
  Kind : String := ""
  Name : String := ""
  UID : String := ""
  deriving DecidableEq, Repr

/-- `metav1.ObjectMeta`, the fields the code reads or writes. -/
structure ObjectMeta where
  Name : String := ""
  Namespace : String := ""
  UID : String := ""
  Labels : List (String × String) := []
  OwnerReferences : List OwnerReference := []
  deriving DecidableEq, Repr

/-- A Go slice: `nil` is the nil slice, `of l` a non-nil slice with the elements `l`,
of which there may be none. `reflect.DeepEqual` on two slices is equality in this type:
it holds for two nil slices and for two non-nil slices with deep-equal elements, so a
nil slice and an empty non-nil slice are not deep-equal. -/
inductive Slice (α : Type)
  | nil
  | of (items : List α)
  deriving DecidableEq, Repr

/-- A list literal `[]T{...}` is a non-nil slice. -/
instance (α : Type) : Coe (List α) (Slice α) := ⟨Slice.of⟩

/-- The elements of a slice; the nil slice has none. -/
def Slice.toList {α : Type} : Slice α → List α
  | .nil => []
  | .of items => items

/-- `rbacv1.PolicyRule`. A field that is not set is the nil slice. -/
structure PolicyRule where
  Verbs : Slice String := .nil
  APIGroups : Slice String := .nil
  Resources : Slice String := .nil
  ResourceNames : Slice String := .nil
  NonResourceURLs : Slice String := .nil
  deriving DecidableEq, Repr

/-- `rbacv1.ClusterRole`; `AggregationRule` is the list of its selectors when set. -/
structure ClusterRole where
  ObjectMeta : ObjectMeta := {}
  Rules : Slice PolicyRule := .nil
  AggregationRule : Option (List String) := none
  deriving DecidableEq, Repr

/-- `corev1.ObjectReference`, used for the secrets of a service account. -/
structure ObjectReference where
  Name : String := ""
  deriving DecidableEq, Repr

/-- `corev1.ServiceAccount`. -/
structure ServiceAccount where
  ObjectMeta : ObjectMeta := {}
  Secrets : List ObjectReference := []
  deriving DecidableEq, Repr

/-- `corev1.Namespace`. -/
structure Namespace where
  ObjectMeta : ObjectMeta := {}
  deriving DecidableEq, Repr

/-- `rbacv1.Subject`. -/
structure Subject where
  Kind : String := ""
  APIGroup : String := ""
  Name : String := ""
  Namespace : String := ""
  deriving DecidableEq, Repr

/-- `rbacv1.RoleRef`. -/
structure RoleRef where
  APIGroup : String := ""
  Kind : String := ""
  Name : String := ""
  deriving DecidableEq, Repr

/-- `rbacv1.ClusterRoleBinding`. -/
structure ClusterRoleBinding where
  ObjectMeta : ObjectMeta := {}
  Subjects : List Subject := []
  RoleRef : RoleRef := {}
  deriving DecidableEq, Repr

/-- `corev1.Secret`; a `[]byte` payload and the Go string converted from it hold the
same bytes, both are a `String` here. -/
structure Secret where
  ObjectMeta : ObjectMeta := {}
  Data : List (String × String) := []
  deriving DecidableEq, Repr

/-- `user.DefaultInfo`, the implementation of `user.Info` built by `getUser`. Of
`Groups` the code uses the slice only when its length is positive, so that a nil and an
empty `Groups` are the same to it; a value of `Extra` is put into a rule as it is. -/
structure DefaultInfo where
  Name : String := ""
  UID : String := ""
  Groups : List String := []
  Extra : List (String × Slice String) := []
  deriving DecidableEq, Repr

/-- Management user record (`v3.User`): object name, login name, principal IDs. -/
structure User where
  Name : String := ""
  Username : String := ""
  PrincipalIDs : List String := []
  deriving DecidableEq, Repr

/-- A principal (`v3.Principal`), of which the code reads the name. -/
structure Principal where
  Name : String := ""
  deriving DecidableEq, Repr

/-- The value type of `GroupPrincipals` (`v3.Principals`). -/
structure Principals where
  Items : List Principal := []
  deriving DecidableEq, Repr

/-- User attributes (`v3.UserAttribute`). `GroupPrincipals` is a Go map
(`map[string]Principals`, declared outside the two files): the list holds its entries,
and their order in the list is not an order of the map. -/
structure UserAttribute where
  GroupPrincipals : List (String × Principals) := []
  deriving DecidableEq, Repr

/-! ## Constants -/

def impersonationLabel : String := "authz.cluster.cattle.io/impersonator"
def impersonationNamespace : String := "cattle-impersonation-system"
def ImpersonationPrefix : String := "cattle-impersonation-"
/-- `rbacv1.GroupName`. -/
def rbacGroupName : String := "rbac.authorization.k8s.io"

/-! ## Policy rule generator -/

/-- `Impersonator.rulesForUser`. The slice it returns is never nil, it starts from a
literal; the result here is the list of its elements. -/
def rulesForUser (user : DefaultInfo) : List PolicyRule :=
  let rules : List PolicyRule := [{
    Verbs := ["impersonate"],
    APIGroups := [""],
    Resources := ["users"],
    ResourceNames := [user.UID] }]
  let groups := user.Groups
  let rules := if groups.length > 0 then
      rules ++ [{
        Verbs := ["impersonate"],
        APIGroups := [""],
        Resources := ["groups"],
        ResourceNames := groups }]
    else rules
  let extras := user.Extra
  let rules := match extras.lookup "principalid" with
    | some principalids =>
      rules ++ [{
        Verbs := ["impersonate"],
        APIGroups := ["authentication.k8s.io"],
        Resources := ["userextras/principalid"],
        ResourceNames := principalids }]
    | none => rules
  let rules := match extras.lookup "username" with
    | some usernames =>
      rules ++ [{
        Verbs := ["impersonate"],
        APIGroups := ["authentication.k8s.io"],
        Resources := ["userextras/username"],
        ResourceNames := usernames }]
    | none => rules
  rules

/-! ## Environment: calls, clients, logged computations -/

/-- The calls the code issues on its collaborators, with their arguments. -/
inductive Call
  | userListerGet (ns name : String)
  | userAttributeListerGet (ns name : String)
  | crtbByIndex (index key : String)
  | prtbByIndex (index key : String)
  | clusterRoleListerGet (ns name : String)
  | clusterRoleCreate (obj : ClusterRole)
  | clusterRoleUpdate (obj : ClusterRole)
  | clusterRoleGet (name : String)
  | clusterRoleDelete (name : String)
  | namespaceListerGet (ns name : String)
  | namespaceCreate (obj : Namespace)
  | serviceAccountListerGet (ns name : String)
  | serviceAccountListerList (ns : String)
  | serviceAccountCreate (ns : String) (obj : ServiceAccount)
  | serviceAccountGet (ns name : String)
  | clusterRoleBindingListerGet (ns name : String)
  | clusterRoleBindingCreate (obj : ClusterRoleBinding)
  | secretListerGet (ns name : String)
  | secretListerList (ns : String)
  deriving DecidableEq, Repr

/-- Calls that change the remote cluster: create, update, delete. -/
def Call.isWrite : Call → Bool
  | .clusterRoleCreate _ => true
  | .clusterRoleUpdate _ => true
  | .clusterRoleDelete _ => true
  | .namespaceCreate _ => true
  | .serviceAccountCreate _ _ => true
  | .clusterRoleBindingCreate _ => true
  | _ => false

/-- Calls that delete a remote object. -/
def Call.isDelete : Call → Bool
  | .clusterRoleDelete _ => true
  | _ => false

/-- Calls on the downstream cluster or on its cached view, as opposed to the calls on
the management listers and indexers (users, attributes, grants). -/
def Call.isCluster : Call → Bool
  | .userListerGet _ _ => false
  | .userAttributeListerGet _ _ => false
  | .crtbByIndex _ _ => false
  | .prtbByIndex _ _ => false
  | _ => true

/-- The collaborators of the code (`manager` fields and `config.UserContext`) as
response functions over an environment state `σ`. The first argument of a `...Create`
or `...Get` on a namespaced client is the namespace the client was taken for. -/
structure Client (σ : Type) where
  /-- The value of `m.workload.ClusterName`. -/
  ClusterName : String
  /-- Whether `logrus.GetLevel() >= logrus.TraceLevel`. -/
  traceLevel : Bool
  /-- The index name `rtbByClusterAndUserIndex`, a constant of package `rbac` that is
  declared outside the two files. -/
  rtbByClusterAndUserIndex : String
  /-- The order in which a `range` over a Go map visits the entries. The runtime chooses
  it anew for every loop; the number it answers selects one of the orders, see
  `visitOrder`. -/
  rangeOrder : σ → Nat × σ
  /-- The assignment `role.Rules = rules` of `checkAndUpdateRole`. The lister hands out a
  pointer to the object of the cached view, so the assignment changes the object that
  the cached view holds. -/
  clusterRoleAssignRules : ClusterRole → Slice PolicyRule → σ → σ
  userListerGet : String → String → σ → Except Err User × σ
  userAttributeListerGet : String → String → σ → Except Err UserAttribute × σ
  crtbByIndex : String → String → σ → Except Err (List String) × σ
  prtbByIndex : String → String → σ → Except Err (List String) × σ
  clusterRoleListerGet : String → String → σ → Except Err ClusterRole × σ
  clusterRoleCreate : ClusterRole → σ → (ClusterRole × Option Err) × σ
  clusterRoleUpdate : ClusterRole → σ → (ClusterRole × Option Err) × σ
  clusterRoleGet : String → σ → (ClusterRole × Option Err) × σ
  clusterRoleDelete : String → σ → Option Err × σ
  namespaceListerGet : String → String → σ → Except Err Namespace × σ
  namespaceCreate : Namespace → σ → (Namespace × Option Err) × σ
  serviceAccountListerGet : String → String → σ → Except Err ServiceAccount × σ
  serviceAccountListerList : String → σ → Except Err (List ServiceAccount) × σ
  serviceAccountCreate : String → ServiceAccount → σ → (ServiceAccount × Option Err) × σ
  serviceAccountGet : String → String → σ → (ServiceAccount × Option Err) × σ
  clusterRoleBindingListerGet : String → String → σ → Except Err ClusterRoleBinding × σ
  clusterRoleBindingCreate : ClusterRoleBinding → σ → (ClusterRoleBinding × Option Err) × σ
  secretListerGet : String → String → σ → Except Err Secret × σ
  secretListerList : String → σ → Except Err (List Secret) × σ

/-- A computation over the environment state that logs the calls it issues, oldest
call first. -/
def M (σ α : Type) : Type := σ × List Call → α × (σ × List Call)

instance (σ : Type) : Monad (M σ) where
  pure a := fun st => (a, st)
  bind m f := fun st => f (m st).1 (m st).2

/-- Issue the call `c`, answered by `f`, and log it. -/
def M.call {σ α : Type} (c : Call) (f : σ → α × σ) : M σ α :=
  fun st => ((f st.1).1, ((f st.1).2, st.2 ++ [c]))

/-- An interaction with the environment that is not a call on a collaborator: it is
not logged. -/
def M.silent {σ α : Type} (f : σ → α × σ) : M σ α :=
  fun st => ((f st.1).1, ((f st.1).2, st.2))

/-- Result of running `m` from environment state `s` with an empty log. -/
def M.result {σ α : Type} (m : M σ α) (s : σ) : α := (m (s, [])).1

/-- Environment state after running `m` from `s`. -/
def M.final {σ α : Type} (m : M σ α) (s : σ) : σ := (m (s, [])).2.1

/-- The calls `m` issues when run from `s`, oldest first. -/
def M.calls {σ α : Type} (m : M σ α) (s : σ) : List Call := (m (s, [])).2.2

/-! ## pkg/impersonation/impersonation.go -/

section Code

variable {σ : Type}

/-- `wait.ErrWaitTimeout`. -/
def ErrWaitTimeout : Err := .plain "timed out waiting for the condition"

/-- `wait.ExponentialBackoff` for a backoff of `steps` steps: the condition runs until
it reports done or an error, at most `steps` times, and exhausting the steps yields
`ErrWaitTimeout`. The sleeps between the attempts are not modelled. `ρ` holds the
variables the condition closure captures. -/
def ExponentialBackoff {ρ : Type} :
    Nat → (ρ → M σ (ρ × Bool × Option Err)) → ρ → M σ (ρ × Option Err)
  | 0, _, r => pure (r, some ErrWaitTimeout)
  | steps + 1, condition, r => do
    let res ← condition r
    if res.2.2.isSome || res.2.1 then pure (res.1, res.2.2)
    else ExponentialBackoff steps condition res.1

/-- Value returned where the Go code would dereference a nil pointer. The branches
that return it are never taken: see `createRole_nil` and `createServiceAccount_nil`. -/
def nilDereference : Err := .plain "invalid memory address or nil pointer dereference"

/-- `Impersonator.GetToken`. -/
def GetToken (c : Client σ) (sa : ServiceAccount) : M σ (String × Option Err) :=
  match sa.Secrets with
  | [] => pure ("", some (.plain "service account is not ready"))
  | secret :: _ => do
    let r ← M.call (.secretListerGet impersonationNamespace secret.Name)
      (c.secretListerGet impersonationNamespace secret.Name)
    match r with
    | .error err => do
      if c.traceLevel then
        let _ ← M.call (.secretListerList impersonationNamespace)
          (c.secretListerList impersonationNamespace)
        pure ()
      pure ("", some (.wrap "error getting secret: " err))
    | .ok secretObj =>
      match secretObj.Data.lookup "token" with
      | none => pure ("", some (.plain "error getting token: invalid secret object"))
      | some token => pure (token, none)

/-- `Impersonator.getServiceAccount`. -/
def getServiceAccount (c : Client σ) (user : DefaultInfo) :
    M σ (Option ServiceAccount × Option Err) := do
  let name := ImpersonationPrefix ++ user.UID
  let r ← M.call (.serviceAccountListerGet impersonationNamespace name)
    (c.serviceAccountListerGet impersonationNamespace name)
  match r with
  | .error err => do
    if c.traceLevel then
      let _ ← M.call (.serviceAccountListerList impersonationNamespace)
        (c.serviceAccountListerList impersonationNamespace)
      pure ()
    pure (none, some (.wrap ("failed to get secret for service account: "
      ++ impersonationNamespace ++ "/" ++ name ++ ", error: ") err))
  | .ok sa => pure (some sa, none)

/-- The object `createServiceAccount` passes to `Create`. -/
def serviceAccountObject (name : String) (role : ClusterRole) : ServiceAccount := {
  ObjectMeta := {
    Name := name,
    Labels := [(impersonationLabel, "true")],
    -- Use the clusterrole as the owner for the purposes of automatic cleanup
    OwnerReferences := [{
      Name := role.ObjectMeta.Name,
      UID := role.ObjectMeta.UID,
      APIVersion := "rbac.authorization.k8s.io/v1",
      Kind := "ClusterRole" }] } }

/-- `Impersonator.createServiceAccount`. -/
def createServiceAccount (c : Client σ) (user : DefaultInfo) (role : ClusterRole) :
    M σ (Option ServiceAccount × Option Err) := do
  let name := ImpersonationPrefix ++ user.UID
  let r ← M.call (.serviceAccountListerGet impersonationNamespace name)
    (c.serviceAccountListerGet impersonationNamespace name)
  match r with
  | .ok sa => pure (some sa, none)
  | .error err =>
    if IsNotFound err then do
      let obj := serviceAccountObject name role
      let created ← M.call (.serviceAccountCreate impersonationNamespace obj)
        (c.serviceAccountCreate impersonationNamespace obj)
      match created.2 with
      | some err =>
        if IsAlreadyExists err then do
          let got ← M.call (.serviceAccountGet impersonationNamespace name)
            (c.serviceAccountGet impersonationNamespace name)
          pure (some got.1, got.2)
        else pure (some created.1, some err)
      | none => pure (some created.1, none)
    else pure (none, some err)

/-- The object `createNamespace` passes to `Create`. -/
def namespaceObject : Namespace := {
  ObjectMeta := {
    Name := impersonationNamespace,
    Labels := [(impersonationLabel, "true")] } }

/-- `Impersonator.createNamespace`. -/
def createNamespace (c : Client σ) : M σ (Option Err) := do
  let r ← M.call (.namespaceListerGet "" impersonationNamespace)
    (c.namespaceListerGet "" impersonationNamespace)
  match r with
  | .ok _ => pure none
  | .error err =>
    if IsNotFound err then do
      let obj := namespaceObject
      let created ← M.call (.namespaceCreate obj) (c.namespaceCreate obj)
      match created.2 with
      | some err => if IsAlreadyExists err then pure none else pure (some err)
      | none => pure none
    else pure (some err)

/-- `Impersonator.checkAndUpdateRole`. -/
def checkAndUpdateRole (c : Client σ) (user : DefaultInfo) (rules : Slice PolicyRule) :
    M σ (Option ClusterRole × Option Err) := do
  let name := ImpersonationPrefix ++ user.UID
  let r ← M.call (.clusterRoleListerGet "" name) (c.clusterRoleListerGet "" name)
  match r with
  | .error err =>
    if IsNotFound err then pure (none, none)
    else pure (none, some err)
  | .ok role =>
    -- `reflect.DeepEqual` on two slices of rules is equality of the two `Slice`s.
    if role.Rules ≠ rules then do
      -- `role.Rules = rules` writes through the pointer into the cached view
      M.silent (fun s => ((), c.clusterRoleAssignRules role rules s))
      let role := { role with Rules := rules }
      let updated ← M.call (.clusterRoleUpdate role) (c.clusterRoleUpdate role)
      pure (some updated.1, updated.2)
    else pure (some role, none)

/-- The object `createRole` passes to `Create`. -/
def clusterRoleObject (user : DefaultInfo) (rules : Slice PolicyRule) : ClusterRole := {
  ObjectMeta := {
    Name := ImpersonationPrefix ++ user.UID,
    Labels := [(impersonationLabel, "true")] },
  Rules := rules,
  AggregationRule := none }

/-- `Impersonator.createRole`. -/
def createRole (c : Client σ) (user : DefaultInfo) (rules : Slice PolicyRule) :
    M σ (Option ClusterRole × Option Err) := do
  let name := ImpersonationPrefix ++ user.UID
  let r ← M.call (.clusterRoleListerGet "" name) (c.clusterRoleListerGet "" name)
  match r with
  | .ok role => pure (some role, none)
  | .error err =>
    if IsNotFound err then do
      let obj := clusterRoleObject user rules
      let created ← M.call (.clusterRoleCreate obj) (c.clusterRoleCreate obj)
      match created.2 with
      | some err =>
        if IsAlreadyExists err then do
          let got ← M.call (.clusterRoleGet name) (c.clusterRoleGet name)
          pure (some got.1, got.2)
        else pure (some created.1, none)
      | none => pure (some created.1, none)
    else pure (none, some err)

/-- The object `createRoleBinding` passes to `Create`. -/
def clusterRoleBindingObject (name : String) (role : ClusterRole) (sa : ServiceAccount) :
    ClusterRoleBinding := {
  ObjectMeta := {
    Name := name,
    -- Use the clusterrole as the owner for the purposes of automatic cleanup
    OwnerReferences := [{
      Name := role.ObjectMeta.Name,
      UID := role.ObjectMeta.UID,
      APIVersion := "rbac.authorization.k8s.io/v1",
      Kind := "ClusterRole" }],
    Labels := [(impersonationLabel, "true")] },
  Subjects := [{
    Kind := "ServiceAccount",
    APIGroup := "",
    Name := sa.ObjectMeta.Name,
    Namespace := sa.ObjectMeta.Namespace }],
  RoleRef := {
    APIGroup := rbacGroupName,
    Kind := "ClusterRole",
    Name := role.ObjectMeta.Name } }

/-- `Impersonator.createRoleBinding`. -/
def createRoleBinding (c : Client σ) (user : DefaultInfo) (role : ClusterRole)
    (sa : ServiceAccount) : M σ (Option Err) := do
  let name := ImpersonationPrefix ++ user.UID
  let r ← M.call (.clusterRoleBindingListerGet "" name) (c.clusterRoleBindingListerGet "" name)
  match r with
  | .ok _ => pure none
  | .error err =>
    if IsNotFound err then do
      let obj := clusterRoleBindingObject name role sa
      let created ← M.call (.clusterRoleBindingCreate obj) (c.clusterRoleBindingCreate obj)
      match created.2 with
      | some err => if IsAlreadyExists err then pure none else pure (some err)
      | none => pure none
    else pure (some err)

/-- The condition closure of `waitForServiceAccount`: one poll. It assigns the captured
variable `ret` (a nil `ret` is `none`) and reports whether the wait is over. -/
def waitCondition (c : Client σ) (sa : ServiceAccount) (_ret : Option ServiceAccount) :
    M σ (Option ServiceAccount × Bool × Option Err) := do
  let r ← M.call (.serviceAccountListerGet impersonationNamespace sa.ObjectMeta.Name)
    (c.serviceAccountListerGet impersonationNamespace sa.ObjectMeta.Name)
  match r with
  | .error err =>
    if IsNotFound err then pure (none, false, none)
    else pure (none, false, some err)
  | .ok ret =>
    if ret.Secrets.length > 0 then pure (some ret, true, none)
    else pure (some ret, false, none)

/-- `Impersonator.waitForServiceAccount`: `Steps` is 10, `Duration`, `Factor` and
`Jitter` only set the length of the sleeps. -/
def waitForServiceAccount (c : Client σ) (sa : ServiceAccount) :
    M σ (Option ServiceAccount × Option Err) := do
  let res ← ExponentialBackoff 10 (waitCondition c sa) none
  match res.2 with
  | some err => do
    if c.traceLevel then
      let _ ← M.call (.serviceAccountListerList impersonationNamespace)
        (c.serviceAccountListerList impersonationNamespace)
      pure ()
    pure (none, some (.wrap ("failed to get secret for service account: "
      ++ sa.ObjectMeta.Namespace ++ "/" ++ sa.ObjectMeta.Name ++ ", error: ") err))
  | none => pure (res.1, none)

/-- `Impersonator.SetUpImpersonation`. -/
def SetUpImpersonation (c : Client σ) (user : DefaultInfo) :
    M σ (Option ServiceAccount × Option Err) := do
  let rules : Slice PolicyRule := rulesForUser user
  let checked ← checkAndUpdateRole c user rules
  match checked.2 with
  | some err => pure (none, some err)
  | none =>
  match checked.1 with
  | some _ => getServiceAccount c user
  | none => do
  let err ← createNamespace c
  match err with
  | some err => pure (none, some err)
  | none => do
  let created ← createRole c user rules
  match created.2 with
  | some err => pure (none, some err)
  | none =>
  match created.1 with
  | none => pure (none, some nilDereference)
  | some role => do
  let ensured ← createServiceAccount c user role
  match ensured.2 with
  | some err => pure (none, some err)
  | none =>
  match ensured.1 with
  | none => pure (none, some nilDereference)
  | some sa => do
  let err ← createRoleBinding c user role sa
  match err with
  | some err => pure (none, some err)
  | none => waitForServiceAccount c sa

/-! ## pkg/controllers/managementuser/rbac/impersonation_handler.go -/

/-- One of the orders in which a `range` may visit the entries of a map: order number
`seed` of all the orders of `entries`, the first of which is the stored one. Every
order is a rearrangement of the entries, and every rearrangement has a number (see
`visitOrder_perm` and `visitOrder_any`). -/
def visitOrder {α : Type} (seed : Nat) (entries : List α) : List α :=
  entries.permutations'.getD seed entries

/-- The two nested `range` loops of `getUser` once the order `visited` of the outer one,
which ranges over a map, is chosen: append the name of every principal of every entry,
entries as visited and items in order. -/
def appendGroupPrincipals (groups : List String) (visited : List (String × Principals)) :
    List String :=
  visited.foldl (fun groups gps =>
    gps.2.Items.foldl (fun groups principal => groups ++ [principal.Name]) groups) groups

/-- Assignment `m[k] = v` on a map. -/
def mapSet {β : Type} (m : List (String × β)) (k : String) (v : β) : List (String × β) :=
  m.filter (fun kv => kv.1 ≠ k) ++ [(k, v)]

/-- `manager.getUser`. On an error the Go code returns an empty `DefaultInfo` with it. -/
def getUser (c : Client σ) (username groupname : String) : M σ (DefaultInfo × Option Err) := do
  let r ← M.call (.userListerGet "" username) (c.userListerGet "" username)
  match r with
  | .error err => pure ({}, some err)
  | .ok u => do
    let groups := ["system:authenticated", "system:cattle:authenticated"]
    let groups := if groupname ≠ "" then groups ++ [groupname] else groups
    let r ← M.call (.userAttributeListerGet "" username) (c.userAttributeListerGet "" username)
    let build (groups : List String) : DefaultInfo :=
      let user : DefaultInfo := {
        UID := u.Name,
        Name := u.Username,
        Groups := groups,
        Extra := [("username", [u.Username])] }
      if u.PrincipalIDs.length > 0 then
        { user with Extra := mapSet user.Extra "principalid" u.PrincipalIDs }
      else user
    match r with
    | .error err =>
      if !IsNotFound err then pure ({}, some err)
      else pure (build groups, none)
    | .ok attribs => do
      -- `range attribs.GroupPrincipals` ranges over a map
      let seed ← M.silent c.rangeOrder
      pure (build (appendGroupPrincipals groups (visitOrder seed attribs.GroupPrincipals)),
        none)

/-- `manager.ensureServiceAccountImpersonator`. -/
def ensureServiceAccountImpersonator (c : Client σ) (username groupname : String) :
    M σ (Option Err) := do
  let got ← getUser c username groupname
  match got.2 with
  | some err =>
    if IsNotFound err then pure none
    else pure (some err)
  | none => do
    let res ← SetUpImpersonation c got.1
    pure res.2

/-- `manager.deleteServiceAccountImpersonator`. -/
def deleteServiceAccountImpersonator (c : Client σ) (username : String) : M σ (Option Err) := do
  let key := c.ClusterName ++ "-" ++ username
  let crtbs ← M.call (.crtbByIndex c.rtbByClusterAndUserIndex key)
    (c.crtbByIndex c.rtbByClusterAndUserIndex key)
  match crtbs with
  | .error err => pure (some err)
  | .ok crtbs => do
    let prtbs ← M.call (.prtbByIndex c.rtbByClusterAndUserIndex key)
      (c.prtbByIndex c.rtbByClusterAndUserIndex key)
    match prtbs with
    | .error err => pure (some err)
    | .ok prtbs =>
      if crtbs.length + prtbs.length > 0 then pure none
      else do
        let roleName := ImpersonationPrefix ++ username
        let err ← M.call (.clusterRoleDelete roleName) (c.clusterRoleDelete roleName)
        match err with
        | some err => if IsNotFound err then pure none else pure (some err)
        | none => pure none

end Code

/-! ## A reference environment: an object store with a lagging cached view

The code runs against any `Client`. The statements that relate two successive calls
need an environment in which a write is seen by later reads; `kube` is such an
environment. The remote store holds the objects by name, ClusterRoles as the server
returns them (`ClusterRole.served`). The cached view is a copy of the store that is
brought up to date only by a `sync` background step. Before it
answers a call the environment takes the next step of its schedule, which stands for
what the cluster does on its own between two calls of the reconciler. -/

/-- The objects of a cluster, per kind. -/
structure Objects where
  clusterRoles : List ClusterRole := []
  namespaces : List Namespace := []
  serviceAccounts : List ServiceAccount := []
  clusterRoleBindings : List ClusterRoleBinding := []
  secrets : List Secret := []
  deriving DecidableEq, Repr

/-- What the cluster does on its own between two calls. -/
inductive Background
  /-- Nothing happens. -/
  | idle
  /-- The cached view catches up with the store. -/
  | sync
  /-- The token controller makes the secret `secret` holding `token` and attaches it to
  the service account `sa` of the impersonation namespace, if there is one. -/
  | attachToken (sa secret token : String)
  /-- Another writer creates the cluster role `role`, unless one of that name exists. -/
  | createClusterRole (role : ClusterRole)
  deriving DecidableEq, Repr

/-- State of the reference environment. -/
structure World where
  users : List User := []
  userAttributes : List (String × UserAttribute) := []
  /-- Cluster-scoped grants as (index key, grant name). -/
  crtbs : List (String × String) := []
  /-- Project-scoped grants as (index key, grant name). -/
  prtbs : List (String × String) := []
  store : Objects := {}
  cache : Objects := {}
  schedule : List Background := []
  /-- The orders the runtime will choose for the next `range` loops over a map, as
  numbers for `visitOrder`; the stored order once the list is used up. -/
  rangeSeeds : List Nat := []
  deriving DecidableEq, Repr

/-- The status error of a missing object. -/
def notFoundErr (kind name : String) : Err :=
  .status .notFound (kind ++ " \"" ++ name ++ "\" not found")

/-- The status error of a create on a name that is taken. -/
def alreadyExistsErr (kind name : String) : Err :=
  .status .alreadyExists (kind ++ " \"" ++ name ++ "\" already exists")

/-- Attach a secret reference to the service account `sa` of the impersonation
namespace. -/
def attachSecret (sa secret : String) (sas : List ServiceAccount) : List ServiceAccount :=
  sas.map (fun a =>
    if a.ObjectMeta.Name = sa ∧ a.ObjectMeta.Namespace = impersonationNamespace then
      { a with Secrets := a.Secrets ++ [{ Name := secret }] }
    else a)

/-- One background step on the store and the cached view. -/
def Background.apply (w : World) : Background → World
  | .idle => w
  | .sync => { w with cache := w.store }
  | .attachToken sa secret token =>
    if w.store.serviceAccounts.any (fun a =>
        a.ObjectMeta.Name = sa ∧ a.ObjectMeta.Namespace = impersonationNamespace) then
      { w with store := { w.store with
          serviceAccounts := attachSecret sa secret w.store.serviceAccounts,
          secrets := w.store.secrets ++ [{
            ObjectMeta := { Name := secret, Namespace := impersonationNamespace },
            Data := [("token", token)] }] } }
    else w
  | .createClusterRole role =>
    if w.store.clusterRoles.any (fun r => r.ObjectMeta.Name = role.ObjectMeta.Name) then w
    else { w with store := { w.store with clusterRoles := w.store.clusterRoles ++ [role] } }

/-- Take the next step of the schedule. -/
def World.tick (w : World) : World :=
  match w.schedule with
  | [] => w
  | b :: rest => b.apply { w with schedule := rest }

/-- A list field that the API marks `omitempty`, after a round trip through the server:
an empty list is not transmitted and is read back as the nil slice. -/
def Slice.omitEmpty {α : Type} : Slice α → Slice α
  | .of [] => .nil
  | s => s

/-- A policy rule as the server stores and returns it. Of the fields of
`rbacv1.PolicyRule` all but `verbs` are `omitempty`. -/
def PolicyRule.served (r : PolicyRule) : PolicyRule :=
  { r with
    APIGroups := r.APIGroups.omitEmpty,
    Resources := r.Resources.omitEmpty,
    ResourceNames := r.ResourceNames.omitEmpty,
    NonResourceURLs := r.NonResourceURLs.omitEmpty }

/-- A rule list as the server stores and returns it; `rules` itself is not
`omitempty`. -/
def servedRules : Slice PolicyRule → Slice PolicyRule
  | .nil => .nil
  | .of rules => .of (rules.map PolicyRule.served)

/-- A ClusterRole as the server stores and returns it. -/
def ClusterRole.served (role : ClusterRole) : ClusterRole :=
  { role with Rules := servedRules role.Rules }

/-- A lister `Get` on a list of objects: the first with the name, or not found. -/
def listerGet {α : Type} (kind : String) (key : α → String × String) (objs : List α)
    (ns name : String) : Except Err α :=
  match objs.find? (fun o => key o = (ns, name)) with
  | some o => .ok o
  | none => .error (notFoundErr kind name)

/-- The reference environment as a `Client` for the cluster named `cluster`. -/
def kube (cluster : String) : Client World where
  ClusterName := cluster
  traceLevel := false
  rtbByClusterAndUserIndex := "rtbByClusterAndUser"
  rangeOrder := fun w => (w.rangeSeeds.headD 0, { w with rangeSeeds := w.rangeSeeds.tail })
  clusterRoleAssignRules := fun role rules w =>
    { w with cache := { w.cache with
      clusterRoles := w.cache.clusterRoles.map (fun r =>
        if r.ObjectMeta.Name = role.ObjectMeta.Name then { r with Rules := rules } else r) } }
  userListerGet := fun _ name w =>
    (listerGet "user" (fun u => ("", u.Name)) w.users "" name, w)
  userAttributeListerGet := fun _ name w =>
    (match w.userAttributes.lookup name with
      | some a => .ok a
      | none => .error (notFoundErr "userattribute" name), w)
  crtbByIndex := fun _ key w => (.ok ((w.crtbs.filter (fun g => g.1 = key)).map (·.2)), w)
  prtbByIndex := fun _ key w => (.ok ((w.prtbs.filter (fun g => g.1 = key)).map (·.2)), w)
  clusterRoleListerGet := fun _ name w =>
    let w := w.tick
    (listerGet "clusterrole" (fun o => ("", o.ObjectMeta.Name)) w.cache.clusterRoles "" name, w)
  clusterRoleCreate := fun obj w =>
    let w := w.tick
    let obj := obj.served
    if w.store.clusterRoles.any (fun r => r.ObjectMeta.Name = obj.ObjectMeta.Name) then
      ((obj, some (alreadyExistsErr "clusterrole" obj.ObjectMeta.Name)), w)
    else
      ((obj, none), { w with store := { w.store with
        clusterRoles := w.store.clusterRoles ++ [obj] } })
  clusterRoleUpdate := fun obj w =>
    let w := w.tick
    let obj := obj.served
    if w.store.clusterRoles.any (fun r => r.ObjectMeta.Name = obj.ObjectMeta.Name) then
      ((obj, none), { w with store := { w.store with
        clusterRoles := w.store.clusterRoles.map (fun r =>
          if r.ObjectMeta.Name = obj.ObjectMeta.Name then obj else r) } })
    else ((obj, some (notFoundErr "clusterrole" obj.ObjectMeta.Name)), w)
  clusterRoleGet := fun name w =>
    let w := w.tick
    (match w.store.clusterRoles.find? (fun r => r.ObjectMeta.Name = name) with
      | some r => (r, none)
      | none => ({}, some (notFoundErr "clusterrole" name)), w)
  clusterRoleDelete := fun name w =>
    let w := w.tick
    if w.store.clusterRoles.any (fun r => r.ObjectMeta.Name = name) then
      (none, { w with store := { w.store with
        clusterRoles := w.store.clusterRoles.filter (fun r => r.ObjectMeta.Name ≠ name) } })
    else (some (notFoundErr "clusterrole" name), w)
  namespaceListerGet := fun _ name w =>
    let w := w.tick
    (listerGet "namespace" (fun o => ("", o.ObjectMeta.Name)) w.cache.namespaces "" name, w)
  namespaceCreate := fun obj w =>
    let w := w.tick
    if w.store.namespaces.any (fun r => r.ObjectMeta.Name = obj.ObjectMeta.Name) then
      ((obj, some (alreadyExistsErr "namespace" obj.ObjectMeta.Name)), w)
    else
      ((obj, none), { w with store := { w.store with namespaces := w.store.namespaces ++ [obj] } })
  serviceAccountListerGet := fun ns name w =>
    let w := w.tick
    (listerGet "serviceaccount" (fun o => (o.ObjectMeta.Namespace, o.ObjectMeta.Name))
      w.cache.serviceAccounts ns name, w)
  serviceAccountListerList := fun ns w =>
    let w := w.tick
    (.ok (w.cache.serviceAccounts.filter (fun o => o.ObjectMeta.Namespace = ns)), w)
  serviceAccountCreate := fun ns obj w =>
    let w := w.tick
    let obj := { obj with ObjectMeta := { obj.ObjectMeta with Namespace := ns } }
    if w.store.serviceAccounts.any (fun r =>
        r.ObjectMeta.Name = obj.ObjectMeta.Name ∧ r.ObjectMeta.Namespace = ns) then
      ((obj, some (alreadyExistsErr "serviceaccount" obj.ObjectMeta.Name)), w)
    else
      ((obj, none), { w with store := { w.store with
        serviceAccounts := w.store.serviceAccounts ++ [obj] } })
  serviceAccountGet := fun ns name w =>
    let w := w.tick
    (match w.store.serviceAccounts.find? (fun r =>
        r.ObjectMeta.Name = name ∧ r.ObjectMeta.Namespace = ns) with
      | some r => (r, none)
      | none => ({}, some (notFoundErr "serviceaccount" name)), w)
  clusterRoleBindingListerGet := fun _ name w =>
    let w := w.tick
    (listerGet "clusterrolebinding" (fun o => ("", o.ObjectMeta.Name))
      w.cache.clusterRoleBindings "" name, w)
  clusterRoleBindingCreate := fun obj w =>
    let w := w.tick
    if w.store.clusterRoleBindings.any (fun r => r.ObjectMeta.Name = obj.ObjectMeta.Name) then
      ((obj, some (alreadyExistsErr "clusterrolebinding" obj.ObjectMeta.Name)), w)
    else
      ((obj, none), { w with store := { w.store with
        clusterRoleBindings := w.store.clusterRoleBindings ++ [obj] } })
  secretListerGet := fun ns name w =>
    let w := w.tick
    (listerGet "secret" (fun o => (o.ObjectMeta.Namespace, o.ObjectMeta.Name))
      w.cache.secrets ns name, w)
  secretListerList := fun ns w =>
    let w := w.tick
    (.ok (w.cache.secrets.filter (fun o => o.ObjectMeta.Namespace = ns)), w)

/-! ## Statement vocabulary and scenario environments -/

/-- The impersonation rule for `resource` of `apiGroup`, restricted to `names`. -/
def impersonateRule (apiGroup resource : String) (names : Slice String) : PolicyRule :=
  { Verbs := ["impersonate"], APIGroups := [apiGroup], Resources := [resource],
    ResourceNames := names }

/-- The environment of the teardown scenarios: the cluster `cluster-7`, whose
per-project grant index is not registered, so that a lookup in it fails. -/
def brokenProjectIndex : Client World :=
  { kube "cluster-7" with
    prtbByIndex := fun name _ w => (.error (.plain ("Index with name " ++ name ++ " does not exist")), w) }

/-- An environment whose user lister fails with a server error. -/
def brokenUserLister : Client World :=
  { kube "cluster-7" with
    userListerGet := fun _ _ w => (.error (.status (.other "InternalError") "etcd timeout"), w) }

/-- An environment whose user attribute lister fails with a server error. -/
def brokenAttributeLister : Client World :=
  { kube "cluster-7" with
    userAttributeListerGet := fun _ _ w =>
      (.error (.status (.other "InternalError") "etcd timeout"), w) }

/-- The identity of the scenarios: user `u-1`, login `alice`, the two baseline groups. -/
def alice : DefaultInfo := {
  UID := "u-1",
  Name := "alice",
  Groups := ["system:authenticated", "system:cattle:authenticated"],
  Extra := [("username", ["alice"])] }

/-- The identity of `alice` as a caller hands it over with an empty, non-nil list of
principal IDs in its extras. -/
def aliceNoIds : DefaultInfo :=
  { alice with Extra := [("username", ["alice"]), ("principalid", .of [])] }

/-- A ClusterRole for `alice` left without rules. -/
def staleRole : ClusterRole := { ObjectMeta := { Name := "cattle-impersonation-u-1" } }

/-- The service account of `alice` with a token secret attached. -/
def readyAccount : ServiceAccount := {
  ObjectMeta := { Name := "cattle-impersonation-u-1", Namespace := "cattle-impersonation-system" },
  Secrets := [{ Name := "tok-1" }] }

/-- A cluster that holds `staleRole` and `readyAccount`, in the store and in the cached
view alike. -/
def staleWorld : World := {
  store := { clusterRoles := [staleRole], serviceAccounts := [readyAccount] },
  cache := { clusterRoles := [staleRole], serviceAccounts := [readyAccount] } }

/-- The world `staleWorld` after the rules of `staleRole` have been replaced by those of
`alice`: by the assignment in the cached object, by the update in the store. -/
def updatedWorld : World := {
  store := { clusterRoles := [{ staleRole with Rules := rulesForUser alice }],
             serviceAccounts := [readyAccount] },
  cache := { clusterRoles := [{ staleRole with Rules := rulesForUser alice }],
             serviceAccounts := [readyAccount] } }

/-- An environment whose ClusterRole `Create` is refused by the server: it returns an
empty object together with a Forbidden error, as the typed client does on a failure. -/
def brokenRoleCreate : Client World :=
  { kube "c1" with
    clusterRoleCreate := fun _ w =>
      (({}, some (.status (.other "Forbidden") "clusterroles is forbidden")), w.tick) }

/-- An empty cluster whose token controller attaches a token to the service account of
`alice` at the ninth call, followed by a catch-up of the cached view. -/
def tokenSoon : World := {
  schedule := [.idle, .idle, .idle, .idle, .idle, .idle, .idle, .idle,
    .attachToken "cattle-impersonation-u-1" "tok-1" "abc", .sync] }

/-- The four objects of `alice` as another writer has just created them. -/
def racedObjects : Objects := {
  clusterRoles := [clusterRoleObject alice (rulesForUser alice)],
  namespaces := [namespaceObject],
  serviceAccounts := [readyAccount],
  clusterRoleBindings := [clusterRoleBindingObject "cattle-impersonation-u-1"
    (clusterRoleObject alice (rulesForUser alice)) readyAccount] }

/-- A cluster that holds `racedObjects` while the cached view is still empty. -/
def racedWorld : World := { store := racedObjects }

/-- The name of the operation of a call, without its arguments. -/
def Call.op : Call → String
  | .userListerGet _ _ => "userLister.Get"
  | .userAttributeListerGet _ _ => "userAttributeLister.Get"
  | .crtbByIndex _ _ => "crtbIndexer.ByIndex"
  | .prtbByIndex _ _ => "prtbIndexer.ByIndex"
  | .clusterRoleListerGet _ _ => "ClusterRoles.Lister.Get"
  | .clusterRoleCreate _ => "ClusterRoles.Create"
  | .clusterRoleUpdate _ => "ClusterRoles.Update"
  | .clusterRoleGet _ => "ClusterRoles.Get"
  | .clusterRoleDelete _ => "ClusterRoles.Delete"
  | .namespaceListerGet _ _ => "Namespaces.Lister.Get"
  | .namespaceCreate _ => "Namespaces.Create"
  | .serviceAccountListerGet _ _ => "ServiceAccounts.Lister.Get"
  | .serviceAccountListerList _ => "ServiceAccounts.Lister.List"
  | .serviceAccountCreate _ _ => "ServiceAccounts.Create"
  | .serviceAccountGet _ _ => "ServiceAccounts.Get"
  | .clusterRoleBindingListerGet _ _ => "ClusterRoleBindings.Lister.Get"
  | .clusterRoleBindingCreate _ => "ClusterRoleBindings.Create"
  | .secretListerGet _ _ => "Secrets.Lister.Get"
  | .secretListerList _ => "Secrets.Lister.List"

/-- Environment state before poll number `i` (counted from 0) of a wait for `sa` that
starts in `s`: the state the previous polls have left. -/
def pollState {σ : Type} (c : Client σ) (sa : ServiceAccount) (s : σ) (i : Nat) : σ :=
  (fun t => (c.serviceAccountListerGet impersonationNamespace sa.ObjectMeta.Name t).2)^[i] s

/-- A poll answer that leaves the wait going: not found, or an account without secrets. -/
def notReady : Except Err ServiceAccount → Bool
  | .error e => IsNotFound e
  | .ok a => a.Secrets.length = 0

/-- The service account of `alice` as created, before a token secret is attached. -/
def pendingAccount : ServiceAccount := {
  ObjectMeta := { Name := "cattle-impersonation-u-1", Namespace := "cattle-impersonation-system" } }

/-- A cluster whose token controller never serves the service account of `alice`. -/
def pendingWorld : World := {
  store := { serviceAccounts := [pendingAccount] },
  cache := { serviceAccounts := [pendingAccount] } }

/-- The reference environment with trace logging switched on. -/
def traceKube : Client World := { kube "c1" with traceLevel := true }

/-- A cluster in which the token secret of `readyAccount` is cached. -/
def tokenWorld : World := {
  cache := { secrets := [{
    ObjectMeta := { Name := "tok-1", Namespace := "cattle-impersonation-system" },
    Data := [("ca.crt", "pem"), ("token", "abc")] }] } }

/-- A management store with the user `u-bob` (login `bob`) who belongs to groups of two
identity providers. -/
def bobWorld : World := {
  users := [{ Name := "u-bob", Username := "bob", PrincipalIDs := ["local://u-bob"] }],
  userAttributes := [("u-bob", { GroupPrincipals := [
    ("github", { Items := [{ Name := "github_team://1" }, { Name := "github_org://2" }] }),
    ("openldap", { Items := [{ Name := "openldap_group://cn=dev" }] })] })] }

/-- A management store like `bobWorld` in which the runtime visits the group principals
of the next `range` loop in the other order. -/
def bobShuffled : World := { bobWorld with rangeSeeds := [1] }

/-! ## Vocabulary for two successive calls in the reference environment -/

/-- Whether `o` holds a ClusterRole named `n`. -/
def hasRole (o : Objects) (n : String) : Bool :=
  o.clusterRoles.any (fun r => r.ObjectMeta.Name = n)

/-- Whether `o` holds a service account named `n` in the impersonation namespace. -/
def hasAccount (o : Objects) (n : String) : Bool :=
  o.serviceAccounts.any (fun a =>
    a.ObjectMeta.Name = n ∧ a.ObjectMeta.Namespace = impersonationNamespace)

/-- The cached view lags the store for the name `n`: it shows a ClusterRole or a service
account of that name only if the store holds one. -/
def World.lags (w : World) (n : String) : Prop :=
  (hasRole w.cache n = true → hasRole w.store n = true)
  ∧ (hasAccount w.cache n = true → hasAccount w.store n = true)

/-- What is known of a world during a call for the name `n`: the cached view lags the
store, the management records are `us` and `as`, and the store holds the role if `R`
and the service account if `A`. -/
def Held (n : String) (us : List User) (as : List (String × UserAttribute)) (R A : Prop)
    (w : World) : Prop :=
  w.lags n ∧ w.users = us ∧ w.userAttributes = as
  ∧ (R → hasRole w.store n = true) ∧ (A → hasAccount w.store n = true)

/-- Hoare triple on logged computations: from a state with `P`, `m` ends with `Q`. -/
def Triple {σ α : Type} (P : σ → Prop) (m : M σ α) (Q : α → σ → Prop) : Prop :=
  ∀ st : σ × List Call, P st.1 → Q (m st).1 (m st).2.1

/-- The cached view and the store both hold the role `n`, with rule list `rules`, and
the service account `n`. -/
def Settled (n : String) (rules : Slice PolicyRule) (w : World) : Prop :=
  (hasRole w.cache n = true ∧ hasAccount w.cache n = true
    ∧ ∀ r ∈ w.cache.clusterRoles, r.ObjectMeta.Name = n → r.Rules = rules)
  ∧ (hasRole w.store n = true ∧ hasAccount w.store n = true
    ∧ ∀ r ∈ w.store.clusterRoles, r.ObjectMeta.Name = n → r.Rules = rules)

/-- The identity of `alice` as a concurrent call with groupname `devs` resolves it. -/
def aliceDevs : DefaultInfo := { alice with Groups := alice.Groups ++ ["devs"] }

/-- The ClusterRole that the concurrent call for `aliceDevs` creates. -/
def rivalRole : ClusterRole := clusterRoleObject aliceDevs (rulesForUser aliceDevs)

/-- An empty cluster with an empty cached view and the user record of `alice`. While
the first call runs, a concurrent call creates `rivalRole` just before the role
`Create`, and the token controller serves the new service account. -/
def raceWorld : World := {
  users := [{ Name := "u-1", Username := "alice" }],
  schedule := [.idle, .idle, .idle, .idle, .createClusterRole rivalRole, .idle, .idle, .idle,
    .attachToken "cattle-impersonation-u-1" "tok-1" "abc", .sync] }

/-- The same cluster without the concurrent call. -/
def calmWorld : World := {
  users := [{ Name := "u-1", Username := "alice" }],
  schedule := [.idle, .idle, .idle, .idle, .idle, .idle, .idle, .idle,
    .attachToken "cattle-impersonation-u-1" "tok-1" "abc", .sync] }

/-- The extras `getUser` builds for the user record `u`. -/
def extrasOf (u : User) : List (String × Slice String) :=
  if u.PrincipalIDs.length > 0 then [("username", [u.Username]), ("principalid", u.PrincipalIDs)]
  else [("username", [u.Username])]

/-- A management store whose user record has an empty object name. -/
def namelessWorld : World := { users := [{ Name := "", Username := "ghost" }] }

/-- An environment whose ClusterRole `Delete` is refused by the server. -/
def brokenRoleDelete : Client World :=
  { kube "cluster-7" with
    clusterRoleDelete := fun _ w =>
      (some (.status (.other "Forbidden") "clusterroles is forbidden"), w.tick) }

/-- A cluster that holds `staleRole` and none of the other objects of `alice`. -/
def staleRoleWorld : World := {
  store := { clusterRoles := [staleRole] },
  cache := { clusterRoles := [staleRole] } }

/-- The ClusterRole of `alice` with her current rules. -/
def currentRole : ClusterRole := clusterRoleObject alice (rulesForUser alice)

/-- A cluster that holds `currentRole` and `readyAccount`, cached. -/
def settledWorld : World := {
  store := { clusterRoles := [currentRole], serviceAccounts := [readyAccount] },
  cache := { clusterRoles := [currentRole], serviceAccounts := [readyAccount] } }

/-- A cluster that holds `currentRole` and the service account of `alice` to which no
token secret has been attached yet, as an earlier call that timed out leaves it. -/
def pendingRoleWorld : World := {
  store := { clusterRoles := [currentRole], serviceAccounts := [pendingAccount] },
  cache := { clusterRoles := [currentRole], serviceAccounts := [pendingAccount] } }

/-- A cluster in which the service account of `alice` shows up in the cached view at
the second poll and gets its token in time for the fourth. -/
def lateTokenWorld : World := {
  store := { serviceAccounts := [pendingAccount] },
  schedule := [.idle, .sync, .attachToken "cattle-impersonation-u-1" "tok-1" "abc", .sync] }

/-- An environment whose cached service account read fails with a server error. -/
def brokenAccountLister : Client World :=
  { kube "c1" with
    serviceAccountListerGet := fun _ _ w =>
      (.error (.status (.other "InternalError") "cache not synced"), w.tick) }

/-- The service account of `alice` as the cluster returns it from the create call:
the object of `createServiceAccount` for `currentRole`, placed in the namespace. -/
def createdAccount : ServiceAccount :=
  { (serviceAccountObject "cattle-impersonation-u-1" currentRole) with
    ObjectMeta := { (serviceAccountObject "cattle-impersonation-u-1" currentRole).ObjectMeta with
      Namespace := "cattle-impersonation-system" } }

/-- Every call that `m` adds to the log satisfies `P`. -/
def Logs {σ α : Type} (m : M σ α) (P : Call → Prop) : Prop :=
  ∀ st : σ × List Call, ∃ new, (m st).2.2 = st.2 ++ new ∧ ∀ call ∈ new, P call

/-- The label every object of the reconciler carries. -/
def labelled (m : ObjectMeta) : Prop :=
  m.Labels.lookup "authz.cluster.cattle.io/impersonator" = some "true"

/-- The names, namespace, label and rules of the objects in the create calls for
`user`; other calls are not constrained. -/
def createdAsSpecified (user : DefaultInfo) : Call → Prop
  | .namespaceCreate o =>
    o.ObjectMeta.Name = "cattle-impersonation-system" ∧ labelled o.ObjectMeta
  | .clusterRoleCreate o =>
    o.ObjectMeta.Name = "cattle-impersonation-" ++ user.UID ∧ labelled o.ObjectMeta
    ∧ o.Rules = rulesForUser user
  | .serviceAccountCreate ns o =>
    ns = "cattle-impersonation-system"
    ∧ o.ObjectMeta.Name = "cattle-impersonation-" ++ user.UID ∧ labelled o.ObjectMeta
  | .clusterRoleBindingCreate o =>
    o.ObjectMeta.Name = "cattle-impersonation-" ++ user.UID ∧ labelled o.ObjectMeta
  | _ => True

/-- The one owner reference that points at `role`. -/
def ownerOf (role : ClusterRole) : List OwnerReference :=
  [{ APIVersion := "rbac.authorization.k8s.io/v1", Kind := "ClusterRole",
     Name := role.ObjectMeta.Name, UID := role.ObjectMeta.UID }]

/-- The key under which `deleteServiceAccountImpersonator` looks up the grants of
`username` on `cluster` in the two grant indexes. -/
def indexKey (cluster username : String) : String := cluster ++ "-" ++ username

/-- A management store with one cluster-scoped grant, of user `c` on cluster `a-b`,
indexed under the key of that pair. -/
def otherGrantWorld : World := { crtbs := [(indexKey "a-b" "c", "crtb-1")] }

/-- An environment whose service-account `Create` is refused by the server. -/
def brokenAccountCreate : Client World :=
  { kube "c1" with
    serviceAccountCreate := fun _ _ w =>
      (({}, some (.status (.other "Forbidden") "serviceaccounts is forbidden")), w.tick) }

/-- The ClusterRole name that a probe, a create, an uncached read or a delete addresses.
An update addresses the object the probe returned and is not listed. -/
def Call.roleName : Call → Option String
  | .clusterRoleListerGet _ name => some name
  | .clusterRoleCreate obj => some obj.ObjectMeta.Name
  | .clusterRoleGet name => some name
  | .clusterRoleDelete name => some name
  | _ => none

/-- The store holds a ClusterRole named `n`, and every ClusterRole of that name in the
store carries the rule list `rules`. -/
def Carries (n : String) (rules : Slice PolicyRule) (w : World) : Prop :=
  hasRole w.store n = true
  ∧ ∀ r ∈ w.store.clusterRoles, r.ObjectMeta.Name = n → r.Rules = rules

/-- Whether a log shows that the call has written the ClusterRole itself: it has
updated it, or it has created it without falling back, through the uncached `Get`, on
the role that another writer had created. -/
def wroteRole (log : List Call) : Bool :=
  log.any (fun call => call.op == "ClusterRoles.Update")
  || (log.any (fun call => call.op == "ClusterRoles.Create")
      && !log.any (fun call => call.op == "ClusterRoles.Get"))

/-- The computation `m` keeps the property `I` of the environment state. -/
def Pres {σ α : Type} (I : σ → Prop) (m : M σ α) : Prop :=
  ∀ st : σ × List Call, I st.1 → I (m st).2.1

/-- A management store with the user `u-bob` of `bobWorld` on an empty cluster whose
token controller serves the new service account. The runtime visits the group
principals in the stored order in the first `range` loop and in the other order in the
second. -/
def bobTwice : World := {
  bobWorld with
  schedule := [.idle, .idle, .idle, .idle, .idle, .idle, .idle, .idle,
    .attachToken "cattle-impersonation-u-bob" "tok-1" "abc", .sync],
  rangeSeeds := [0, 1] }

/-- If the log shows that the call has written the ClusterRole `n` itself, the store
carries `rules` for it. -/
def RulesKept (n : String) (rules : Slice PolicyRule) (st : World × List Call) : Prop :=
  wroteRole st.2 = true → Carries n rules st.1

/-- A cluster in which another writer has replaced the rules of the ClusterRole of
`alice` in the store, while the cached view still shows the role with her rules. -/
def staleCacheWorld : World := {
  users := [{ Name := "u-1", Username := "alice" }],
  store := { clusterRoles := [staleRole], serviceAccounts := [readyAccount] },
  cache := { clusterRoles := [currentRole], serviceAccounts := [readyAccount] } }

/-- A cluster whose cached view still shows the ClusterRole and the service account of
`alice` after both have been deleted from the store. -/
def ghostCacheWorld : World := {
  users := [{ Name := "u-1", Username := "alice" }],
  cache := { clusterRoles := [currentRole], serviceAccounts := [readyAccount] } }

/-! ## Basic facts about logged computations -/

section Basics

variable {σ α β : Type}

@[simp] theorem M.pure_apply (a : α) (st : σ × List Call) :
    (pure a : M σ α) st = (a, st) := rfl

@[simp] theorem M.bind_apply (m : M σ α) (f : α → M σ β) (st : σ × List Call) :
    (m >>= f) st = f (m st).1 (m st).2 := rfl

@[simp] theorem M.call_apply (c : Call) (f : σ → α × σ) (st : σ × List Call) :
    M.call c f st = ((f st.1).1, ((f st.1).2, st.2 ++ [c])) := rfl

@[simp] theorem M.silent_apply (f : σ → α × σ) (st : σ × List Call) :
    M.silent f st = ((f st.1).1, ((f st.1).2, st.2)) := rfl

end Basics

/-! ## Policy rule generator: results -/

/-- C1. For every identity, `rulesForUser` is exactly: the users rule for the uid;
then the groups rule with the whole groups list iff the list is non-empty; then the
`userextras/principalid` rule iff extras has key `principalid`; then the
`userextras/username` rule iff extras has key `username`. For uid `u-1`, no groups and
extras `username ↦ [alice]` this is the users rule followed by the username rule. -/
theorem rulesForUser_eq :
    (∀ user : DefaultInfo, rulesForUser user =
      [impersonateRule "" "users" [user.UID]]
      ++ (if user.Groups ≠ [] then [impersonateRule "" "groups" user.Groups] else [])
      ++ ((user.Extra.lookup "principalid").map
            (impersonateRule "authentication.k8s.io" "userextras/principalid")).toList
      ++ ((user.Extra.lookup "username").map
            (impersonateRule "authentication.k8s.io" "userextras/username")).toList)
    ∧ rulesForUser { UID := "u-1", Groups := [], Extra := [("username", ["alice"])] } =
      [impersonateRule "" "users" ["u-1"],
       impersonateRule "authentication.k8s.io" "userextras/username" ["alice"]] := by
  refine ⟨fun user => ?_, by decide⟩
  unfold rulesForUser impersonateRule
  cases hg : user.Groups <;> cases hp : user.Extra.lookup "principalid" <;>
    cases hu : user.Extra.lookup "username" <;> simp [hg, hp, hu]

/-! ## Lifecycle manager: teardown and the missing user -/

/-- C2, as stated, fails: for `carol` on `cluster-7` the per-cluster index returns one
entry, the per-project lookup fails, and `deleteServiceAccountImpersonator` returns
that error instead of success. -/
theorem deleteServiceAccountImpersonator_entry_and_error :
    (brokenProjectIndex.crtbByIndex brokenProjectIndex.rtbByClusterAndUserIndex "cluster-7-carol"
        { crtbs := [("cluster-7-carol", "crtb-1")] }).1 = .ok ["crtb-1"]
    ∧ (deleteServiceAccountImpersonator brokenProjectIndex "carol").result
        { crtbs := [("cluster-7-carol", "crtb-1")] }
      = some (.plain "Index with name rtbByClusterAndUser does not exist") := by
  decide

/-- C2, amended. When both grant-index lookups for the key `cluster-username` succeed
and at least one returns an entry, `deleteServiceAccountImpersonator` returns success
and issues no call besides the two lookups, hence no delete; when both return no
entry it issues exactly one further call, the delete of the ClusterRole
`cattle-impersonation-username`. -/
theorem deleteServiceAccountImpersonator_refcount {σ : Type} (c : Client σ) (username : String)
    (s s1 s2 : σ) (crtbs prtbs : List String)
    (h1 : c.crtbByIndex c.rtbByClusterAndUserIndex (c.ClusterName ++ "-" ++ username) s
      = (.ok crtbs, s1))
    (h2 : c.prtbByIndex c.rtbByClusterAndUserIndex (c.ClusterName ++ "-" ++ username) s1
      = (.ok prtbs, s2)) :
    (0 < crtbs.length ∨ 0 < prtbs.length →
      (deleteServiceAccountImpersonator c username).result s = none
      ∧ (deleteServiceAccountImpersonator c username).calls s =
        [.crtbByIndex c.rtbByClusterAndUserIndex (c.ClusterName ++ "-" ++ username),
         .prtbByIndex c.rtbByClusterAndUserIndex (c.ClusterName ++ "-" ++ username)]
      ∧ (deleteServiceAccountImpersonator c username).final s = s2)
    ∧ (crtbs.length = 0 ∧ prtbs.length = 0 →
      (deleteServiceAccountImpersonator c username).calls s =
        [.crtbByIndex c.rtbByClusterAndUserIndex (c.ClusterName ++ "-" ++ username),
         .prtbByIndex c.rtbByClusterAndUserIndex (c.ClusterName ++ "-" ++ username),
         .clusterRoleDelete (ImpersonationPrefix ++ username)]) := by
  constructor
  · intro h
    simp [deleteServiceAccountImpersonator, M.result, M.calls, M.final, h1, h2, h]
  · rintro ⟨ha, hb⟩
    rcases hd : c.clusterRoleDelete (ImpersonationPrefix ++ username) s2 with ⟨_ | e, s3⟩
    · simp [deleteServiceAccountImpersonator, M.calls, h1, h2, ha, hb, hd]
    · by_cases hn : IsNotFound e <;>
        simp [deleteServiceAccountImpersonator, M.calls, h1, h2, ha, hb, hd, hn]

/-- C2, amended, at concrete inputs: `carol` on `cluster-7` with one per-project grant
(no delete), and with no grant (one delete of `cattle-impersonation-carol`). -/
theorem deleteServiceAccountImpersonator_refcount_witness :
    ((deleteServiceAccountImpersonator (kube "cluster-7") "carol").result
        { prtbs := [("cluster-7-carol", "prtb-1")] } = none
      ∧ (deleteServiceAccountImpersonator (kube "cluster-7") "carol").calls
        { prtbs := [("cluster-7-carol", "prtb-1")] } =
        [.crtbByIndex "rtbByClusterAndUser" "cluster-7-carol",
         .prtbByIndex "rtbByClusterAndUser" "cluster-7-carol"]
      ∧ (deleteServiceAccountImpersonator (kube "cluster-7") "carol").final
        { prtbs := [("cluster-7-carol", "prtb-1")] } = { prtbs := [("cluster-7-carol", "prtb-1")] })
    ∧ (deleteServiceAccountImpersonator (kube "cluster-7") "carol").calls {} =
        [.crtbByIndex "rtbByClusterAndUser" "cluster-7-carol",
         .prtbByIndex "rtbByClusterAndUser" "cluster-7-carol",
         .clusterRoleDelete "cattle-impersonation-carol"] :=
  ⟨(deleteServiceAccountImpersonator_refcount (kube "cluster-7") "carol"
      { prtbs := [("cluster-7-carol", "prtb-1")] } { prtbs := [("cluster-7-carol", "prtb-1")] }
      { prtbs := [("cluster-7-carol", "prtb-1")] } [] ["prtb-1"] (by decide) (by decide)).1
      (by decide),
   (deleteServiceAccountImpersonator_refcount (kube "cluster-7") "carol" {} {} {} [] []
      (by decide) (by decide)).2 (by decide)⟩

/-- C3. If the user lookup fails with NotFound, `ensureServiceAccountImpersonator`
returns success and its only call is that lookup: no read or write reaches the
cluster. If the user lookup, or after a found user the attribute lookup, fails with
another error, that very error is returned and only the lookups were called. -/
theorem ensureServiceAccountImpersonator_lookup_failure {σ : Type} (c : Client σ)
    (username groupname : String) (s : σ) :
    (∀ e s1, c.userListerGet "" username s = (.error e, s1) → IsNotFound e = true →
      (ensureServiceAccountImpersonator c username groupname).result s = none
      ∧ (ensureServiceAccountImpersonator c username groupname).calls s
        = [.userListerGet "" username])
    ∧ (∀ e s1, c.userListerGet "" username s = (.error e, s1) → IsNotFound e = false →
      (ensureServiceAccountImpersonator c username groupname).result s = some e
      ∧ (ensureServiceAccountImpersonator c username groupname).calls s
        = [.userListerGet "" username])
    ∧ (∀ u s1 e s2, c.userListerGet "" username s = (.ok u, s1) →
      c.userAttributeListerGet "" username s1 = (.error e, s2) → IsNotFound e = false →
      (ensureServiceAccountImpersonator c username groupname).result s = some e
      ∧ (ensureServiceAccountImpersonator c username groupname).calls s
        = [.userListerGet "" username, .userAttributeListerGet "" username]) := by
  refine ⟨?_, ?_, ?_⟩
  · intro e s1 h hn
    simp [ensureServiceAccountImpersonator, getUser, M.result, M.calls, h, hn]
  · intro e s1 h hn
    simp [ensureServiceAccountImpersonator, getUser, M.result, M.calls, h, hn]
  · intro u s1 e s2 h h2 hn
    simp [ensureServiceAccountImpersonator, getUser, M.result, M.calls, h, h2, hn]

/-- C3 at concrete inputs: the missing user `bob`, a failing user lister, and a
failing attribute lister for the known user `bob`. -/
theorem ensureServiceAccountImpersonator_lookup_failure_witness :
    ((ensureServiceAccountImpersonator (kube "cluster-7") "bob" "").result {} = none
      ∧ (ensureServiceAccountImpersonator (kube "cluster-7") "bob" "").calls {}
        = [.userListerGet "" "bob"])
    ∧ ((ensureServiceAccountImpersonator brokenUserLister "bob" "").result {}
        = some (.status (.other "InternalError") "etcd timeout")
      ∧ (ensureServiceAccountImpersonator brokenUserLister "bob" "").calls {}
        = [.userListerGet "" "bob"])
    ∧ ((ensureServiceAccountImpersonator brokenAttributeLister "bob" "").result
          { users := [{ Name := "bob", Username := "Bob" }] }
        = some (.status (.other "InternalError") "etcd timeout")
      ∧ (ensureServiceAccountImpersonator brokenAttributeLister "bob" "").calls
          { users := [{ Name := "bob", Username := "Bob" }] }
        = [.userListerGet "" "bob", .userAttributeListerGet "" "bob"]) :=
  ⟨(ensureServiceAccountImpersonator_lookup_failure (kube "cluster-7") "bob" "" {}).1
      (notFoundErr "user" "bob") {} (by decide) (by decide),
   (ensureServiceAccountImpersonator_lookup_failure brokenUserLister "bob" "" {}).2.1
      (.status (.other "InternalError") "etcd timeout") {} (by decide) (by decide),
   (ensureServiceAccountImpersonator_lookup_failure brokenAttributeLister "bob" ""
      { users := [{ Name := "bob", Username := "Bob" }] }).2.2
      { Name := "bob", Username := "Bob" } { users := [{ Name := "bob", Username := "Bob" }] }
      (.status (.other "InternalError") "etcd timeout")
      { users := [{ Name := "bob", Username := "Bob" }] } (by decide) (by decide) (by decide)⟩

/-! ## Resource reconciler -/

/-- `createRole` returns a nil role only together with an error, so the nil branch
after it in `SetUpImpersonation` is never taken. -/
theorem createRole_nil {σ : Type} (c : Client σ) (user : DefaultInfo) (rules : Slice PolicyRule)
    (st : σ × List Call) (h : (createRole c user rules st).1.2 = none) :
    (createRole c user rules st).1.1.isSome = true := by
  rcases hg : c.clusterRoleListerGet "" (ImpersonationPrefix ++ user.UID) st.1 with ⟨res, s1⟩
  rcases hc : c.clusterRoleCreate (clusterRoleObject user rules) s1 with ⟨⟨o, err⟩, s2⟩
  simp only [createRole, M.bind_apply, M.call_apply, M.pure_apply, hg] at h ⊢
  cases res with
  | ok role => rfl
  | error e =>
    by_cases hn : IsNotFound e = true
    · cases err with
      | none => simp [hn, hc]
      | some e2 => by_cases ha : IsAlreadyExists e2 = true <;> simp [hn, hc, ha]
    · simp [hn] at h

/-- `createServiceAccount` returns a nil account only together with an error, so the
nil branch after it in `SetUpImpersonation` is never taken. -/
theorem createServiceAccount_nil {σ : Type} (c : Client σ) (user : DefaultInfo)
    (role : ClusterRole) (st : σ × List Call)
    (h : (createServiceAccount c user role st).1.2 = none) :
    (createServiceAccount c user role st).1.1.isSome = true := by
  rcases hg : c.serviceAccountListerGet impersonationNamespace (ImpersonationPrefix ++ user.UID)
    st.1 with ⟨res, s1⟩
  rcases hc : c.serviceAccountCreate impersonationNamespace
    (serviceAccountObject (ImpersonationPrefix ++ user.UID) role) s1 with ⟨⟨o, err⟩, s2⟩
  simp only [createServiceAccount, M.bind_apply, M.call_apply, M.pure_apply, hg] at h ⊢
  cases res with
  | ok sa => rfl
  | error e =>
    by_cases hn : IsNotFound e = true
    · cases err with
      | none => simp [hn, hc]
      | some e2 => by_cases ha : IsAlreadyExists e2 = true <;> simp [hn, hc, ha]
    · simp [hn] at h

/-- The reads of `getServiceAccount` add no write to the log. -/
theorem getServiceAccount_writes {σ : Type} (c : Client σ) (user : DefaultInfo)
    (st : σ × List Call) :
    ((getServiceAccount c user st).2.2).filter Call.isWrite = st.2.filter Call.isWrite := by
  rcases hg : c.serviceAccountListerGet impersonationNamespace (ImpersonationPrefix ++ user.UID) st.1
    with ⟨_ | sa, s1⟩
  · cases ht : c.traceLevel <;> simp [getServiceAccount, hg, ht, Call.isWrite]
  · simp [getServiceAccount, hg, Call.isWrite]

/-- A slice that is not the empty non-nil slice comes back from the server as it was
sent. -/
theorem Slice.omitEmpty_eq {α : Type} (s : Slice α) (h : s ≠ .of []) : s.omitEmpty = s := by
  cases s with
  | nil => rfl
  | of items =>
    cases items with
    | nil => exact absurd rfl h
    | cons a l => rfl

@[simp] theorem Slice.omitEmpty_nil {α : Type} : (Slice.nil : Slice α).omitEmpty = .nil := rfl

@[simp] theorem Slice.omitEmpty_cons {α : Type} (a : α) (l : List α) :
    (Slice.of (a :: l)).omitEmpty = .of (a :: l) := rfl

/-- The rules of an identity none of whose extras lists is empty and non-nil come back
from the server as they were sent. -/
theorem servedRules_rulesForUser (user : DefaultInfo)
    (hp : user.Extra.lookup "principalid" ≠ some (.of []))
    (hu : user.Extra.lookup "username" ≠ some (.of [])) :
    servedRules (rulesForUser user) = rulesForUser user := by
  have e1 : ∀ v, user.Extra.lookup "principalid" = some v → v.omitEmpty = v :=
    fun v hv => Slice.omitEmpty_eq v (fun hx => hp (hx ▸ hv))
  have e2 : ∀ v, user.Extra.lookup "username" = some v → v.omitEmpty = v :=
    fun v hv => Slice.omitEmpty_eq v (fun hx => hu (hx ▸ hv))
  show Slice.of _ = Slice.of _
  congr 1
  unfold rulesForUser
  rcases hp2 : user.Extra.lookup "principalid" with _ | vp <;>
    rcases hu2 : user.Extra.lookup "username" with _ | vu <;>
    cases hg : user.Groups
  · simp [hg, hp2, hu2, PolicyRule.served]
  · simp [hg, hp2, hu2, PolicyRule.served]
  · simp [hg, hp2, hu2, PolicyRule.served, e2 _ hu2]
  · simp [hg, hp2, hu2, PolicyRule.served, e2 _ hu2]
  · simp [hg, hp2, hu2, PolicyRule.served, e1 _ hp2]
  · simp [hg, hp2, hu2, PolicyRule.served, e1 _ hp2]
  · simp [hg, hp2, hu2, PolicyRule.served, e1 _ hp2, e2 _ hu2]
  · simp [hg, hp2, hu2, PolicyRule.served, e1 _ hp2, e2 _ hu2]

/-- C5, as stated, fails. The identity `aliceNoIds` has an empty list of principal IDs.
On `staleWorld` the first call issues the one `Update`; the server stores the rule with
the empty list as absent, so that with the cached view reflecting the update the rules
of the cached role are still not deep-equal to `rulesForUser`, and the following call
issues the same `Update` again, as does the call after it. -/
theorem SetUpImpersonation_updates_again :
    ((SetUpImpersonation (kube "c1") aliceNoIds).calls staleWorld).filter Call.isWrite
      = [.clusterRoleUpdate { staleRole with Rules := rulesForUser aliceNoIds }]
    ∧ ((SetUpImpersonation (kube "c1") aliceNoIds).calls
        { (SetUpImpersonation (kube "c1") aliceNoIds).final staleWorld with schedule := [.sync] }
      ).filter Call.isWrite
      = [.clusterRoleUpdate { staleRole with Rules := rulesForUser aliceNoIds }]
    ∧ ((SetUpImpersonation (kube "c1") aliceNoIds).calls
        { (SetUpImpersonation (kube "c1") aliceNoIds).final
            { (SetUpImpersonation (kube "c1") aliceNoIds).final staleWorld with
              schedule := [.sync] } with schedule := [.sync] }
      ).filter Call.isWrite
      = [.clusterRoleUpdate { staleRole with Rules := rulesForUser aliceNoIds }] := by
  decide

/-- C5, amended. If the cached probe finds the ClusterRole `cattle-impersonation-uid`
with a rule list that is not deep-equal to `rulesForUser`, the write calls of
`SetUpImpersonation` are exactly one `Update`, of that role with its rules replaced by
`rulesForUser` (same name, same other fields). From any later state in which the cached
probe shows a role whose rules are deep-equal to `rulesForUser`, `SetUpImpersonation`
issues no write call. The role of the update, as the server stores and returns it,
carries rules deep-equal to `rulesForUser` when neither the `principalid` nor the
`username` list of the extras is empty and non-nil. -/
theorem SetUpImpersonation_converges {σ : Type} (c : Client σ) (user : DefaultInfo)
    (s s1 : σ) (role : ClusterRole)
    (h : c.clusterRoleListerGet "" (ImpersonationPrefix ++ user.UID) s = (.ok role, s1))
    (hne : role.Rules ≠ rulesForUser user) :
    ((SetUpImpersonation c user).calls s).filter Call.isWrite
      = [.clusterRoleUpdate { role with Rules := rulesForUser user }]
    ∧ (∀ (role2 : ClusterRole) (t t1 : σ),
      c.clusterRoleListerGet "" (ImpersonationPrefix ++ user.UID) t = (.ok role2, t1) →
      role2.Rules = rulesForUser user →
      ((SetUpImpersonation c user).calls t).filter Call.isWrite = [])
    ∧ (user.Extra.lookup "principalid" ≠ some (.of []) →
      user.Extra.lookup "username" ≠ some (.of []) →
      ({ role with Rules := rulesForUser user } : ClusterRole).served.Rules
        = rulesForUser user) := by
  refine ⟨?_, ?_, ?_⟩
  · rcases hu : c.clusterRoleUpdate { role with Rules := rulesForUser user }
      (c.clusterRoleAssignRules role (rulesForUser user) s1) with ⟨⟨r, _ | e⟩, s2⟩
    · simp [SetUpImpersonation, checkAndUpdateRole, M.calls, h, hne, hu, getServiceAccount_writes,
        Call.isWrite]
    · simp [SetUpImpersonation, checkAndUpdateRole, M.calls, h, hne, hu, Call.isWrite]
  · intro role2 t t1 h2 heq
    simp [SetUpImpersonation, checkAndUpdateRole, M.calls, h2, heq, getServiceAccount_writes,
      Call.isWrite]
  · intro hp hu
    exact servedRules_rulesForUser user hp hu

/-- C5, amended, at a concrete input: on `staleWorld` the call for `alice`, whose extras
hold no empty list, issues the one update; once the cached view has caught up, the next
call issues no write. -/
theorem SetUpImpersonation_converges_witness :
    ((SetUpImpersonation (kube "c1") alice).calls staleWorld).filter Call.isWrite
      = [.clusterRoleUpdate { staleRole with Rules := rulesForUser alice }]
    ∧ ((SetUpImpersonation (kube "c1") alice).calls
        { (SetUpImpersonation (kube "c1") alice).final staleWorld with schedule := [.sync] }
      ).filter Call.isWrite = []
    ∧ ({ staleRole with Rules := rulesForUser alice } : ClusterRole).served.Rules
        = rulesForUser alice :=
  ⟨(SetUpImpersonation_converges (kube "c1") alice staleWorld staleWorld staleRole
      (by decide) (by decide)).1,
   (SetUpImpersonation_converges (kube "c1") alice staleWorld staleWorld staleRole
      (by decide) (by decide)).2.1 { staleRole with Rules := rulesForUser alice }
      { (SetUpImpersonation (kube "c1") alice).final staleWorld with schedule := [.sync] }
      updatedWorld (by decide) (by decide),
   (SetUpImpersonation_converges (kube "c1") alice staleWorld staleWorld staleRole
      (by decide) (by decide)).2.2 (by decide) (by decide)⟩

/-- C6, the failing input. The ClusterRole `Create` of `brokenRoleCreate` fails with a
Forbidden error, which is neither "already exists" nor "not found". `createRole`
returns the empty object with a nil error, and `SetUpImpersonation` goes on: it creates
the service account and the binding, polls, and returns a service account with a nil
error, while the store holds no ClusterRole. -/
theorem SetUpImpersonation_role_create_error_lost :
    (brokenRoleCreate.clusterRoleCreate (clusterRoleObject alice (rulesForUser alice)) {}).1.2
      = some (.status (.other "Forbidden") "clusterroles is forbidden")
    ∧ (createRole brokenRoleCreate alice (rulesForUser alice)).result {} = (some {}, none)
    ∧ ((SetUpImpersonation brokenRoleCreate alice).result tokenSoon).2 = none
    ∧ ((SetUpImpersonation brokenRoleCreate alice).result tokenSoon).1.isSome = true
    ∧ ((SetUpImpersonation brokenRoleCreate alice).calls tokenSoon).map Call.op
      = ["ClusterRoles.Lister.Get", "Namespaces.Lister.Get", "Namespaces.Create",
         "ClusterRoles.Lister.Get", "ClusterRoles.Create",
         "ServiceAccounts.Lister.Get", "ServiceAccounts.Create",
         "ClusterRoleBindings.Lister.Get", "ClusterRoleBindings.Create",
         "ServiceAccounts.Lister.Get"]
    ∧ ((SetUpImpersonation brokenRoleCreate alice).final tokenSoon).store.clusterRoles = [] := by
  decide

/-- C7. Race tolerance of the four create steps: when the cached probe reports
not-found and `Create` answers "already exists", `createNamespace` and
`createRoleBinding` return a nil error, and `createRole` and `createServiceAccount`
issue an authoritative `Get` of the same name after the `Create` and return exactly
what that `Get` returns (its object, and its error, nil when it succeeds). -/
theorem create_steps_tolerate_race {σ : Type} (c : Client σ) (user : DefaultInfo)
    (rules : List PolicyRule) (role : ClusterRole) (sa : ServiceAccount)
    (s s1 s2 : σ) (e e2 : Err) (hn : IsNotFound e = true) (ha : IsAlreadyExists e2 = true) :
    (∀ o, c.namespaceListerGet "" impersonationNamespace s = (.error e, s1) →
      c.namespaceCreate namespaceObject s1 = ((o, some e2), s2) →
      (createNamespace c).result s = none)
    ∧ (∀ o, c.clusterRoleBindingListerGet "" (ImpersonationPrefix ++ user.UID) s = (.error e, s1) →
      c.clusterRoleBindingCreate
        (clusterRoleBindingObject (ImpersonationPrefix ++ user.UID) role sa) s1 = ((o, some e2), s2) →
      (createRoleBinding c user role sa).result s = none)
    ∧ (∀ o, c.clusterRoleListerGet "" (ImpersonationPrefix ++ user.UID) s = (.error e, s1) →
      c.clusterRoleCreate (clusterRoleObject user rules) s1 = ((o, some e2), s2) →
      (createRole c user rules).result s
        = (some (c.clusterRoleGet (ImpersonationPrefix ++ user.UID) s2).1.1,
           (c.clusterRoleGet (ImpersonationPrefix ++ user.UID) s2).1.2)
      ∧ (createRole c user rules).calls s
        = [.clusterRoleListerGet "" (ImpersonationPrefix ++ user.UID),
           .clusterRoleCreate (clusterRoleObject user rules),
           .clusterRoleGet (ImpersonationPrefix ++ user.UID)])
    ∧ (∀ o, c.serviceAccountListerGet impersonationNamespace (ImpersonationPrefix ++ user.UID) s
        = (.error e, s1) →
      c.serviceAccountCreate impersonationNamespace
        (serviceAccountObject (ImpersonationPrefix ++ user.UID) role) s1 = ((o, some e2), s2) →
      (createServiceAccount c user role).result s
        = (some (c.serviceAccountGet impersonationNamespace (ImpersonationPrefix ++ user.UID) s2).1.1,
           (c.serviceAccountGet impersonationNamespace (ImpersonationPrefix ++ user.UID) s2).1.2)
      ∧ (createServiceAccount c user role).calls s
        = [.serviceAccountListerGet impersonationNamespace (ImpersonationPrefix ++ user.UID),
           .serviceAccountCreate impersonationNamespace
             (serviceAccountObject (ImpersonationPrefix ++ user.UID) role),
           .serviceAccountGet impersonationNamespace (ImpersonationPrefix ++ user.UID)]) := by
  refine ⟨?_, ?_, ?_, ?_⟩
  · intro o h1 h2
    simp [createNamespace, M.result, h1, h2, hn, ha]
  · intro o h1 h2
    simp [createRoleBinding, M.result, h1, h2, hn, ha]
  · intro o h1 h2
    simp [createRole, M.result, M.calls, h1, h2, hn, ha]
  · intro o h1 h2
    simp [createServiceAccount, M.result, M.calls, h1, h2, hn, ha]

/-- C7 at a concrete input: on `racedWorld` every create of the four steps for `alice`
answers "already exists"; the namespace and binding steps succeed, the role and
service account steps return the objects of the store. -/
theorem create_steps_tolerate_race_witness :
    (createNamespace (kube "c1")).result racedWorld = none
    ∧ (createRoleBinding (kube "c1") alice (clusterRoleObject alice (rulesForUser alice))
        readyAccount).result racedWorld = none
    ∧ (createRole (kube "c1") alice (rulesForUser alice)).result racedWorld
        = (some (clusterRoleObject alice (rulesForUser alice)), none)
    ∧ (createServiceAccount (kube "c1") alice
        (clusterRoleObject alice (rulesForUser alice))).result racedWorld
        = (some readyAccount, none) :=
  ⟨(create_steps_tolerate_race (kube "c1") alice (rulesForUser alice)
      (clusterRoleObject alice (rulesForUser alice)) readyAccount racedWorld racedWorld racedWorld
      (notFoundErr "namespace" "cattle-impersonation-system")
      (alreadyExistsErr "namespace" "cattle-impersonation-system") (by decide) (by decide)).1
      namespaceObject (by decide) (by decide),
   (create_steps_tolerate_race (kube "c1") alice (rulesForUser alice)
      (clusterRoleObject alice (rulesForUser alice)) readyAccount racedWorld racedWorld racedWorld
      (notFoundErr "clusterrolebinding" "cattle-impersonation-u-1")
      (alreadyExistsErr "clusterrolebinding" "cattle-impersonation-u-1")
      (by decide) (by decide)).2.1
      (clusterRoleBindingObject "cattle-impersonation-u-1"
        (clusterRoleObject alice (rulesForUser alice)) readyAccount) (by decide) (by decide),
   ((create_steps_tolerate_race (kube "c1") alice (rulesForUser alice)
      (clusterRoleObject alice (rulesForUser alice)) readyAccount racedWorld racedWorld racedWorld
      (notFoundErr "clusterrole" "cattle-impersonation-u-1")
      (alreadyExistsErr "clusterrole" "cattle-impersonation-u-1")
      (by decide) (by decide)).2.2.1
      (clusterRoleObject alice (rulesForUser alice)) (by decide) (by decide)).1,
   ((create_steps_tolerate_race (kube "c1") alice (rulesForUser alice)
      (clusterRoleObject alice (rulesForUser alice)) readyAccount racedWorld racedWorld racedWorld
      (notFoundErr "serviceaccount" "cattle-impersonation-u-1")
      (alreadyExistsErr "serviceaccount" "cattle-impersonation-u-1")
      (by decide) (by decide)).2.2.2
      { (serviceAccountObject "cattle-impersonation-u-1"
          (clusterRoleObject alice (rulesForUser alice))) with
        ObjectMeta := { (serviceAccountObject "cattle-impersonation-u-1"
          (clusterRoleObject alice (rulesForUser alice))).ObjectMeta with
          Namespace := "cattle-impersonation-system" } } (by decide) (by decide)).1⟩

/-! ## Readiness waiter -/

/-- While the polls are not ready, `ExponentialBackoff` runs the condition once per
step and ends with `ErrWaitTimeout`. -/
theorem ExponentialBackoff_not_ready {σ : Type} (c : Client σ) (sa : ServiceAccount) :
    ∀ (n : Nat) (r : Option ServiceAccount) (st : σ × List Call),
      (∀ i, i < n → notReady
        (c.serviceAccountListerGet impersonationNamespace sa.ObjectMeta.Name
          (pollState c sa st.1 i)).1 = true) →
      ∃ r2, ExponentialBackoff n (waitCondition c sa) r st =
        ((r2, some ErrWaitTimeout), (pollState c sa st.1 n, st.2 ++ List.replicate n
          (.serviceAccountListerGet impersonationNamespace sa.ObjectMeta.Name))) := by
  intro n
  induction n with
  | zero => intro r st _; exact ⟨r, by simp [ExponentialBackoff, pollState]⟩
  | succ n ih =>
    intro r st h
    have h0 := h 0 (Nat.succ_pos n)
    simp only [pollState, Function.iterate_zero, id_eq] at h0
    rcases hg : c.serviceAccountListerGet impersonationNamespace sa.ObjectMeta.Name st.1
      with ⟨res, s1⟩
    have hstep : ∀ i, i < n → notReady
        (c.serviceAccountListerGet impersonationNamespace sa.ObjectMeta.Name
          (pollState c sa s1 i)).1 = true := by
      intro i hi
      have := h (i + 1) (Nat.succ_lt_succ hi)
      simpa [pollState, Function.iterate_succ_apply, hg] using this
    rw [hg] at h0
    cases res with
    | error e =>
      simp only [notReady] at h0
      obtain ⟨r2, hr2⟩ := ih none (s1, st.2 ++ [.serviceAccountListerGet impersonationNamespace
        sa.ObjectMeta.Name]) hstep
      refine ⟨r2, ?_⟩
      simp [ExponentialBackoff, waitCondition, hg, h0, hr2, pollState,
        Function.iterate_succ_apply, List.replicate_succ]
    | ok a =>
      simp only [notReady, decide_eq_true_eq] at h0
      obtain ⟨r2, hr2⟩ := ih (some a) (s1, st.2 ++ [.serviceAccountListerGet impersonationNamespace
        sa.ObjectMeta.Name]) hstep
      refine ⟨r2, ?_⟩
      simp [ExponentialBackoff, waitCondition, hg, h0, hr2, pollState,
        Function.iterate_succ_apply, List.replicate_succ]

/-- C8. If each of the polls that `waitForServiceAccount` makes is answered by
not-found or by a service account with no secret, the wait makes exactly 10 polls (the
cached `Get` of the account), neither fewer nor more, and returns a nil object with an
error that wraps `ErrWaitTimeout` and names `namespace/name` of the service account.
The only other call is the listing for the trace log, after the polls, when trace
logging is on. -/
theorem waitForServiceAccount_exhausts {σ : Type} (c : Client σ) (sa : ServiceAccount) (s : σ)
    (h : ∀ i, i < 10 → notReady
      (c.serviceAccountListerGet impersonationNamespace sa.ObjectMeta.Name
        (pollState c sa s i)).1 = true) :
    (waitForServiceAccount c sa).result s
      = (none, some (.wrap ("failed to get secret for service account: "
          ++ sa.ObjectMeta.Namespace ++ "/" ++ sa.ObjectMeta.Name ++ ", error: ") ErrWaitTimeout))
    ∧ (waitForServiceAccount c sa).calls s
      = List.replicate 10 (.serviceAccountListerGet impersonationNamespace sa.ObjectMeta.Name)
        ++ (if c.traceLevel then [.serviceAccountListerList impersonationNamespace] else []) := by
  obtain ⟨r2, hr2⟩ := ExponentialBackoff_not_ready c sa 10 none (s, []) h
  cases ht : c.traceLevel <;>
    simp [waitForServiceAccount, M.result, M.calls, hr2, ht]

/-- C8 at a concrete input: on `pendingWorld` the account of `alice` never gets a
secret, and the wait for it makes its 10 polls and fails. -/
theorem waitForServiceAccount_exhausts_witness :
    (waitForServiceAccount (kube "c1") pendingAccount).result pendingWorld
      = (none, some (.wrap ("failed to get secret for service account: "
          ++ "cattle-impersonation-system/cattle-impersonation-u-1, error: ") ErrWaitTimeout))
    ∧ (waitForServiceAccount (kube "c1") pendingAccount).calls pendingWorld
      = List.replicate 10
          (.serviceAccountListerGet "cattle-impersonation-system" "cattle-impersonation-u-1")
        ++ [] :=
  waitForServiceAccount_exhausts (kube "c1") pendingAccount pendingWorld (by decide)

/-! ## Credential token -/

/-- C9, as stated, fails: with trace logging on, a `GetToken` whose read of the first
secret `tok-1` fails goes on to list the cached secrets of the namespace. -/
theorem GetToken_trace_lists_secrets :
    (GetToken traceKube readyAccount).calls {}
      = [.secretListerGet "cattle-impersonation-system" "tok-1",
         .secretListerList "cattle-impersonation-system"]
    ∧ (GetToken traceKube readyAccount).result {}
      = ("", some (.wrap "error getting secret: " (notFoundErr "secret" "tok-1"))) := by
  decide

/-- C9, amended. Without secrets `GetToken` fails with "service account is not ready"
and issues no call. Otherwise its first call is the cached `Get` of the first secret,
by name, in the impersonation namespace. If that read fails, the error is returned
wrapped, and the only further call is the listing of the cached secrets of the
namespace made when trace logging is on. If it succeeds no other call is issued: a
secret without key `token` gives "invalid secret object", and otherwise the value
under `token` is returned with a nil error. -/
theorem GetToken_spec {σ : Type} (c : Client σ) (sa : ServiceAccount) (s : σ) :
    (sa.Secrets = [] →
      (GetToken c sa).result s = ("", some (.plain "service account is not ready"))
      ∧ (GetToken c sa).calls s = [])
    ∧ (∀ secret rest, sa.Secrets = secret :: rest →
      (∀ e s1, c.secretListerGet impersonationNamespace secret.Name s = (.error e, s1) →
        (GetToken c sa).result s = ("", some (.wrap "error getting secret: " e))
        ∧ (GetToken c sa).calls s = .secretListerGet impersonationNamespace secret.Name ::
            (if c.traceLevel then [.secretListerList impersonationNamespace] else []))
      ∧ (∀ obj s1, c.secretListerGet impersonationNamespace secret.Name s = (.ok obj, s1) →
        (GetToken c sa).calls s = [.secretListerGet impersonationNamespace secret.Name]
        ∧ (obj.Data.lookup "token" = none →
          (GetToken c sa).result s
            = ("", some (.plain "error getting token: invalid secret object")))
        ∧ (∀ token, obj.Data.lookup "token" = some token →
          (GetToken c sa).result s = (token, none)))) := by
  refine ⟨?_, ?_⟩
  · intro h
    simp [GetToken, M.result, M.calls, h]
  · intro secret rest h
    refine ⟨?_, ?_⟩
    · intro e s1 hg
      cases ht : c.traceLevel <;> simp [GetToken, M.result, M.calls, h, hg, ht]
    · intro obj s1 hg
      refine ⟨?_, ?_, ?_⟩
      · cases hl : obj.Data.lookup "token" <;> simp [GetToken, M.calls, h, hg, hl]
      · intro hl
        simp [GetToken, M.result, h, hg, hl]
      · intro token hl
        simp [GetToken, M.result, h, hg, hl]

/-- C9, amended, at concrete inputs: an account without secrets, a missing secret,
and the cached secret `tok-1` of `tokenWorld`. -/
theorem GetToken_spec_witness :
    ((GetToken (kube "c1") pendingAccount).result {}
        = ("", some (.plain "service account is not ready"))
      ∧ (GetToken (kube "c1") pendingAccount).calls {} = [])
    ∧ ((GetToken (kube "c1") readyAccount).result {}
        = ("", some (.wrap "error getting secret: " (notFoundErr "secret" "tok-1")))
      ∧ (GetToken (kube "c1") readyAccount).calls {}
        = [.secretListerGet "cattle-impersonation-system" "tok-1"])
    ∧ (GetToken (kube "c1") readyAccount).result tokenWorld = ("abc", none) :=
  ⟨(GetToken_spec (kube "c1") pendingAccount {}).1 (by decide),
   ((GetToken_spec (kube "c1") readyAccount {}).2 { Name := "tok-1" } [] (by decide)).1
      (notFoundErr "secret" "tok-1") {} (by decide),
   (((GetToken_spec (kube "c1") readyAccount tokenWorld).2 { Name := "tok-1" } []
      (by decide)).2
      { ObjectMeta := { Name := "tok-1", Namespace := "cattle-impersonation-system" },
        Data := [("ca.crt", "pem"), ("token", "abc")] } tokenWorld (by decide)).2.2
      "abc" (by decide)⟩

/-! ## Identity resolver -/

/-- The nested loops of `getUser` append the principal names entry by entry. -/
theorem appendGroupPrincipals_eq (gp : List (String × Principals)) :
    ∀ groups, appendGroupPrincipals groups gp
      = groups ++ gp.flatMap (fun gps => gps.2.Items.map (fun p => p.Name)) := by
  have inner : ∀ (items : List Principal) (g : List String),
      items.foldl (fun groups principal => groups ++ [principal.Name]) g
        = g ++ items.map (fun p => p.Name) := by
    intro items
    induction items with
    | nil => intro g; simp
    | cons p ps ih => intro g; simp [ih]
  induction gp with
  | nil => intro groups; simp [appendGroupPrincipals]
  | cons x xs ih =>
    intro groups
    have := ih (groups ++ x.2.Items.map (fun p => p.Name))
    simp only [appendGroupPrincipals, inner, List.foldl_cons] at this ⊢
    rw [this]
    simp

/-- Every visiting order is a rearrangement of the entries. -/
theorem visitOrder_perm {α : Type} (seed : Nat) (entries : List α) :
    (visitOrder seed entries).Perm entries := by
  unfold visitOrder
  by_cases h : seed < entries.permutations'.length
  · rw [List.getD_eq_getElem _ _ h]
    exact List.mem_permutations'.mp (List.getElem_mem h)
  · rw [List.getD_eq_default _ _ (Nat.le_of_not_lt h)]

/-- Every rearrangement of the entries is a visiting order. -/
theorem visitOrder_any {α : Type} (entries visited : List α) (h : visited.Perm entries) :
    ∃ seed, visitOrder seed entries = visited := by
  obtain ⟨n, hn, e⟩ := List.getElem_of_mem (List.mem_permutations'.mpr h)
  exact ⟨n, by unfold visitOrder; rw [List.getD_eq_getElem _ _ hn, e]⟩

/-- A map with at most one entry is visited in one way. -/
theorem visitOrder_short {α : Type} (seed : Nat) (entries : List α)
    (h : entries.length ≤ 1) : visitOrder seed entries = entries := by
  have hp := visitOrder_perm seed entries
  match entries, h, hp with
  | [], _, hp => exact List.Perm.eq_nil hp
  | [a], _, hp => exact List.perm_singleton.mp hp

/-- C10, as stated, fails. The group principals are a Go map, which a `range` visits in
an order of the runtime's choosing. For the same records of `u-bob` one call lists the
principal names of the entry `github` before those of `openldap`, another call lists
them after. -/
theorem getUser_groups_order_varies :
    bobShuffled.users = bobWorld.users
    ∧ bobShuffled.userAttributes = bobWorld.userAttributes
    ∧ ((getUser (kube "c1") "u-bob" "devs").result bobWorld).1.Groups
      = ["system:authenticated", "system:cattle:authenticated", "devs",
         "github_team://1", "github_org://2", "openldap_group://cn=dev"]
    ∧ ((getUser (kube "c1") "u-bob" "devs").result bobShuffled).1.Groups
      = ["system:authenticated", "system:cattle:authenticated", "devs",
         "openldap_group://cn=dev", "github_team://1", "github_org://2"] := by
  decide

/-- C10, amended. When the user lookup succeeds, and the attribute lookup succeeds or
fails with NotFound, `getUser` succeeds and the groups of the identity are: the two
baseline groups `system:authenticated` and `system:cattle:authenticated`; then
`groupname` iff it is non-empty; then, when attributes were found, the name of every
principal of every group-principal entry, the entries in the order in which the `range`
visits them, which is a rearrangement of the entries (the stored order when there is at
most one entry), and the items of an entry in order. Every rearrangement of the entries
is an order the runtime can choose. -/
theorem getUser_groups {σ : Type} (c : Client σ) (username groupname : String) (s s1 s2 : σ)
    (u : User) (h : c.userListerGet "" username s = (.ok u, s1)) :
    (∀ attribs, c.userAttributeListerGet "" username s1 = (.ok attribs, s2) →
      ((getUser c username groupname).result s).2 = none
      ∧ ((getUser c username groupname).result s).1.Groups
        = ["system:authenticated", "system:cattle:authenticated"]
          ++ (if groupname ≠ "" then [groupname] else [])
          ++ (visitOrder (c.rangeOrder s2).1 attribs.GroupPrincipals).flatMap
              (fun gps => gps.2.Items.map (fun p => p.Name))
      ∧ (visitOrder (c.rangeOrder s2).1 attribs.GroupPrincipals).Perm attribs.GroupPrincipals
      ∧ (attribs.GroupPrincipals.length ≤ 1 →
        ((getUser c username groupname).result s).1.Groups
          = ["system:authenticated", "system:cattle:authenticated"]
            ++ (if groupname ≠ "" then [groupname] else [])
            ++ attribs.GroupPrincipals.flatMap (fun gps => gps.2.Items.map (fun p => p.Name)))
      ∧ ∀ visited : List (String × Principals), visited.Perm attribs.GroupPrincipals →
        ∃ seed, visitOrder seed attribs.GroupPrincipals = visited)
    ∧ (∀ e, c.userAttributeListerGet "" username s1 = (.error e, s2) → IsNotFound e = true →
      ((getUser c username groupname).result s).2 = none
      ∧ ((getUser c username groupname).result s).1.Groups
        = ["system:authenticated", "system:cattle:authenticated"]
          ++ (if groupname ≠ "" then [groupname] else [])) := by
  refine ⟨?_, ?_⟩
  · intro attribs h2
    have key : ((getUser c username groupname).result s).2 = none
        ∧ ((getUser c username groupname).result s).1.Groups
          = ["system:authenticated", "system:cattle:authenticated"]
            ++ (if groupname ≠ "" then [groupname] else [])
            ++ (visitOrder (c.rangeOrder s2).1 attribs.GroupPrincipals).flatMap
                (fun gps => gps.2.Items.map (fun p => p.Name)) := by
      by_cases hg : groupname = "" <;> by_cases hp : u.PrincipalIDs.length > 0 <;>
        simp [getUser, M.result, h, h2, hg, hp, appendGroupPrincipals_eq]
    refine ⟨key.1, key.2, visitOrder_perm _ _, fun hlen => ?_,
      fun visited hv => visitOrder_any _ _ hv⟩
    rw [key.2, visitOrder_short _ _ hlen]
  · intro e h2 hn
    by_cases hg : groupname = "" <;> by_cases hp : u.PrincipalIDs.length > 0 <;>
      simp [getUser, M.result, h, h2, hg, hp, hn]

/-- C10, amended, at concrete inputs: `u-bob` with group `devs` and attributes from two
providers, visited in the stored order and in the other order; and an
unknown-attributes user with an empty groupname, whose groups are exactly the two
baseline groups. -/
theorem getUser_groups_witness :
    (((getUser (kube "c1") "u-bob" "devs").result bobWorld).2 = none
      ∧ ((getUser (kube "c1") "u-bob" "devs").result bobWorld).1.Groups
        = ["system:authenticated", "system:cattle:authenticated", "devs",
           "github_team://1", "github_org://2", "openldap_group://cn=dev"])
    ∧ (((getUser (kube "c1") "u-bob" "devs").result bobShuffled).2 = none
      ∧ ((getUser (kube "c1") "u-bob" "devs").result bobShuffled).1.Groups
        = ["system:authenticated", "system:cattle:authenticated", "devs",
           "openldap_group://cn=dev", "github_team://1", "github_org://2"])
    ∧ (((getUser (kube "c1") "u-bob" "").result { bobWorld with userAttributes := [] }).2 = none
      ∧ ((getUser (kube "c1") "u-bob" "").result { bobWorld with userAttributes := [] }).1.Groups
        = ["system:authenticated", "system:cattle:authenticated"]) :=
  ⟨⟨((getUser_groups (kube "c1") "u-bob" "devs" bobWorld bobWorld bobWorld
      { Name := "u-bob", Username := "bob", PrincipalIDs := ["local://u-bob"] } (by decide)).1
      { GroupPrincipals := [
        ("github", { Items := [{ Name := "github_team://1" }, { Name := "github_org://2" }] }),
        ("openldap", { Items := [{ Name := "openldap_group://cn=dev" }] })] } (by decide)).1,
    ((getUser_groups (kube "c1") "u-bob" "devs" bobWorld bobWorld bobWorld
      { Name := "u-bob", Username := "bob", PrincipalIDs := ["local://u-bob"] } (by decide)).1
      { GroupPrincipals := [
        ("github", { Items := [{ Name := "github_team://1" }, { Name := "github_org://2" }] }),
        ("openldap", { Items := [{ Name := "openldap_group://cn=dev" }] })] } (by decide)).2.1⟩,
   ⟨((getUser_groups (kube "c1") "u-bob" "devs" bobShuffled bobShuffled bobShuffled
      { Name := "u-bob", Username := "bob", PrincipalIDs := ["local://u-bob"] } (by decide)).1
      { GroupPrincipals := [
        ("github", { Items := [{ Name := "github_team://1" }, { Name := "github_org://2" }] }),
        ("openldap", { Items := [{ Name := "openldap_group://cn=dev" }] })] } (by decide)).1,
    ((getUser_groups (kube "c1") "u-bob" "devs" bobShuffled bobShuffled bobShuffled
      { Name := "u-bob", Username := "bob", PrincipalIDs := ["local://u-bob"] } (by decide)).1
      { GroupPrincipals := [
        ("github", { Items := [{ Name := "github_team://1" }, { Name := "github_org://2" }] }),
        ("openldap", { Items := [{ Name := "openldap_group://cn=dev" }] })] } (by decide)).2.1⟩,
   (getUser_groups (kube "c1") "u-bob" "" { bobWorld with userAttributes := [] }
      { bobWorld with userAttributes := [] } { bobWorld with userAttributes := [] }
      { Name := "u-bob", Username := "bob", PrincipalIDs := ["local://u-bob"] } (by decide)).2
      (notFoundErr "userattribute" "u-bob") (by decide) (by decide)⟩

/-! ## Idempotence of ensure in the reference environment -/

/-- The server returns a ClusterRole under the name it was sent with. -/
@[simp] theorem ClusterRole.served_meta (role : ClusterRole) :
    role.served.ObjectMeta = role.ObjectMeta := rfl

/-- The rules of a ClusterRole that the server returns. -/
@[simp] theorem ClusterRole.served_rules (role : ClusterRole) :
    role.served.Rules = servedRules role.Rules := rfl

/-- Attaching a secret changes no name: the same accounts are held. -/
theorem attachSecret_any (sa secret : String) (sas : List ServiceAccount) (n : String) :
    (attachSecret sa secret sas).any (fun a =>
      a.ObjectMeta.Name = n ∧ a.ObjectMeta.Namespace = impersonationNamespace)
    = sas.any (fun a => a.ObjectMeta.Name = n ∧ a.ObjectMeta.Namespace = impersonationNamespace) := by
  induction sas with
  | nil => simp [attachSecret]
  | cons a as ih =>
    simp only [attachSecret, List.map_cons, List.any_cons] at ih ⊢
    rw [ih]
    split <;> simp

/-- A background step keeps `Held`. -/
theorem tick_held {n : String} {us : List User} {as : List (String × UserAttribute)}
    {R A : Prop} {w : World} (h : Held n us as R A w) : Held n us as R A w.tick := by
  obtain ⟨⟨hl1, hl2⟩, hu, ha, hR, hA⟩ := h
  unfold World.tick
  cases hs : w.schedule with
  | nil => exact ⟨⟨hl1, hl2⟩, hu, ha, hR, hA⟩
  | cons b rest =>
    cases b with
    | idle => exact ⟨⟨hl1, hl2⟩, hu, ha, hR, hA⟩
    | sync =>
      refine ⟨⟨fun h => h, fun h => h⟩, hu, ha, hR, hA⟩
    | attachToken sa secret token =>
      simp only [Background.apply]
      split
      · refine ⟨⟨hl1, ?_⟩, hu, ha, hR, ?_⟩
        · intro h
          have := hl2 h
          simp only [hasAccount] at this ⊢
          rw [attachSecret_any]
          exact this
        · intro h
          have := hA h
          simp only [hasAccount] at this ⊢
          rw [attachSecret_any]
          exact this
      · exact ⟨⟨hl1, hl2⟩, hu, ha, hR, hA⟩
    | createClusterRole role =>
      simp only [Background.apply]
      split
      · exact ⟨⟨hl1, hl2⟩, hu, ha, hR, hA⟩
      · refine ⟨⟨?_, hl2⟩, hu, ha, ?_, hA⟩
        · intro h
          have := hl1 h
          simp only [hasRole, List.any_append, Bool.or_eq_true] at this ⊢
          exact Or.inl this
        · intro h
          have := hR h
          simp only [hasRole, List.any_append, Bool.or_eq_true] at this ⊢
          exact Or.inl this

/-- A lister `Get` that succeeds returns an object of the list with the key asked for. -/
theorem listerGet_ok {α : Type} {kind : String} {key : α → String × String} {objs : List α}
    {ns name : String} {a : α} (h : listerGet kind key objs ns name = .ok a) :
    a ∈ objs ∧ key a = (ns, name) := by
  unfold listerGet at h
  split at h
  · rename_i o ho
    cases h
    exact ⟨List.mem_of_find?_eq_some ho, by simpa using List.find?_some ho⟩
  · cases h

/-- A lister `Get` fails with NotFound only. -/
theorem listerGet_error {α : Type} {kind : String} {key : α → String × String}
    {objs : List α} {ns name : String} {e : Err}
    (h : listerGet kind key objs ns name = .error e) : IsNotFound e = true := by
  unfold listerGet at h
  split at h
  · cases h
  · cases h
    rfl

/-- `Held` for fewer facts about the store. -/
theorem Held.weaken {n : String} {us : List User} {as : List (String × UserAttribute)}
    {R A R2 A2 : Prop} {w : World} (h : Held n us as R A w) (hR : R2 → R) (hA : A2 → A) :
    Held n us as R2 A2 w :=
  ⟨h.1, h.2.1, h.2.2.1, fun r => h.2.2.2.1 (hR r), fun a => h.2.2.2.2 (hA a)⟩

/-- Record in `Held` that the store holds the role. -/
theorem Held.role {n : String} {us : List User} {as : List (String × UserAttribute)}
    {R A : Prop} {w : World} (h : Held n us as R A w) (R2 : Prop)
    (hr : R2 → hasRole w.store n = true) : Held n us as (R ∨ R2) A w :=
  ⟨h.1, h.2.1, h.2.2.1, fun r => r.elim h.2.2.2.1 hr, h.2.2.2.2⟩

/-- Record in `Held` that the store holds the service account. -/
theorem Held.account {n : String} {us : List User} {as : List (String × UserAttribute)}
    {R A : Prop} {w : World} (h : Held n us as R A w) (A2 : Prop)
    (ha : A2 → hasAccount w.store n = true) : Held n us as R (A ∨ A2) w :=
  ⟨h.1, h.2.1, h.2.2.1, h.2.2.2.1, fun a => a.elim h.2.2.2.2 ha⟩

/-- A change of the store that keeps the roles and accounts it holds keeps `Held`. -/
theorem Held.store {n : String} {us : List User} {as : List (String × UserAttribute)}
    {R A : Prop} {w : World} (h : Held n us as R A w) (store : Objects)
    (hr : hasRole w.store n = true → hasRole store n = true)
    (ha : hasAccount w.store n = true → hasAccount store n = true) :
    Held n us as R A { w with store := store } :=
  ⟨⟨fun x => hr (h.1.1 x), fun x => ha (h.1.2 x)⟩, h.2.1, h.2.2.1,
    fun r => hr (h.2.2.2.1 r), fun a => ha (h.2.2.2.2 a)⟩

/-- The roles held after one more role is stored. -/
theorem hasRole_append (o : Objects) (obj : ClusterRole) (n : String) :
    hasRole { o with clusterRoles := o.clusterRoles ++ [obj] } n
      = (hasRole o n || decide (obj.ObjectMeta.Name = n)) := by
  simp [hasRole]

/-- The accounts held after one more account is stored. -/
theorem hasAccount_append (o : Objects) (obj : ServiceAccount) (n : String) :
    hasAccount { o with serviceAccounts := o.serviceAccounts ++ [obj] } n
      = (hasAccount o n || decide (obj.ObjectMeta.Name = n
          ∧ obj.ObjectMeta.Namespace = impersonationNamespace)) := by
  simp [hasAccount]

/-- An update in place keeps the names of the roles. -/
theorem hasRole_update (o : Objects) (obj : ClusterRole) (n : String) :
    hasRole { o with clusterRoles := o.clusterRoles.map (fun r =>
      if r.ObjectMeta.Name = obj.ObjectMeta.Name then obj else r) } n = hasRole o n := by
  simp only [hasRole]
  induction o.clusterRoles with
  | nil => rfl
  | cons r rs ih =>
    simp only [List.map_cons, List.any_cons, ih]
    by_cases h : r.ObjectMeta.Name = obj.ObjectMeta.Name
    · simp [h]
    · simp [h]

/-- A change of the rules of cached roles keeps the names of the roles. -/
theorem hasRole_assign (roles : List ClusterRole) (f : ClusterRole → Slice PolicyRule)
    (p : ClusterRole → Prop) [DecidablePred p] (n : String) :
    (roles.map (fun r => if p r then { r with Rules := f r } else r)).any
        (fun r => r.ObjectMeta.Name = n)
      = roles.any (fun r => r.ObjectMeta.Name = n) := by
  induction roles with
  | nil => rfl
  | cons r rs ih =>
    simp only [List.map_cons, List.any_cons, ih]
    by_cases h : p r <;> simp [h]

/-- The assignment to the rules of a cached role keeps `Held`. -/
theorem assign_held (cl : String) {n : String} {us : List User}
    {as : List (String × UserAttribute)} {R A : Prop} {w : World} (role : ClusterRole)
    (rules : Slice PolicyRule) (h : Held n us as R A w) :
    Held n us as R A ((kube cl).clusterRoleAssignRules role rules w) := by
  obtain ⟨⟨hl1, hl2⟩, hu, ha, hR, hA⟩ := h
  refine ⟨⟨fun x => hl1 ?_, hl2⟩, hu, ha, hR, hA⟩
  simp only [kube, hasRole] at x ⊢
  rw [hasRole_assign] at x
  exact x

/-- Every call of the reference environment keeps `Held`. -/
theorem kube_held (cl n : String) (us : List User) (as : List (String × UserAttribute))
    (R A : Prop) (w : World) (h : Held n us as R A w) :
    (∀ ns name, Held n us as R A ((kube cl).clusterRoleListerGet ns name w).2)
    ∧ (∀ obj, Held n us as R A ((kube cl).clusterRoleCreate obj w).2)
    ∧ (∀ obj, Held n us as R A ((kube cl).clusterRoleUpdate obj w).2)
    ∧ (∀ name, Held n us as R A ((kube cl).clusterRoleGet name w).2)
    ∧ (∀ ns name, Held n us as R A ((kube cl).namespaceListerGet ns name w).2)
    ∧ (∀ obj, Held n us as R A ((kube cl).namespaceCreate obj w).2)
    ∧ (∀ ns name, Held n us as R A ((kube cl).serviceAccountListerGet ns name w).2)
    ∧ (∀ ns, Held n us as R A ((kube cl).serviceAccountListerList ns w).2)
    ∧ (∀ ns obj, Held n us as R A ((kube cl).serviceAccountCreate ns obj w).2)
    ∧ (∀ ns name, Held n us as R A ((kube cl).serviceAccountGet ns name w).2)
    ∧ (∀ ns name, Held n us as R A ((kube cl).clusterRoleBindingListerGet ns name w).2)
    ∧ (∀ obj, Held n us as R A ((kube cl).clusterRoleBindingCreate obj w).2) := by
  have ht := tick_held h
  refine ⟨?_, ?_, ?_, ?_, ?_, ?_, ?_, ?_, ?_, ?_, ?_, ?_⟩
  · intro ns name; exact ht
  · intro obj
    simp only [kube]
    split
    · exact ht
    · refine ht.store _ ?_ (fun x => x)
      intro x; rw [hasRole_append, x]; rfl
  · intro obj
    simp only [kube]
    split
    · refine ht.store _ ?_ (fun x => x)
      intro x; rw [hasRole_update]; exact x
    · exact ht
  · intro name; exact ht
  · intro ns name; exact ht
  · intro obj
    simp only [kube]
    split
    · exact ht
    · exact ht.store _ (fun x => x) (fun x => x)
  · intro ns name; exact ht
  · intro ns; exact ht
  · intro ns obj
    simp only [kube]
    split
    · exact ht
    · refine ht.store _ (fun x => x) ?_
      intro x; rw [hasAccount_append, x]; rfl
  · intro ns name; exact ht
  · intro ns name; exact ht
  · intro obj
    simp only [kube]
    split
    · exact ht
    · exact ht.store _ (fun x => x) (fun x => x)

/-- The cached role `Get` of the reference environment: a role it returns has the name
asked for and is in the cached view; it fails with NotFound only. -/
theorem kube_roleLister (cl name : String) (w : World) :
    (∀ r, ((kube cl).clusterRoleListerGet "" name w).1 = .ok r →
      r.ObjectMeta.Name = name
      ∧ hasRole ((kube cl).clusterRoleListerGet "" name w).2.cache name = true)
    ∧ (∀ e, ((kube cl).clusterRoleListerGet "" name w).1 = .error e → IsNotFound e = true) := by
  refine ⟨?_, ?_⟩
  · intro r h
    have := listerGet_ok h
    simp only [Prod.mk.injEq, true_and] at this
    refine ⟨this.2, ?_⟩
    simp only [hasRole, List.any_eq_true, decide_eq_true_eq]
    exact ⟨r, this.1, this.2⟩
  · intro e h
    exact listerGet_error h

/-- The cached account `Get` of the reference environment: an account it returns has
the name asked for and is in the cached view; it fails with NotFound only. -/
theorem kube_accountLister (cl name : String) (w : World) :
    (∀ a, ((kube cl).serviceAccountListerGet impersonationNamespace name w).1 = .ok a →
      a.ObjectMeta.Name = name
      ∧ hasAccount ((kube cl).serviceAccountListerGet impersonationNamespace name w).2.cache name
          = true)
    ∧ (∀ e, ((kube cl).serviceAccountListerGet impersonationNamespace name w).1 = .error e →
      IsNotFound e = true) := by
  refine ⟨?_, ?_⟩
  · intro a h
    have := listerGet_ok h
    simp only [Prod.mk.injEq] at this
    refine ⟨this.2.2, ?_⟩
    simp only [hasAccount, List.any_eq_true, decide_eq_true_eq]
    exact ⟨a, this.1, this.2.2, this.2.1⟩
  · intro e h
    exact listerGet_error h

/-- After a role `Create` the store holds a role of that name, created or found. -/
theorem kube_roleCreate (cl : String) (obj : ClusterRole) (w : World) :
    hasRole ((kube cl).clusterRoleCreate obj w).2.store obj.ObjectMeta.Name = true := by
  simp only [kube]
  split
  · rename_i h
    simpa [hasRole] using h
  · simp [hasRole]

/-- An account `Create` returns an object with the name it was given. -/
theorem kube_accountCreate (cl ns : String) (obj : ServiceAccount) (w : World) :
    ((kube cl).serviceAccountCreate ns obj w).1.1.ObjectMeta.Name = obj.ObjectMeta.Name := by
  simp only [kube]
  split <;> rfl

/-- An account `Get` that succeeds returns an object with the name asked for. -/
theorem kube_accountGet (cl ns name : String) (w : World)
    (h : ((kube cl).serviceAccountGet ns name w).1.2 = none) :
    ((kube cl).serviceAccountGet ns name w).1.1.ObjectMeta.Name = name := by
  simp only [kube] at h ⊢
  split at h
  · rename_i r hr
    have := List.find?_some hr
    simp only [decide_eq_true_eq] at this
    simp only [hr]
    exact this.1
  · cases h

section FirstCall

variable (cl : String) (user : DefaultInfo) (us : List User)
  (as : List (String × UserAttribute))

/-- `createNamespace` keeps `Held`. -/
theorem createNamespace_held (R A : Prop) :
    Triple (Held (ImpersonationPrefix ++ user.UID) us as R A) (createNamespace (kube cl))
      (fun _ => Held (ImpersonationPrefix ++ user.UID) us as R A) := by
  intro st h
  have h1 := (kube_held cl _ us as R A st.1 h).2.2.2.2.1 "" impersonationNamespace
  have h2 := (kube_held cl _ us as R A _ h1).2.2.2.2.2.1 namespaceObject
  rcases hg : (kube cl).namespaceListerGet "" impersonationNamespace st.1 with ⟨res, s1⟩
  rw [hg] at h1 h2
  rcases hc : (kube cl).namespaceCreate namespaceObject s1 with ⟨⟨o, err⟩, s2⟩
  rw [hc] at h2
  simp only [createNamespace, M.bind_apply, M.call_apply, M.pure_apply, hg]
  cases res with
  | ok v => exact h1
  | error e =>
    by_cases hn : IsNotFound e = true
    · cases err with
      | none => simpa [hn, hc] using h2
      | some e2 => by_cases ha : IsAlreadyExists e2 = true <;> simpa [hn, hc, ha] using h2
    · simpa [hn] using h1

/-- `createRoleBinding` keeps `Held`. -/
theorem createRoleBinding_held (R A : Prop) (role : ClusterRole) (sa : ServiceAccount) :
    Triple (Held (ImpersonationPrefix ++ user.UID) us as R A)
      (createRoleBinding (kube cl) user role sa)
      (fun _ => Held (ImpersonationPrefix ++ user.UID) us as R A) := by
  intro st h
  have h1 := (kube_held cl _ us as R A st.1 h).2.2.2.2.2.2.2.2.2.2.1 ""
    (ImpersonationPrefix ++ user.UID)
  have h2 := (kube_held cl _ us as R A _ h1).2.2.2.2.2.2.2.2.2.2.2
    (clusterRoleBindingObject (ImpersonationPrefix ++ user.UID) role sa)
  rcases hg : (kube cl).clusterRoleBindingListerGet "" (ImpersonationPrefix ++ user.UID) st.1
    with ⟨res, s1⟩
  rw [hg] at h1 h2
  rcases hc : (kube cl).clusterRoleBindingCreate
    (clusterRoleBindingObject (ImpersonationPrefix ++ user.UID) role sa) s1 with ⟨⟨o, err⟩, s2⟩
  rw [hc] at h2
  simp only [createRoleBinding, M.bind_apply, M.call_apply, M.pure_apply, hg]
  cases res with
  | ok v => exact h1
  | error e =>
    by_cases hn : IsNotFound e = true
    · cases err with
      | none => simpa [hn, hc] using h2
      | some e2 => by_cases ha : IsAlreadyExists e2 = true <;> simpa [hn, hc, ha] using h2
    · simpa [hn] using h1

/-- `checkAndUpdateRole` keeps `Held`; when it returns a role the store holds it. -/
theorem checkAndUpdateRole_held (R A : Prop) (rules : Slice PolicyRule) :
    Triple (Held (ImpersonationPrefix ++ user.UID) us as R A)
      (checkAndUpdateRole (kube cl) user rules)
      (fun res => Held (ImpersonationPrefix ++ user.UID) us as (R ∨ res.1.isSome = true) A) := by
  intro st h
  have h1 := (kube_held cl _ us as R A st.1 h).1 "" (ImpersonationPrefix ++ user.UID)
  have ev := (kube_roleLister cl (ImpersonationPrefix ++ user.UID) st.1).1
  rcases hg : (kube cl).clusterRoleListerGet "" (ImpersonationPrefix ++ user.UID) st.1
    with ⟨res, s1⟩
  rw [hg] at h1 ev
  simp only [checkAndUpdateRole, M.bind_apply, M.call_apply, M.pure_apply, hg]
  cases res with
  | error e =>
    by_cases hn : IsNotFound e = true
    · simpa [hn] using h1
    · simpa [hn] using h1
  | ok role =>
    have h1r : Held (ImpersonationPrefix ++ user.UID) us as True A s1 :=
      (h1.role True (fun _ => h1.1.1 (ev role rfl).2)).weaken (fun _ => Or.inr trivial) id
    by_cases hr : role.Rules = rules
    · simpa [hr] using h1r
    · have h2 := (kube_held cl _ us as True A _ (assign_held cl role rules h1r)).2.2.1
        { role with Rules := rules }
      simpa [hr] using h2

/-- `getServiceAccount` keeps `Held`; when it succeeds the store holds the account. -/
theorem getServiceAccount_held (R A : Prop) :
    Triple (Held (ImpersonationPrefix ++ user.UID) us as R A)
      (getServiceAccount (kube cl) user)
      (fun res => Held (ImpersonationPrefix ++ user.UID) us as R (A ∨ res.2 = none)) := by
  intro st h
  have h1 := (kube_held cl _ us as R A st.1 h).2.2.2.2.2.2.1 impersonationNamespace
    (ImpersonationPrefix ++ user.UID)
  have ev := (kube_accountLister cl (ImpersonationPrefix ++ user.UID) st.1).1
  rcases hg : (kube cl).serviceAccountListerGet impersonationNamespace
    (ImpersonationPrefix ++ user.UID) st.1 with ⟨res, s1⟩
  rw [hg] at h1 ev
  simp only [getServiceAccount, M.bind_apply, M.call_apply, M.pure_apply, hg]
  cases res with
  | error e =>
    have ht : (kube cl).traceLevel = false := rfl
    simpa [ht] using h1
  | ok sa =>
    have := h1.account True (fun _ => h1.1.2 (ev sa rfl).2)
    simpa using this.weaken id (fun _ => Or.inr trivial)

/-- `createRole` keeps `Held`; when it returns no error the store holds the role. -/
theorem createRole_held (R A : Prop) (rules : Slice PolicyRule) :
    Triple (Held (ImpersonationPrefix ++ user.UID) us as R A)
      (createRole (kube cl) user rules)
      (fun res => Held (ImpersonationPrefix ++ user.UID) us as (R ∨ res.2 = none) A) := by
  intro st h
  have h1 := (kube_held cl _ us as R A st.1 h).1 "" (ImpersonationPrefix ++ user.UID)
  have ev := (kube_roleLister cl (ImpersonationPrefix ++ user.UID) st.1).1
  rcases hg : (kube cl).clusterRoleListerGet "" (ImpersonationPrefix ++ user.UID) st.1
    with ⟨res, s1⟩
  rw [hg] at h1 ev
  have h2 := (kube_held cl _ us as R A _ h1).2.1 (clusterRoleObject user rules)
  have evc := kube_roleCreate cl (clusterRoleObject user rules) s1
  rcases hc : (kube cl).clusterRoleCreate (clusterRoleObject user rules) s1 with ⟨⟨o, err⟩, s2⟩
  rw [hc] at h2 evc
  have h2r : Held (ImpersonationPrefix ++ user.UID) us as True A s2 :=
    (h2.role True (fun _ => evc)).weaken (fun _ => Or.inr trivial) id
  have h3 := (kube_held cl _ us as True A _ h2r).2.2.2.1 (ImpersonationPrefix ++ user.UID)
  simp only [createRole, M.bind_apply, M.call_apply, M.pure_apply, hg]
  cases res with
  | ok role =>
    have := h1.role True (fun _ => h1.1.1 (ev role rfl).2)
    simpa using this.weaken (fun _ => Or.inr trivial) id
  | error e =>
    by_cases hn : IsNotFound e = true
    · cases err with
      | none => simpa [hn, hc] using h2r
      | some e2 =>
        by_cases ha : IsAlreadyExists e2 = true
        · simpa [hn, hc, ha] using h3.weaken (fun _ => trivial) id
        · simpa [hn, hc, ha] using h2r
    · simpa [hn] using h1

/-- `createServiceAccount` keeps `Held`; the account it returns without error is named
`cattle-impersonation-uid`. -/
theorem createServiceAccount_held (R A : Prop) (role : ClusterRole) :
    Triple (Held (ImpersonationPrefix ++ user.UID) us as R A)
      (createServiceAccount (kube cl) user role)
      (fun res w => Held (ImpersonationPrefix ++ user.UID) us as R A w
        ∧ (res.2 = none → ∀ sa, res.1 = some sa →
            sa.ObjectMeta.Name = ImpersonationPrefix ++ user.UID)) := by
  intro st h
  have h1 := (kube_held cl _ us as R A st.1 h).2.2.2.2.2.2.1 impersonationNamespace
    (ImpersonationPrefix ++ user.UID)
  have ev := (kube_accountLister cl (ImpersonationPrefix ++ user.UID) st.1).1
  rcases hg : (kube cl).serviceAccountListerGet impersonationNamespace
    (ImpersonationPrefix ++ user.UID) st.1 with ⟨res, s1⟩
  rw [hg] at h1 ev
  have h2 := (kube_held cl _ us as R A _ h1).2.2.2.2.2.2.2.2.1 impersonationNamespace
    (serviceAccountObject (ImpersonationPrefix ++ user.UID) role)
  have evc := kube_accountCreate cl impersonationNamespace
    (serviceAccountObject (ImpersonationPrefix ++ user.UID) role) s1
  rcases hc : (kube cl).serviceAccountCreate impersonationNamespace
    (serviceAccountObject (ImpersonationPrefix ++ user.UID) role) s1 with ⟨⟨o, err⟩, s2⟩
  rw [hc] at h2 evc
  have h3 := (kube_held cl _ us as R A _ h2).2.2.2.2.2.2.2.2.2.1 impersonationNamespace
    (ImpersonationPrefix ++ user.UID)
  have evg := kube_accountGet cl impersonationNamespace (ImpersonationPrefix ++ user.UID) s2
  simp only [createServiceAccount, M.bind_apply, M.call_apply, M.pure_apply, hg]
  cases res with
  | ok sa =>
    refine ⟨h1, fun _ sa2 hsa => ?_⟩
    cases hsa
    exact (ev sa rfl).1
  | error e =>
    by_cases hn : IsNotFound e = true
    · cases err with
      | none =>
        simp only [hn, hc, ↓reduceIte, M.bind_apply, M.call_apply, M.pure_apply]
        refine ⟨h2, fun _ sa2 hsa => ?_⟩
        cases hsa
        exact evc
      | some e2 =>
        by_cases ha : IsAlreadyExists e2 = true
        · simp only [hn, hc, ha, ↓reduceIte, M.bind_apply, M.call_apply, M.pure_apply]
          refine ⟨h3, fun hnone sa2 hsa => ?_⟩
          cases hsa
          exact evg hnone
        · simp only [hn, hc, ha, ↓reduceIte, M.bind_apply, M.call_apply, M.pure_apply]
          refine ⟨h2, fun hnone => ?_⟩
          simp at hnone
    · simp only [hn, ↓reduceIte, M.pure_apply]
      refine ⟨h1, fun hnone => ?_⟩
      simp at hnone

/-- The polls keep `Held`; when they end without error the store holds the account. -/
theorem ExponentialBackoff_held (R A : Prop) (sa : ServiceAccount)
    (hname : sa.ObjectMeta.Name = ImpersonationPrefix ++ user.UID) :
    ∀ (n : Nat) (r : Option ServiceAccount),
      Triple (Held (ImpersonationPrefix ++ user.UID) us as R A)
        (ExponentialBackoff n (waitCondition (kube cl) sa) r)
        (fun res => Held (ImpersonationPrefix ++ user.UID) us as R (A ∨ res.2 = none)) := by
  intro n
  induction n with
  | zero =>
    intro r st h
    simpa [ExponentialBackoff, ErrWaitTimeout] using h
  | succ n ih =>
    intro r st h
    have h1 := (kube_held cl _ us as R A st.1 h).2.2.2.2.2.2.1 impersonationNamespace
      (ImpersonationPrefix ++ user.UID)
    have ev := (kube_accountLister cl (ImpersonationPrefix ++ user.UID) st.1).1
    rcases hg : (kube cl).serviceAccountListerGet impersonationNamespace
      (ImpersonationPrefix ++ user.UID) st.1 with ⟨res, s1⟩
    rw [hg] at h1 ev
    simp only [ExponentialBackoff, waitCondition, hname, M.bind_apply, M.call_apply,
      M.pure_apply, hg]
    cases res with
    | error e =>
      by_cases hn : IsNotFound e = true
      · simp only [hn, ↓reduceIte, M.pure_apply, Option.isSome_none, Bool.or_self,
          Bool.false_eq_true]
        exact ih none _ h1
      · simp only [hn, ↓reduceIte, M.pure_apply, Option.isSome_some, Bool.or_false]
        exact h1.weaken id (fun x => x.elim id (fun y => by simp at y))
    | ok a =>
      by_cases hs : a.Secrets.length > 0
      · simp only [hs, ↓reduceIte, M.pure_apply, Option.isSome_none, Bool.or_true]
        exact (h1.account True (fun _ => h1.1.2 (ev a rfl).2)).weaken id
          (fun x => x.elim Or.inl (fun _ => Or.inr trivial))
      · simp only [hs, ↓reduceIte, M.pure_apply, Option.isSome_none, Bool.or_self,
          Bool.false_eq_true]
        exact ih (some a) _ h1

/-- `waitForServiceAccount` keeps `Held`; when it succeeds the store holds the account. -/
theorem waitForServiceAccount_held (R A : Prop) (sa : ServiceAccount)
    (hname : sa.ObjectMeta.Name = ImpersonationPrefix ++ user.UID) :
    Triple (Held (ImpersonationPrefix ++ user.UID) us as R A)
      (waitForServiceAccount (kube cl) sa)
      (fun res => Held (ImpersonationPrefix ++ user.UID) us as R (A ∨ res.2 = none)) := by
  intro st h
  have h1 := ExponentialBackoff_held cl user us as R A sa hname 10 none st h
  rcases hb : ExponentialBackoff 10 (waitCondition (kube cl) sa) none st with ⟨⟨ret, err⟩, st1⟩
  rw [hb] at h1
  have ht : (kube cl).traceLevel = false := rfl
  simp only [waitForServiceAccount, M.bind_apply, M.pure_apply, hb]
  cases err with
  | none => exact h1
  | some e =>
    simp only [ht, Bool.false_eq_true, ↓reduceIte, M.pure_apply]
    exact h1.weaken id (fun x => x.elim Or.inl (fun y => by simp at y))

/-- `SetUpImpersonation` keeps `Held`; when it returns no error the store holds the role
and the service account of the user. -/
theorem SetUpImpersonation_held (R A : Prop) :
    Triple (Held (ImpersonationPrefix ++ user.UID) us as R A)
      (SetUpImpersonation (kube cl) user)
      (fun res => Held (ImpersonationPrefix ++ user.UID) us as
        (R ∨ res.2 = none) (A ∨ res.2 = none)) := by
  intro st h
  have hfalse : ∀ {w : World} {e : Err} {R2 A2 : Prop},
      Held (ImpersonationPrefix ++ user.UID) us as R2 A2 w → (R → R2) → (A → A2) →
      Held (ImpersonationPrefix ++ user.UID) us as
        (R ∨ (some e : Option Err) = none) (A ∨ (some e : Option Err) = none) w := by
    intro w e R2 A2 hw hR hA
    exact hw.weaken (fun x => x.elim hR (fun y => by simp at y))
      (fun x => x.elim hA (fun y => by simp at y))
  have hc := checkAndUpdateRole_held cl user us as R A (rulesForUser user) st h
  rcases hcr : checkAndUpdateRole (kube cl) user (rulesForUser user) st with ⟨⟨role, err⟩, st1⟩
  rw [hcr] at hc
  simp only [SetUpImpersonation, M.bind_apply, M.pure_apply, hcr]
  cases err with
  | some e =>
    simp only [M.pure_apply]
    exact hfalse hc Or.inl id
  | none =>
  cases role with
  | some r =>
    have hg := getServiceAccount_held cl user us as _ A st1 hc
    rcases hgr : getServiceAccount (kube cl) user st1 with ⟨⟨sa, err⟩, st2⟩
    rw [hgr] at hg
    simp only [hgr]
    cases err with
    | some e => exact hfalse hg Or.inl Or.inl
    | none => exact hg.weaken (fun _ => Or.inr rfl) id
  | none =>
  have hc0 : Held (ImpersonationPrefix ++ user.UID) us as R A st1.1 :=
    hc.weaken Or.inl id
  have hn := createNamespace_held cl user us as R A st1 hc0
  rcases hnr : createNamespace (kube cl) st1 with ⟨err, st2⟩
  rw [hnr] at hn
  simp only [M.bind_apply, hnr]
  cases err with
  | some e =>
    simp only [M.pure_apply]
    exact hfalse hn id id
  | none =>
  have hr := createRole_held cl user us as R A (rulesForUser user) st2 hn
  rcases hrr : createRole (kube cl) user (rulesForUser user) st2 with ⟨⟨role, err⟩, st3⟩
  rw [hrr] at hr
  simp only [M.bind_apply, hrr]
  cases err with
  | some e =>
    simp only [M.pure_apply]
    exact hfalse hr Or.inl id
  | none =>
  cases role with
  | none =>
    simp only [M.pure_apply]
    exact hfalse hr Or.inl id
  | some role =>
  have hs := createServiceAccount_held cl user us as _ A role st3 hr
  rcases hsr : createServiceAccount (kube cl) user role st3 with ⟨⟨sa, err⟩, st4⟩
  rw [hsr] at hs
  simp only [M.bind_apply, hsr]
  cases err with
  | some e =>
    simp only [M.pure_apply]
    exact hfalse hs.1 Or.inl id
  | none =>
  cases sa with
  | none =>
    simp only [M.pure_apply]
    exact hfalse hs.1 Or.inl id
  | some sa =>
  have hname := hs.2 rfl sa rfl
  have hb := createRoleBinding_held cl user us as _ A role sa st4 hs.1
  rcases hbr : createRoleBinding (kube cl) user role sa st4 with ⟨err, st5⟩
  rw [hbr] at hb
  simp only [M.bind_apply, hbr]
  cases err with
  | some e =>
    simp only [M.pure_apply]
    exact hfalse hb Or.inl id
  | none =>
  have hw := waitForServiceAccount_held cl user us as _ A sa hname st5 hb
  exact hw.weaken (fun _ => Or.inr rfl) id

end FirstCall

/-- A background step keeps `Settled`. -/
theorem tick_settled {n : String} {rules : Slice PolicyRule} {w : World}
    (h : Settled n rules w) : Settled n rules w.tick := by
  obtain ⟨hc, hs⟩ := h
  unfold World.tick
  cases hsch : w.schedule with
  | nil => exact ⟨hc, hs⟩
  | cons b rest =>
    cases b with
    | idle => exact ⟨hc, hs⟩
    | sync => exact ⟨hs, hs⟩
    | attachToken sa secret token =>
      simp only [Background.apply]
      split
      · refine ⟨hc, hs.1, ?_, hs.2.2⟩
        have := hs.2.1
        simp only [hasAccount] at this ⊢
        rw [attachSecret_any]
        exact this
      · exact ⟨hc, hs⟩
    | createClusterRole role =>
      simp only [Background.apply]
      split
      · exact ⟨hc, hs⟩
      · rename_i hno
        refine ⟨hc, ?_, hs.2.1, ?_⟩
        · rw [hasRole_append, hs.1]; rfl
        · intro r hr hname
          simp only [List.mem_append, List.mem_singleton] at hr
          rcases hr with hr | hr
          · exact hs.2.2 r hr hname
          · exfalso
            apply hno
            have := hs.1
            simp only [hasRole, List.any_eq_true, decide_eq_true_eq] at this ⊢
            obtain ⟨x, hx, hxn⟩ := this
            exact ⟨x, hx, by rw [hxn, ← hname, hr]⟩

/-- A lister `Get` succeeds when the list has an object with the key. -/
theorem listerGet_of_mem {α : Type} (kind : String) (key : α → String × String)
    (objs : List α) (ns name : String) (h : ∃ a ∈ objs, key a = (ns, name)) :
    ∃ a, listerGet kind key objs ns name = .ok a := by
  unfold listerGet
  cases hf : objs.find? (fun o => key o = (ns, name)) with
  | some o => exact ⟨o, rfl⟩
  | none =>
    exfalso
    obtain ⟨a, ha, hk⟩ := h
    have := List.find?_eq_none.mp hf a ha
    simp [hk] at this

/-- From a settled world `SetUpImpersonation` takes the fast path: it reads the role and
the service account from the cached view and returns the account. -/
theorem SetUpImpersonation_settled (cl : String) (user : DefaultInfo) (st : World × List Call)
    (h : Settled (ImpersonationPrefix ++ user.UID) (rulesForUser user) st.1) :
    ∃ sa, SetUpImpersonation (kube cl) user st
      = ((some sa, none), (st.1.tick.tick, st.2 ++
          [.clusterRoleListerGet "" (ImpersonationPrefix ++ user.UID),
           .serviceAccountListerGet impersonationNamespace (ImpersonationPrefix ++ user.UID)])) := by
  have h1 := tick_settled h
  have h2 := tick_settled h1
  have hrole : ∃ r, listerGet "clusterrole" (fun o : ClusterRole => ("", o.ObjectMeta.Name))
      st.1.tick.cache.clusterRoles "" (ImpersonationPrefix ++ user.UID) = .ok r := by
    apply listerGet_of_mem
    have := h1.1.1
    simp only [hasRole, List.any_eq_true, decide_eq_true_eq] at this
    obtain ⟨x, hx, hxn⟩ := this
    exact ⟨x, hx, by rw [hxn]⟩
  obtain ⟨r, hr⟩ := hrole
  have hrr : r.Rules = rulesForUser user := by
    have := listerGet_ok hr
    simp only [Prod.mk.injEq, true_and] at this
    exact h1.1.2.2 r this.1 this.2
  have hacc : ∃ a, listerGet "serviceaccount"
      (fun o : ServiceAccount => (o.ObjectMeta.Namespace, o.ObjectMeta.Name))
      st.1.tick.tick.cache.serviceAccounts impersonationNamespace
      (ImpersonationPrefix ++ user.UID) = .ok a := by
    apply listerGet_of_mem
    have := h2.1.2.1
    simp only [hasAccount, List.any_eq_true, decide_eq_true_eq] at this
    obtain ⟨x, hx, hxn, hxs⟩ := this
    exact ⟨x, hx, by rw [hxn, hxs]⟩
  obtain ⟨a, ha⟩ := hacc
  refine ⟨a, ?_⟩
  have e1 : (kube cl).clusterRoleListerGet "" (ImpersonationPrefix ++ user.UID) st.1
      = (.ok r, st.1.tick) := by
    show (listerGet _ _ _ _ _, _) = _
    rw [hr]
  have e2 : (kube cl).serviceAccountListerGet impersonationNamespace
      (ImpersonationPrefix ++ user.UID) st.1.tick = (.ok a, st.1.tick.tick) := by
    show (listerGet _ _ _ _ _, _) = _
    rw [ha]
  simp [SetUpImpersonation, checkAndUpdateRole, getServiceAccount, e1, e2, hrr]

/-- `notFoundErr` is a NotFound error. -/
@[simp] theorem IsNotFound_notFoundErr (kind name : String) :
    IsNotFound (notFoundErr kind name) = true := rfl

/-- In the reference environment `getUser` reads the management records only: of the
world it changes at most the orders left for later `range` loops, it issues no write,
and whether it fails and the uid, name and extras of its result depend on the records
alone, so that two runs on the same records that come to the same groups come to the
same result. -/
theorem getUser_kube (cl username groupname : String) (st : World × List Call) :
    (∃ seeds, (getUser (kube cl) username groupname st).2.1 = { st.1 with rangeSeeds := seeds })
    ∧ ((getUser (kube cl) username groupname st).2.2).filter Call.isWrite
        = st.2.filter Call.isWrite
    ∧ ∀ st2 : World × List Call, st2.1.users = st.1.users →
        st2.1.userAttributes = st.1.userAttributes →
        (getUser (kube cl) username groupname st2).1.2
          = (getUser (kube cl) username groupname st).1.2
        ∧ ((getUser (kube cl) username groupname st2).1.1.Groups
            = (getUser (kube cl) username groupname st).1.1.Groups →
          (getUser (kube cl) username groupname st2).1
            = (getUser (kube cl) username groupname st).1) := by
  have e1 : ∀ w : World, (kube cl).userListerGet "" username w
      = (listerGet "user" (fun u : User => ("", u.Name)) w.users "" username, w) := fun _ => rfl
  have e2 : ∀ w : World, (kube cl).userAttributeListerGet "" username w
      = (match w.userAttributes.lookup username with
          | some a => .ok a
          | none => .error (notFoundErr "userattribute" username), w) := fun _ => rfl
  have e3 : ∀ w : World, (kube cl).rangeOrder w
      = (w.rangeSeeds.headD 0, { w with rangeSeeds := w.rangeSeeds.tail }) := fun _ => rfl
  refine ⟨?_, ?_, ?_⟩
  · rcases hu : listerGet "user" (fun u : User => ("", u.Name)) st.1.users "" username
      with e | u <;>
    rcases ha : st.1.userAttributes.lookup username with _ | a
    · exact ⟨st.1.rangeSeeds, by simp [getUser, e1, e2, hu, ha]⟩
    · exact ⟨st.1.rangeSeeds, by simp [getUser, e1, e2, hu, ha]⟩
    · exact ⟨st.1.rangeSeeds, by simp [getUser, e1, e2, hu, ha]⟩
    · exact ⟨st.1.rangeSeeds.tail, by simp [getUser, e1, e2, e3, hu, ha]⟩
  · rcases hu : listerGet "user" (fun u : User => ("", u.Name)) st.1.users "" username
      with e | u <;>
    rcases ha : st.1.userAttributes.lookup username with _ | a <;>
    simp [getUser, e1, e2, e3, hu, ha, Call.isWrite]
  · intro st2 hu2 ha2
    rcases hu : listerGet "user" (fun u : User => ("", u.Name)) st.1.users "" username
      with e | u <;>
    rcases ha : st.1.userAttributes.lookup username with _ | a
    · simp [getUser, e1, e2, hu, ha, hu2, ha2]
    · simp [getUser, e1, e2, hu, ha, hu2, ha2]
    · simp [getUser, e1, e2, hu, ha, hu2, ha2]
    · refine ⟨by simp [getUser, e1, e2, e3, hu, ha, hu2, ha2], ?_⟩
      by_cases hp : 0 < u.PrincipalIDs.length <;>
        simp [getUser, e1, e2, e3, hu, ha, hu2, ha2, hp]

/-! ## Identity resolver: extras, uid, error policy -/

/-- The identity of a run of `getUser` that finds the record `u`: either the identity of `u`
with some groups, or the error of the attribute lookup. -/
theorem getUser_found {σ : Type} (c : Client σ) (username groupname : String) (s s1 : σ)
    (u : User) (h : c.userListerGet "" username s = (.ok u, s1)) :
    (∃ groups, (getUser c username groupname).result s
        = ({ UID := u.Name, Name := u.Username, Groups := groups, Extra := extrasOf u }, none))
    ∨ (∃ e, (c.userAttributeListerGet "" username s1).1 = .error e ∧ IsNotFound e = false
        ∧ (getUser c username groupname).result s = ({}, some e)) := by
  rcases ha : c.userAttributeListerGet "" username s1 with ⟨res, s2⟩
  cases res with
  | ok attribs =>
    left
    by_cases hp : u.PrincipalIDs.length > 0 <;>
      simp [getUser, M.result, h, ha, hp, extrasOf, mapSet]
  | error e =>
    by_cases hn : IsNotFound e = true
    · left
      by_cases hp : u.PrincipalIDs.length > 0 <;>
        simp [getUser, M.result, h, ha, hp, hn, extrasOf, mapSet]
    · right
      refine ⟨e, rfl, by simpa using hn, ?_⟩
      simp [getUser, M.result, h, ha, hn]

/-- C11. For every identity `getUser` returns without error, extras maps `username`
to the one-element list of the record's `Username`; it has key `principalid` iff the
record has at least one principal ID, and then maps it to the record's list unchanged;
it has no other key. -/
theorem getUser_extras {σ : Type} (c : Client σ) (username groupname : String) (s s1 : σ)
    (u : User) (h : c.userListerGet "" username s = (.ok u, s1))
    (hs : ((getUser c username groupname).result s).2 = none) :
    ((getUser c username groupname).result s).1.Extra.lookup "username" = some [u.Username]
    ∧ ((getUser c username groupname).result s).1.Extra.lookup "principalid"
      = (if u.PrincipalIDs.length > 0 then some u.PrincipalIDs else none)
    ∧ ∀ k, k ≠ "username" → k ≠ "principalid" →
      ((getUser c username groupname).result s).1.Extra.lookup k = none := by
  rcases getUser_found c username groupname s s1 u h with ⟨groups, hg⟩ | ⟨e, _, _, hg⟩
  · rw [hg]
    by_cases hp : u.PrincipalIDs.length > 0
    · refine ⟨?_, ?_, ?_⟩
      · simp [extrasOf, hp, List.lookup]
      · simp [extrasOf, hp, List.lookup]
      · intro k h1 h2
        have b1 : (k == "username") = false := by simpa using h1
        have b2 : (k == "principalid") = false := by simpa using h2
        simp [extrasOf, hp, List.lookup, b1, b2]
    · refine ⟨?_, ?_, ?_⟩
      · simp [extrasOf, hp, List.lookup]
      · simp [extrasOf, hp, List.lookup]
      · intro k h1 h2
        have b1 : (k == "username") = false := by simpa using h1
        have b2 : (k == "principalid") = false := by simpa using h2
        simp [extrasOf, hp, List.lookup, b1, b2]
  · rw [hg] at hs
    simp at hs

/-- C11 at concrete inputs: `u-bob`, who has a principal ID, and `u-1`, who has none. -/
theorem getUser_extras_witness :
    (((getUser (kube "c1") "u-bob" "devs").result bobWorld).1.Extra.lookup "username"
        = some ["bob"]
      ∧ ((getUser (kube "c1") "u-bob" "devs").result bobWorld).1.Extra.lookup "principalid"
        = some ["local://u-bob"])
    ∧ (((getUser (kube "c1") "u-1" "").result calmWorld).1.Extra.lookup "username"
        = some ["alice"]
      ∧ ((getUser (kube "c1") "u-1" "").result calmWorld).1.Extra.lookup "principalid" = none) :=
  ⟨⟨(getUser_extras (kube "c1") "u-bob" "devs" bobWorld bobWorld
      { Name := "u-bob", Username := "bob", PrincipalIDs := ["local://u-bob"] }
      (by decide) (by decide)).1,
    (getUser_extras (kube "c1") "u-bob" "devs" bobWorld bobWorld
      { Name := "u-bob", Username := "bob", PrincipalIDs := ["local://u-bob"] }
      (by decide) (by decide)).2.1⟩,
   ⟨(getUser_extras (kube "c1") "u-1" "" calmWorld calmWorld
      { Name := "u-1", Username := "alice" } (by decide) (by decide)).1,
    (getUser_extras (kube "c1") "u-1" "" calmWorld calmWorld
      { Name := "u-1", Username := "alice" } (by decide) (by decide)).2.1⟩⟩

/-- C12, as stated, fails: `getUser` copies the object name of the record into the uid
without a check, so the record of `namelessWorld` gives an identity with an empty uid
and no error. -/
theorem getUser_empty_uid :
    ((getUser (kube "c1") "" "").result namelessWorld).2 = none
    ∧ ((getUser (kube "c1") "" "").result namelessWorld).1.UID = "" := by
  decide

/-- C12, amended. For every identity `getUser` returns without error, the uid is the
object name of the user record that the lookup returned; it is non-empty exactly when
that name is. -/
theorem getUser_uid {σ : Type} (c : Client σ) (username groupname : String) (s s1 : σ)
    (u : User) (h : c.userListerGet "" username s = (.ok u, s1))
    (hs : ((getUser c username groupname).result s).2 = none) :
    ((getUser c username groupname).result s).1.UID = u.Name
    ∧ (((getUser c username groupname).result s).1.UID ≠ "" ↔ u.Name ≠ "") := by
  rcases getUser_found c username groupname s s1 u h with ⟨groups, hg⟩ | ⟨e, _, _, hg⟩
  · rw [hg]
    exact ⟨rfl, Iff.rfl⟩
  · rw [hg] at hs
    simp at hs

/-- C12, amended, at a concrete input: the record `u-bob`. -/
theorem getUser_uid_witness :
    ((getUser (kube "c1") "u-bob" "devs").result bobWorld).1.UID = "u-bob"
    ∧ (((getUser (kube "c1") "u-bob" "devs").result bobWorld).1.UID ≠ "" ↔ "u-bob" ≠ "") :=
  getUser_uid (kube "c1") "u-bob" "devs" bobWorld bobWorld
    { Name := "u-bob", Username := "bob", PrincipalIDs := ["local://u-bob"] }
    (by decide) (by decide)

/-- C13. If the user lookup fails, `getUser` fails with that very error and the lookup
is its only call: the attributes are not consulted. If the attribute lookup fails with
NotFound, `getUser` succeeds and the groups are the baseline groups followed by
`groupname` when it is non-empty. If the attribute lookup fails with another error,
`getUser` fails with that error. -/
theorem getUser_error_policy {σ : Type} (c : Client σ) (username groupname : String) (s : σ) :
    (∀ e s1, c.userListerGet "" username s = (.error e, s1) →
      (getUser c username groupname).result s = ({}, some e)
      ∧ (getUser c username groupname).calls s = [.userListerGet "" username])
    ∧ (∀ u s1 e s2, c.userListerGet "" username s = (.ok u, s1) →
      c.userAttributeListerGet "" username s1 = (.error e, s2) → IsNotFound e = true →
      ((getUser c username groupname).result s).2 = none
      ∧ ((getUser c username groupname).result s).1.Groups
        = ["system:authenticated", "system:cattle:authenticated"]
          ++ (if groupname ≠ "" then [groupname] else []))
    ∧ (∀ u s1 e s2, c.userListerGet "" username s = (.ok u, s1) →
      c.userAttributeListerGet "" username s1 = (.error e, s2) → IsNotFound e = false →
      (getUser c username groupname).result s = ({}, some e)) := by
  refine ⟨?_, ?_, ?_⟩
  · intro e s1 h
    simp [getUser, M.result, M.calls, h]
  · intro u s1 e s2 h h2 hn
    by_cases hg : groupname = "" <;> by_cases hp : u.PrincipalIDs.length > 0 <;>
      simp [getUser, M.result, h, h2, hg, hp, hn]
  · intro u s1 e s2 h h2 hn
    simp [getUser, M.result, h, h2, hn]

/-- C13 at concrete inputs: the missing user `bob`, the user `u-bob` without
attributes, and a failing attribute lister. -/
theorem getUser_error_policy_witness :
    ((getUser (kube "c1") "bob" "devs").result {} = ({}, some (notFoundErr "user" "bob"))
      ∧ (getUser (kube "c1") "bob" "devs").calls {} = [.userListerGet "" "bob"])
    ∧ (((getUser (kube "c1") "u-bob" "devs").result { bobWorld with userAttributes := [] }).2
        = none
      ∧ ((getUser (kube "c1") "u-bob" "devs").result
          { bobWorld with userAttributes := [] }).1.Groups
        = ["system:authenticated", "system:cattle:authenticated", "devs"])
    ∧ (getUser brokenAttributeLister "u-bob" "devs").result bobWorld
        = ({}, some (.status (.other "InternalError") "etcd timeout")) :=
  ⟨(getUser_error_policy (kube "c1") "bob" "devs" {}).1 (notFoundErr "user" "bob") {}
      (by decide),
   (getUser_error_policy (kube "c1") "u-bob" "devs" { bobWorld with userAttributes := [] }).2.1
      { Name := "u-bob", Username := "bob", PrincipalIDs := ["local://u-bob"] }
      { bobWorld with userAttributes := [] } (notFoundErr "userattribute" "u-bob")
      { bobWorld with userAttributes := [] } (by decide) (by decide) (by decide),
   (getUser_error_policy brokenAttributeLister "u-bob" "devs" bobWorld).2.2
      { Name := "u-bob", Username := "bob", PrincipalIDs := ["local://u-bob"] }
      bobWorld (.status (.other "InternalError") "etcd timeout") bobWorld
      (by decide) (by decide) (by decide)⟩

/-! ## Lifecycle manager: teardown frame -/

/-- C14. The calls of `deleteServiceAccountImpersonator` on the cluster are none, or
the one delete of the ClusterRole `cattle-impersonation-username`; nothing else is
deleted. An error of either grant index is returned and no cluster call is issued.
With both indexes empty the delete is issued: its not-found error is returned as
success, any other error of it is returned. -/
theorem deleteServiceAccountImpersonator_frame {σ : Type} (c : Client σ) (username : String)
    (s : σ) :
    (((deleteServiceAccountImpersonator c username).calls s).filter Call.isCluster = []
      ∨ ((deleteServiceAccountImpersonator c username).calls s).filter Call.isCluster
        = [.clusterRoleDelete (ImpersonationPrefix ++ username)])
    ∧ (∀ e s1, c.crtbByIndex c.rtbByClusterAndUserIndex (c.ClusterName ++ "-" ++ username) s
        = (.error e, s1) →
      (deleteServiceAccountImpersonator c username).result s = some e
      ∧ ((deleteServiceAccountImpersonator c username).calls s).filter Call.isCluster = [])
    ∧ (∀ crtbs s1 e s2,
      c.crtbByIndex c.rtbByClusterAndUserIndex (c.ClusterName ++ "-" ++ username) s
        = (.ok crtbs, s1) →
      c.prtbByIndex c.rtbByClusterAndUserIndex (c.ClusterName ++ "-" ++ username) s1
        = (.error e, s2) →
      (deleteServiceAccountImpersonator c username).result s = some e
      ∧ ((deleteServiceAccountImpersonator c username).calls s).filter Call.isCluster = [])
    ∧ (∀ s1 s2 s3 err,
      c.crtbByIndex c.rtbByClusterAndUserIndex (c.ClusterName ++ "-" ++ username) s
        = (.ok [], s1) →
      c.prtbByIndex c.rtbByClusterAndUserIndex (c.ClusterName ++ "-" ++ username) s1
        = (.ok [], s2) →
      c.clusterRoleDelete (ImpersonationPrefix ++ username) s2 = (err, s3) →
      (deleteServiceAccountImpersonator c username).result s
        = (match err with
          | none => none
          | some e => if IsNotFound e then none else some e)
      ∧ ((deleteServiceAccountImpersonator c username).calls s).filter Call.isCluster
        = [.clusterRoleDelete (ImpersonationPrefix ++ username)]) := by
  have key : ∀ (s1 s2 s3 : σ) (err : Option Err),
      c.crtbByIndex c.rtbByClusterAndUserIndex (c.ClusterName ++ "-" ++ username) s
        = (.ok [], s1) →
      c.prtbByIndex c.rtbByClusterAndUserIndex (c.ClusterName ++ "-" ++ username) s1
        = (.ok [], s2) →
      c.clusterRoleDelete (ImpersonationPrefix ++ username) s2 = (err, s3) →
      (deleteServiceAccountImpersonator c username).result s
        = (match err with
          | none => none
          | some e => if IsNotFound e then none else some e)
      ∧ ((deleteServiceAccountImpersonator c username).calls s).filter Call.isCluster
        = [.clusterRoleDelete (ImpersonationPrefix ++ username)] := by
    intro s1 s2 s3 err h1 h2 h3
    cases err with
    | none =>
      simp [deleteServiceAccountImpersonator, M.result, M.calls, h1, h2, h3, Call.isCluster]
    | some e =>
      by_cases hn : IsNotFound e = true <;>
        simp [deleteServiceAccountImpersonator, M.result, M.calls, h1, h2, h3, hn,
          Call.isCluster]
  refine ⟨?_, ?_, ?_, key⟩
  · rcases h1 : c.crtbByIndex c.rtbByClusterAndUserIndex (c.ClusterName ++ "-" ++ username) s
      with ⟨r1, s1⟩
    cases r1 with
    | error e =>
      left
      simp [deleteServiceAccountImpersonator, M.calls, h1, Call.isCluster]
    | ok crtbs =>
      rcases h2 : c.prtbByIndex c.rtbByClusterAndUserIndex (c.ClusterName ++ "-" ++ username)
        s1 with ⟨r2, s2⟩
      cases r2 with
      | error e =>
        left
        simp [deleteServiceAccountImpersonator, M.calls, h1, h2, Call.isCluster]
      | ok prtbs =>
        by_cases hpos : 0 < crtbs.length ∨ 0 < prtbs.length
        · left
          simp [deleteServiceAccountImpersonator, M.calls, h1, h2, hpos, Call.isCluster]
        · right
          have hc : crtbs = [] := by
            cases crtbs with
            | nil => rfl
            | cons a as => exact absurd (Or.inl (by simp)) hpos
          have hp : prtbs = [] := by
            cases prtbs with
            | nil => rfl
            | cons a as => exact absurd (Or.inr (by simp)) hpos
          subst hc hp
          rcases h3 : c.clusterRoleDelete (ImpersonationPrefix ++ username) s2 with ⟨err, s3⟩
          exact (key s1 s2 s3 err h1 h2 h3).2
  · intro e s1 h1
    simp [deleteServiceAccountImpersonator, M.result, M.calls, h1, Call.isCluster]
  · intro crtbs s1 e s2 h1 h2
    simp [deleteServiceAccountImpersonator, M.result, M.calls, h1, h2, Call.isCluster]

/-- C14 at concrete inputs: both indexes empty for `carol` on `cluster-7` (exactly
one delete, whose not-found is success), a refused delete, and a failing index. -/
theorem deleteServiceAccountImpersonator_frame_witness :
    ((deleteServiceAccountImpersonator (kube "cluster-7") "carol").result {} = none
      ∧ ((deleteServiceAccountImpersonator (kube "cluster-7") "carol").calls {}).filter
          Call.isCluster = [.clusterRoleDelete "cattle-impersonation-carol"])
    ∧ ((deleteServiceAccountImpersonator brokenRoleDelete "carol").result {}
        = some (.status (.other "Forbidden") "clusterroles is forbidden")
      ∧ ((deleteServiceAccountImpersonator brokenRoleDelete "carol").calls {}).filter
          Call.isCluster = [.clusterRoleDelete "cattle-impersonation-carol"])
    ∧ ((deleteServiceAccountImpersonator brokenProjectIndex "carol").result {}
        = some (.plain "Index with name rtbByClusterAndUser does not exist")
      ∧ ((deleteServiceAccountImpersonator brokenProjectIndex "carol").calls {}).filter
          Call.isCluster = []) :=
  ⟨(deleteServiceAccountImpersonator_frame (kube "cluster-7") "carol" {}).2.2.2 {} {} {}
      (some (notFoundErr "clusterrole" "cattle-impersonation-carol"))
      (by decide) (by decide) (by decide),
   (deleteServiceAccountImpersonator_frame brokenRoleDelete "carol" {}).2.2.2 {} {} {}
      (some (.status (.other "Forbidden") "clusterroles is forbidden"))
      (by decide) (by decide) (by decide),
   (deleteServiceAccountImpersonator_frame brokenProjectIndex "carol" {}).2.2.1 [] {}
      (.plain "Index with name rtbByClusterAndUser does not exist") {}
      (by decide) (by decide)⟩

/-! ## Resource reconciler: the role-exists paths -/

/-- C15. Fast path: if the cached probe finds the ClusterRole `cattle-impersonation-uid`
with a rule list deep-equal to `rulesForUser` (equality of `Slice` values, which keeps a
nil list and an empty list apart, in the rule list and in every list of a rule),
`SetUpImpersonation` issues no write call and polls nothing: after the probe it makes one cached `Get` of the service account
`cattle-impersonation-uid` in the impersonation namespace and returns that account, or
the read error wrapped. The only other call is the listing for the trace log after a
failed read, when trace logging is on. -/
theorem SetUpImpersonation_fast_path {σ : Type} (c : Client σ) (user : DefaultInfo)
    (s s1 : σ) (role : ClusterRole)
    (h : c.clusterRoleListerGet "" (ImpersonationPrefix ++ user.UID) s = (.ok role, s1))
    (heq : role.Rules = rulesForUser user) :
    ((SetUpImpersonation c user).calls s).filter Call.isWrite = []
    ∧ (∀ sa s2, c.serviceAccountListerGet impersonationNamespace
        (ImpersonationPrefix ++ user.UID) s1 = (.ok sa, s2) →
      (SetUpImpersonation c user).result s = (some sa, none)
      ∧ (SetUpImpersonation c user).calls s
        = [.clusterRoleListerGet "" (ImpersonationPrefix ++ user.UID),
           .serviceAccountListerGet impersonationNamespace (ImpersonationPrefix ++ user.UID)])
    ∧ (∀ e s2, c.serviceAccountListerGet impersonationNamespace
        (ImpersonationPrefix ++ user.UID) s1 = (.error e, s2) →
      (SetUpImpersonation c user).result s
        = (none, some (.wrap ("failed to get secret for service account: "
            ++ impersonationNamespace ++ "/" ++ (ImpersonationPrefix ++ user.UID)
            ++ ", error: ") e))
      ∧ (SetUpImpersonation c user).calls s
        = [.clusterRoleListerGet "" (ImpersonationPrefix ++ user.UID),
           .serviceAccountListerGet impersonationNamespace (ImpersonationPrefix ++ user.UID)]
          ++ (if c.traceLevel then [.serviceAccountListerList impersonationNamespace]
              else [])) := by
  refine ⟨?_, ?_, ?_⟩
  · simp [SetUpImpersonation, checkAndUpdateRole, M.calls, h, heq, getServiceAccount_writes,
      Call.isWrite]
  · intro sa s2 hg
    simp [SetUpImpersonation, checkAndUpdateRole, getServiceAccount, M.calls, M.result, h, heq,
      hg]
  · intro e s2 hg
    cases ht : c.traceLevel <;>
      simp [SetUpImpersonation, checkAndUpdateRole, getServiceAccount, M.calls, M.result, h,
        heq, hg, ht]

/-- C15 at concrete inputs: `settledWorld`, where the account is returned, and a
cluster that holds the role alone, where the read fails. -/
theorem SetUpImpersonation_fast_path_witness :
    ((SetUpImpersonation (kube "c1") alice).calls settledWorld).filter Call.isWrite = []
    ∧ ((SetUpImpersonation (kube "c1") alice).result settledWorld = (some readyAccount, none)
      ∧ (SetUpImpersonation (kube "c1") alice).calls settledWorld
        = [.clusterRoleListerGet "" "cattle-impersonation-u-1",
           .serviceAccountListerGet "cattle-impersonation-system" "cattle-impersonation-u-1"])
    ∧ ((SetUpImpersonation (kube "c1") alice).result
          { settledWorld with cache := { clusterRoles := [currentRole] } }
        = (none, some (.wrap ("failed to get secret for service account: "
            ++ "cattle-impersonation-system/cattle-impersonation-u-1, error: ")
            (notFoundErr "serviceaccount" "cattle-impersonation-u-1")))
      ∧ (SetUpImpersonation (kube "c1") alice).calls
          { settledWorld with cache := { clusterRoles := [currentRole] } }
        = [.clusterRoleListerGet "" "cattle-impersonation-u-1",
           .serviceAccountListerGet "cattle-impersonation-system" "cattle-impersonation-u-1"]
          ++ []) :=
  ⟨(SetUpImpersonation_fast_path (kube "c1") alice settledWorld settledWorld currentRole
      (by decide) (by decide)).1,
   (SetUpImpersonation_fast_path (kube "c1") alice settledWorld settledWorld currentRole
      (by decide) (by decide)).2.1 readyAccount settledWorld (by decide),
   (SetUpImpersonation_fast_path (kube "c1") alice
      { settledWorld with cache := { clusterRoles := [currentRole] } }
      { settledWorld with cache := { clusterRoles := [currentRole] } } currentRole
      (by decide) (by decide)).2.2 (notFoundErr "serviceaccount" "cattle-impersonation-u-1")
      { settledWorld with cache := { clusterRoles := [currentRole] } } (by decide)⟩

/-- C16, as stated, fails. On `staleRoleWorld` the role of `alice` has other rules and
the update succeeds, while namespace, service account and binding are missing. After
the update `SetUpImpersonation` makes one cached read of the service account and
returns its not-found error: it probes and creates nothing else and does not poll. -/
theorem SetUpImpersonation_returns_after_update :
    ((SetUpImpersonation (kube "c1") alice).calls staleRoleWorld).map Call.op
      = ["ClusterRoles.Lister.Get", "ClusterRoles.Update", "ServiceAccounts.Lister.Get"]
    ∧ ((SetUpImpersonation (kube "c1") alice).final staleRoleWorld).store
      = { clusterRoles := [{ staleRole with Rules := rulesForUser alice }] }
    ∧ (SetUpImpersonation (kube "c1") alice).result staleRoleWorld
      = (none, some (.wrap ("failed to get secret for service account: "
          ++ "cattle-impersonation-system/cattle-impersonation-u-1, error: ")
          (notFoundErr "serviceaccount" "cattle-impersonation-u-1"))) := by
  decide

/-- C16, amended. When the cached probe finds the ClusterRole with other rules and the
update succeeds, `SetUpImpersonation` goes on as on the fast path: its calls are the
probe, the update and one cached `Get` of the service account (followed by the listing
for the trace log when that read fails and trace logging is on), and it returns the
account read, or the read error wrapped. -/
theorem SetUpImpersonation_after_update {σ : Type} (c : Client σ) (user : DefaultInfo)
    (s s1 s2 : σ) (role updated : ClusterRole)
    (h : c.clusterRoleListerGet "" (ImpersonationPrefix ++ user.UID) s = (.ok role, s1))
    (hne : role.Rules ≠ rulesForUser user)
    (hu : c.clusterRoleUpdate { role with Rules := rulesForUser user }
        (c.clusterRoleAssignRules role (rulesForUser user) s1)
      = ((updated, none), s2)) :
    (SetUpImpersonation c user).calls s
      = [.clusterRoleListerGet "" (ImpersonationPrefix ++ user.UID),
         .clusterRoleUpdate { role with Rules := rulesForUser user },
         .serviceAccountListerGet impersonationNamespace (ImpersonationPrefix ++ user.UID)]
        ++ (if c.traceLevel
              ∧ (c.serviceAccountListerGet impersonationNamespace
                  (ImpersonationPrefix ++ user.UID) s2).1.isOk = false
            then [.serviceAccountListerList impersonationNamespace] else [])
    ∧ (SetUpImpersonation c user).result s
      = (match (c.serviceAccountListerGet impersonationNamespace
            (ImpersonationPrefix ++ user.UID) s2).1 with
        | .ok sa => (some sa, none)
        | .error e => (none, some (.wrap ("failed to get secret for service account: "
            ++ impersonationNamespace ++ "/" ++ (ImpersonationPrefix ++ user.UID)
            ++ ", error: ") e))) := by
  rcases hg : c.serviceAccountListerGet impersonationNamespace
    (ImpersonationPrefix ++ user.UID) s2 with ⟨res, s3⟩
  cases res with
  | ok sa =>
    simp [SetUpImpersonation, checkAndUpdateRole, getServiceAccount, M.calls, M.result, h, hne,
      hu, hg, Except.isOk, Except.toBool]
  | error e =>
    cases ht : c.traceLevel <;>
      simp [SetUpImpersonation, checkAndUpdateRole, getServiceAccount, M.calls, M.result, h,
        hne, hu, hg, ht, Except.isOk, Except.toBool]

/-- C16, amended, at a concrete input: `staleWorld`, which holds the account. -/
theorem SetUpImpersonation_after_update_witness :
    (SetUpImpersonation (kube "c1") alice).calls staleWorld
      = [.clusterRoleListerGet "" "cattle-impersonation-u-1",
         .clusterRoleUpdate { staleRole with Rules := rulesForUser alice },
         .serviceAccountListerGet "cattle-impersonation-system" "cattle-impersonation-u-1"]
        ++ []
    ∧ (SetUpImpersonation (kube "c1") alice).result staleWorld = (some readyAccount, none) :=
  SetUpImpersonation_after_update (kube "c1") alice staleWorld staleWorld updatedWorld
    staleRole { staleRole with Rules := rulesForUser alice } (by decide) (by decide) (by decide)

/-! ## Resource reconciler: readiness of the result -/

/-- When the polls end without error, the object they return has a secret. -/
theorem ExponentialBackoff_ready {σ : Type} (c : Client σ) (sa : ServiceAccount) :
    ∀ (n : Nat) (r : Option ServiceAccount) (st : σ × List Call),
      (ExponentialBackoff n (waitCondition c sa) r st).1.2 = none →
      ∃ a, (ExponentialBackoff n (waitCondition c sa) r st).1.1 = some a
        ∧ a.Secrets.length > 0 := by
  intro n
  induction n with
  | zero =>
    intro r st h
    simp [ExponentialBackoff, ErrWaitTimeout] at h
  | succ n ih =>
    intro r st h
    rcases hg : c.serviceAccountListerGet impersonationNamespace sa.ObjectMeta.Name st.1
      with ⟨res, s1⟩
    simp only [ExponentialBackoff, waitCondition, M.bind_apply, M.call_apply, M.pure_apply,
      hg] at h ⊢
    cases res with
    | error e =>
      by_cases hn : IsNotFound e = true
      · simp only [hn, ↓reduceIte, M.pure_apply, Option.isSome_none, Bool.or_self,
          Bool.false_eq_true] at h ⊢
        exact ih none _ h
      · simp [hn] at h
    | ok a =>
      by_cases hs : a.Secrets.length > 0
      · simp only [hs, ↓reduceIte, M.pure_apply, Option.isSome_none, Bool.or_true]
        exact ⟨a, rfl, hs⟩
      · simp only [hs, ↓reduceIte, M.pure_apply, Option.isSome_none, Bool.or_self,
          Bool.false_eq_true] at h ⊢
        exact ih (some a) _ h

/-- A successful `waitForServiceAccount` returns a service account with a secret. -/
theorem waitForServiceAccount_ready {σ : Type} (c : Client σ) (sa : ServiceAccount)
    (st : σ × List Call) (h : (waitForServiceAccount c sa st).1.2 = none) :
    ∃ a, (waitForServiceAccount c sa st).1.1 = some a ∧ a.Secrets.length > 0 := by
  have hb := ExponentialBackoff_ready c sa 10 none st
  rcases he : ExponentialBackoff 10 (waitCondition c sa) none st with ⟨⟨ret, err⟩, st1⟩
  rw [he] at hb
  simp only [waitForServiceAccount, M.bind_apply, M.pure_apply, he] at h ⊢
  cases err with
  | none => exact hb rfl
  | some e =>
    cases ht : c.traceLevel <;> simp [ht] at h

/-- C17, as stated, fails on the role-exists path. On `pendingRoleWorld` the role is up
to date and the cached service account has no secret: `SetUpImpersonation` returns that
account without error, and `GetToken` on it fails with "service account is not
ready". -/
theorem SetUpImpersonation_returns_pending_account :
    (SetUpImpersonation (kube "c1") alice).result pendingRoleWorld = (some pendingAccount, none)
    ∧ pendingAccount.Secrets = []
    ∧ (GetToken (kube "c1") pendingAccount).result pendingRoleWorld
      = ("", some (.plain "service account is not ready")) := by
  decide

/-- C17, amended. On the creation path (the cached probe finds no role) a service
account that `SetUpImpersonation` returns without error references at least one secret,
so `GetToken` on it never fails with "service account is not ready". On the role-exists
path, with equal rules or after a successful update, the account returned is the one
the cached read gives, whatever secrets it has. -/
theorem SetUpImpersonation_ready {σ : Type} (c : Client σ) (user : DefaultInfo) (s : σ) :
    (∀ e s1 sa, c.clusterRoleListerGet "" (ImpersonationPrefix ++ user.UID) s = (.error e, s1) →
      IsNotFound e = true →
      (SetUpImpersonation c user).result s = (some sa, none) →
      sa.Secrets.length > 0
      ∧ ∀ t, ((GetToken c sa).result t).2 ≠ some (.plain "service account is not ready"))
    ∧ (∀ role s1 sa s2,
      c.clusterRoleListerGet "" (ImpersonationPrefix ++ user.UID) s = (.ok role, s1) →
      role.Rules = rulesForUser user →
      c.serviceAccountListerGet impersonationNamespace (ImpersonationPrefix ++ user.UID) s1
        = (.ok sa, s2) →
      (SetUpImpersonation c user).result s = (some sa, none))
    ∧ (∀ role s1 updated s2 sa s3,
      c.clusterRoleListerGet "" (ImpersonationPrefix ++ user.UID) s = (.ok role, s1) →
      role.Rules ≠ rulesForUser user →
      c.clusterRoleUpdate { role with Rules := rulesForUser user }
          (c.clusterRoleAssignRules role (rulesForUser user) s1) = ((updated, none), s2) →
      c.serviceAccountListerGet impersonationNamespace (ImpersonationPrefix ++ user.UID) s2
        = (.ok sa, s3) →
      (SetUpImpersonation c user).result s = (some sa, none)) := by
  refine ⟨?_, ?_, ?_⟩
  · intro e s1 sa h hn hres
    have hsec : sa.Secrets.length > 0 := by
      simp only [SetUpImpersonation, checkAndUpdateRole, M.result, M.bind_apply, M.call_apply,
        M.pure_apply, h, hn, ↓reduceIte] at hres
      rcases hnr : createNamespace c (s1, [] ++ [.clusterRoleListerGet ""
        (ImpersonationPrefix ++ user.UID)]) with ⟨err, st2⟩
      rw [hnr] at hres
      cases err with
      | some e2 => simp at hres
      | none =>
      simp only [M.bind_apply, M.pure_apply] at hres
      rcases hrr : createRole c user (rulesForUser user) st2 with ⟨⟨role, err⟩, st3⟩
      rw [hrr] at hres
      cases err with
      | some e2 => simp at hres
      | none =>
      cases role with
      | none => simp at hres
      | some role =>
      simp only [M.bind_apply, M.pure_apply] at hres
      rcases hsr : createServiceAccount c user role st3 with ⟨⟨sa0, err⟩, st4⟩
      rw [hsr] at hres
      cases err with
      | some e2 => simp at hres
      | none =>
      cases sa0 with
      | none => simp at hres
      | some sa0 =>
      simp only [M.bind_apply, M.pure_apply] at hres
      rcases hbr : createRoleBinding c user role sa0 st4 with ⟨err, st5⟩
      rw [hbr] at hres
      cases err with
      | some e2 => simp at hres
      | none =>
      simp only [M.bind_apply, M.pure_apply] at hres
      obtain ⟨a, ha, hlen⟩ := waitForServiceAccount_ready c sa0 st5 (by rw [hres])
      rw [hres] at ha
      cases ha
      exact hlen
    refine ⟨hsec, ?_⟩
    intro t
    cases hsecs : sa.Secrets with
    | nil => simp [hsecs] at hsec
    | cons secret rest =>
      rcases hg : c.secretListerGet impersonationNamespace secret.Name t with ⟨res, t1⟩
      cases res with
      | error e2 =>
        cases ht : c.traceLevel <;> simp [GetToken, M.result, hsecs, hg, ht]
      | ok obj =>
        cases hl : obj.Data.lookup "token" <;> simp [GetToken, M.result, hsecs, hg, hl]
  · intro role s1 sa s2 h heq hg
    simp [SetUpImpersonation, checkAndUpdateRole, getServiceAccount, M.result, h, heq, hg]
  · intro role s1 updated s2 sa s3 h hne hu hg
    simp [SetUpImpersonation, checkAndUpdateRole, getServiceAccount, M.result, h, hne, hu, hg]

/-- C17, amended, at concrete inputs: the creation path on `tokenSoon`, the fast path
on `settledWorld` and the update path on `staleWorld`. -/
theorem SetUpImpersonation_ready_witness :
    ((((SetUpImpersonation (kube "c1") alice).result tokenSoon).1.getD {}).Secrets.length > 0
      ∧ ∀ t, ((GetToken (kube "c1")
          (((SetUpImpersonation (kube "c1") alice).result tokenSoon).1.getD {})).result t).2
        ≠ some (.plain "service account is not ready"))
    ∧ (SetUpImpersonation (kube "c1") alice).result settledWorld = (some readyAccount, none)
    ∧ (SetUpImpersonation (kube "c1") alice).result staleWorld = (some readyAccount, none) :=
  ⟨(SetUpImpersonation_ready (kube "c1") alice tokenSoon).1
      (notFoundErr "clusterrole" "cattle-impersonation-u-1") tokenSoon.tick
      (((SetUpImpersonation (kube "c1") alice).result tokenSoon).1.getD {})
      (by decide) (by decide) (by decide),
   (SetUpImpersonation_ready (kube "c1") alice settledWorld).2.1 currentRole settledWorld
      readyAccount settledWorld (by decide) (by decide) (by decide),
   (SetUpImpersonation_ready (kube "c1") alice staleWorld).2.2 staleRole staleWorld
      { staleRole with Rules := rulesForUser alice } updatedWorld readyAccount updatedWorld
      (by decide) (by decide) (by decide) (by decide)⟩

/-! ## Readiness waiter: one poll -/

/-- After `k` polls that are not ready, poll number `k` decides the wait when it is
answered by an error other than not-found or by an account with a secret. -/
theorem ExponentialBackoff_decided {σ : Type} (c : Client σ) (sa : ServiceAccount) :
    ∀ (k n : Nat) (r : Option ServiceAccount) (st : σ × List Call), k < n →
      (∀ i, i < k → notReady
        (c.serviceAccountListerGet impersonationNamespace sa.ObjectMeta.Name
          (pollState c sa st.1 i)).1 = true) →
      (∀ e, (c.serviceAccountListerGet impersonationNamespace sa.ObjectMeta.Name
          (pollState c sa st.1 k)).1 = .error e → IsNotFound e = false →
        ExponentialBackoff n (waitCondition c sa) r st =
          ((none, some e), (pollState c sa st.1 (k + 1), st.2 ++ List.replicate (k + 1)
            (.serviceAccountListerGet impersonationNamespace sa.ObjectMeta.Name))))
      ∧ (∀ a, (c.serviceAccountListerGet impersonationNamespace sa.ObjectMeta.Name
          (pollState c sa st.1 k)).1 = .ok a → a.Secrets.length > 0 →
        ExponentialBackoff n (waitCondition c sa) r st =
          ((some a, none), (pollState c sa st.1 (k + 1), st.2 ++ List.replicate (k + 1)
            (.serviceAccountListerGet impersonationNamespace sa.ObjectMeta.Name)))) := by
  intro k
  induction k with
  | zero =>
    intro n r st hk _
    obtain ⟨m, rfl⟩ : ∃ m, n = m + 1 := ⟨n - 1, by omega⟩
    rcases hg : c.serviceAccountListerGet impersonationNamespace sa.ObjectMeta.Name st.1
      with ⟨res, s1⟩
    refine ⟨?_, ?_⟩
    · intro e he hn
      simp only [pollState, Function.iterate_zero, id_eq, hg] at he
      subst he
      simp [ExponentialBackoff, waitCondition, hg, hn, pollState]
    · intro a ha hs
      simp only [pollState, Function.iterate_zero, id_eq, hg] at ha
      subst ha
      simp [ExponentialBackoff, waitCondition, hg, hs, pollState]
  | succ k ih =>
    intro n r st hk h
    obtain ⟨m, rfl⟩ : ∃ m, n = m + 1 := ⟨n - 1, by omega⟩
    have h0 := h 0 (Nat.succ_pos k)
    simp only [pollState, Function.iterate_zero, id_eq] at h0
    rcases hg : c.serviceAccountListerGet impersonationNamespace sa.ObjectMeta.Name st.1
      with ⟨res, s1⟩
    rw [hg] at h0
    have hstep : ∀ i, i < k → notReady
        (c.serviceAccountListerGet impersonationNamespace sa.ObjectMeta.Name
          (pollState c sa s1 i)).1 = true := by
      intro i hi
      have := h (i + 1) (Nat.succ_lt_succ hi)
      simpa [pollState, Function.iterate_succ_apply, hg] using this
    have hshift : ∀ j, pollState c sa st.1 (j + 1) = pollState c sa s1 j := by
      intro j
      simp [pollState, Function.iterate_succ_apply, hg]
    cases res with
    | error e0 =>
      simp only [notReady] at h0
      have := ih m none (s1, st.2 ++ [.serviceAccountListerGet impersonationNamespace
        sa.ObjectMeta.Name]) (by omega) hstep
      refine ⟨?_, ?_⟩
      · intro e he hn
        rw [hshift] at he
        have := this.1 e he hn
        simp [ExponentialBackoff, waitCondition, hg, h0, this, hshift,
          List.replicate_succ (n := k + 1)]
      · intro a ha hs
        rw [hshift] at ha
        have := this.2 a ha hs
        simp [ExponentialBackoff, waitCondition, hg, h0, this, hshift,
          List.replicate_succ (n := k + 1)]
    | ok a0 =>
      simp only [notReady, decide_eq_true_eq] at h0
      have := ih m (some a0) (s1, st.2 ++ [.serviceAccountListerGet impersonationNamespace
        sa.ObjectMeta.Name]) (by omega) hstep
      refine ⟨?_, ?_⟩
      · intro e he hn
        rw [hshift] at he
        have := this.1 e he hn
        simp [ExponentialBackoff, waitCondition, hg, h0, this, hshift,
          List.replicate_succ (n := k + 1)]
      · intro a ha hs
        rw [hshift] at ha
        have := this.2 a ha hs
        simp [ExponentialBackoff, waitCondition, hg, h0, this, hshift,
          List.replicate_succ (n := k + 1)]

/-- C20. Let the first `k` polls of `waitForServiceAccount` (`k < 10`) be answered by
not-found or by an account without secret: none of them ends the wait, and poll number
`k` is made. If that poll fails with an error other than not-found, the wait ends at
once with a failure that wraps that error, after `k + 1` polls. If it reads an account
with at least one secret, the wait ends successfully after `k + 1` polls and returns
exactly that account. -/
theorem waitForServiceAccount_poll_step {σ : Type} (c : Client σ) (sa : ServiceAccount) (s : σ)
    (k : Nat) (hk : k < 10)
    (h : ∀ i, i < k → notReady
      (c.serviceAccountListerGet impersonationNamespace sa.ObjectMeta.Name
        (pollState c sa s i)).1 = true) :
    (∀ e, (c.serviceAccountListerGet impersonationNamespace sa.ObjectMeta.Name
        (pollState c sa s k)).1 = .error e → IsNotFound e = false →
      (waitForServiceAccount c sa).result s
        = (none, some (.wrap ("failed to get secret for service account: "
            ++ sa.ObjectMeta.Namespace ++ "/" ++ sa.ObjectMeta.Name ++ ", error: ") e))
      ∧ (waitForServiceAccount c sa).calls s
        = List.replicate (k + 1)
            (.serviceAccountListerGet impersonationNamespace sa.ObjectMeta.Name)
          ++ (if c.traceLevel then [.serviceAccountListerList impersonationNamespace] else []))
    ∧ (∀ a, (c.serviceAccountListerGet impersonationNamespace sa.ObjectMeta.Name
        (pollState c sa s k)).1 = .ok a → a.Secrets.length > 0 →
      (waitForServiceAccount c sa).result s = (some a, none)
      ∧ (waitForServiceAccount c sa).calls s
        = List.replicate (k + 1)
            (.serviceAccountListerGet impersonationNamespace sa.ObjectMeta.Name)) := by
  have hd := ExponentialBackoff_decided c sa k 10 none (s, []) hk h
  refine ⟨?_, ?_⟩
  · intro e he hn
    have := hd.1 e he hn
    cases ht : c.traceLevel <;>
      simp [waitForServiceAccount, M.result, M.calls, this, ht]
  · intro a ha hs
    have := hd.2 a ha hs
    simp [waitForServiceAccount, M.result, M.calls, this]

/-- C20 at concrete inputs: on `lateTokenWorld` the first poll finds nothing, the next
two find the account without secret, the fourth finds the token and ends the wait; with
`brokenAccountLister` the first poll fails and ends the wait. -/
theorem waitForServiceAccount_poll_step_witness :
    ((waitForServiceAccount (kube "c1") pendingAccount).result lateTokenWorld
        = (some readyAccount, none)
      ∧ (waitForServiceAccount (kube "c1") pendingAccount).calls lateTokenWorld
        = List.replicate (3 + 1)
            (.serviceAccountListerGet "cattle-impersonation-system" "cattle-impersonation-u-1"))
    ∧ ((waitForServiceAccount brokenAccountLister pendingAccount).result lateTokenWorld
        = (none, some (.wrap ("failed to get secret for service account: "
            ++ "cattle-impersonation-system/cattle-impersonation-u-1, error: ")
            (.status (.other "InternalError") "cache not synced")))
      ∧ (waitForServiceAccount brokenAccountLister pendingAccount).calls lateTokenWorld
        = List.replicate (0 + 1)
            (.serviceAccountListerGet "cattle-impersonation-system" "cattle-impersonation-u-1")
          ++ []) :=
  ⟨(waitForServiceAccount_poll_step (kube "c1") pendingAccount lateTokenWorld 3 (by decide)
      (by decide)).2 readyAccount (by decide) (by decide),
   (waitForServiceAccount_poll_step brokenAccountLister pendingAccount lateTokenWorld 0
      (by decide) (by decide)).1 (.status (.other "InternalError") "cache not synced")
      (by decide) (by decide)⟩

/-! ## Resource reconciler: the objects it creates -/

/-- `pure` adds no call. -/
theorem Logs.pure {σ α : Type} (a : α) (P : Call → Prop) : Logs (pure a : M σ α) P :=
  fun st => ⟨[], by simp, by simp⟩

/-- A step that is not a call adds no call. -/
theorem Logs.silent {σ α : Type} (f : σ → α × σ) (P : Call → Prop) : Logs (M.silent f) P :=
  fun st => ⟨[], by simp, by simp⟩

/-- A call that satisfies `P` may be logged. -/
theorem Logs.call {σ α : Type} {c : Call} {f : σ → α × σ} {P : Call → Prop} (h : P c) :
    Logs (M.call c f) P :=
  fun st => ⟨[c], by simp, by simpa using h⟩

/-- The calls of a sequence are those of its two parts. -/
theorem Logs.bind {σ α β : Type} {m : M σ α} {f : α → M σ β} {P : Call → Prop}
    (hm : Logs m P) (hf : ∀ a, Logs (f a) P) : Logs (m >>= f) P := by
  intro st
  obtain ⟨n1, h1, p1⟩ := hm st
  obtain ⟨n2, h2, p2⟩ := hf (m st).1 (m st).2
  refine ⟨n1 ++ n2, ?_, ?_⟩
  · simp only [M.bind_apply, h2, h1, List.append_assoc]
  · intro call hc
    rcases List.mem_append.mp hc with h | h
    · exact p1 call h
    · exact p2 call h

/-- `Logs` for a weaker property. -/
theorem Logs.mono {σ α : Type} {m : M σ α} {P Q : Call → Prop} (h : Logs m P)
    (hpq : ∀ call, P call → Q call) : Logs m Q := by
  intro st
  obtain ⟨n1, h1, p1⟩ := h st
  exact ⟨n1, h1, fun call hc => hpq call (p1 call hc)⟩

/-- Every call of a run from an empty log satisfies the property. -/
theorem Logs.mem {σ α : Type} {m : M σ α} {P : Call → Prop} (h : Logs m P) (s : σ) :
    ∀ call ∈ m.calls s, P call := by
  obtain ⟨n1, h1, p1⟩ := h (s, [])
  intro call hc
  simp only [M.calls, h1, List.nil_append] at hc
  exact p1 call hc

section LogsOfSteps

variable {σ : Type} (c : Client σ) (user : DefaultInfo)

/-- The calls of `createNamespace`. -/
theorem createNamespace_logs :
    Logs (createNamespace c) (fun call =>
      call = .namespaceListerGet "" impersonationNamespace
      ∨ call = .namespaceCreate namespaceObject) := by
  unfold createNamespace
  refine Logs.bind (Logs.call (Or.inl rfl)) (fun r => ?_)
  cases r with
  | ok v => exact Logs.pure _ _
  | error e =>
    dsimp only
    split
    · refine Logs.bind (Logs.call (Or.inr rfl)) (fun created => ?_)
      split
      · split <;> exact Logs.pure _ _
      · exact Logs.pure _ _
    · exact Logs.pure _ _

/-- The calls of `createRoleBinding`. -/
theorem createRoleBinding_logs (role : ClusterRole) (sa : ServiceAccount) :
    Logs (createRoleBinding c user role sa) (fun call =>
      call = .clusterRoleBindingListerGet "" (ImpersonationPrefix ++ user.UID)
      ∨ call = .clusterRoleBindingCreate
          (clusterRoleBindingObject (ImpersonationPrefix ++ user.UID) role sa)) := by
  unfold createRoleBinding
  refine Logs.bind (Logs.call (Or.inl rfl)) (fun r => ?_)
  cases r with
  | ok v => exact Logs.pure _ _
  | error e =>
    dsimp only
    split
    · refine Logs.bind (Logs.call (Or.inr rfl)) (fun created => ?_)
      split
      · split <;> exact Logs.pure _ _
      · exact Logs.pure _ _
    · exact Logs.pure _ _

/-- The calls of `createRole`. -/
theorem createRole_logs (rules : Slice PolicyRule) :
    Logs (createRole c user rules) (fun call =>
      call = .clusterRoleListerGet "" (ImpersonationPrefix ++ user.UID)
      ∨ call = .clusterRoleCreate (clusterRoleObject user rules)
      ∨ call = .clusterRoleGet (ImpersonationPrefix ++ user.UID)) := by
  unfold createRole
  refine Logs.bind (Logs.call (Or.inl rfl)) (fun r => ?_)
  cases r with
  | ok v => exact Logs.pure _ _
  | error e =>
    dsimp only
    split
    · refine Logs.bind (Logs.call (Or.inr (Or.inl rfl))) (fun created => ?_)
      split
      · split
        · exact Logs.bind (Logs.call (Or.inr (Or.inr rfl))) (fun _ => Logs.pure _ _)
        · exact Logs.pure _ _
      · exact Logs.pure _ _
    · exact Logs.pure _ _

/-- The calls of `createServiceAccount`. -/
theorem createServiceAccount_logs (role : ClusterRole) :
    Logs (createServiceAccount c user role) (fun call =>
      call = .serviceAccountListerGet impersonationNamespace (ImpersonationPrefix ++ user.UID)
      ∨ call = .serviceAccountCreate impersonationNamespace
          (serviceAccountObject (ImpersonationPrefix ++ user.UID) role)
      ∨ call = .serviceAccountGet impersonationNamespace (ImpersonationPrefix ++ user.UID)) := by
  unfold createServiceAccount
  refine Logs.bind (Logs.call (Or.inl rfl)) (fun r => ?_)
  cases r with
  | ok v => exact Logs.pure _ _
  | error e =>
    dsimp only
    split
    · refine Logs.bind (Logs.call (Or.inr (Or.inl rfl))) (fun created => ?_)
      split
      · split
        · exact Logs.bind (Logs.call (Or.inr (Or.inr rfl))) (fun _ => Logs.pure _ _)
        · exact Logs.pure _ _
      · exact Logs.pure _ _
    · exact Logs.pure _ _

/-- The calls of `checkAndUpdateRole`. -/
theorem checkAndUpdateRole_logs (rules : Slice PolicyRule) :
    Logs (checkAndUpdateRole c user rules) (fun call =>
      call = .clusterRoleListerGet "" (ImpersonationPrefix ++ user.UID)
      ∨ ∃ role, call = .clusterRoleUpdate role) := by
  unfold checkAndUpdateRole
  refine Logs.bind (Logs.call (Or.inl rfl)) (fun r => ?_)
  cases r with
  | error e =>
    dsimp only
    split <;> exact Logs.pure _ _
  | ok role =>
    dsimp only
    split
    · exact Logs.bind (Logs.silent _ _)
        (fun _ => Logs.bind (Logs.call (Or.inr ⟨_, rfl⟩)) (fun _ => Logs.pure _ _))
    · exact Logs.pure _ _

/-- The calls of `getServiceAccount`. -/
theorem getServiceAccount_logs :
    Logs (getServiceAccount c user) (fun call =>
      call = .serviceAccountListerGet impersonationNamespace (ImpersonationPrefix ++ user.UID)
      ∨ call = .serviceAccountListerList impersonationNamespace) := by
  unfold getServiceAccount
  refine Logs.bind (Logs.call (Or.inl rfl)) (fun r => ?_)
  cases r with
  | error e =>
    dsimp only
    split <;>
      first
        | exact Logs.pure _ _
        | exact Logs.call (Or.inr rfl)
  | ok sa => exact Logs.pure _ _

/-- The calls of the polls. -/
theorem ExponentialBackoff_logs (sa : ServiceAccount) :
    ∀ (n : Nat) (r : Option ServiceAccount),
      Logs (ExponentialBackoff n (waitCondition c sa) r) (fun call =>
        call = .serviceAccountListerGet impersonationNamespace sa.ObjectMeta.Name) := by
  intro n
  induction n with
  | zero => intro r; exact Logs.pure _ _
  | succ n ih =>
    intro r
    unfold ExponentialBackoff
    refine Logs.bind ?_ (fun res => ?_)
    · unfold waitCondition
      refine Logs.bind (Logs.call rfl) (fun g => ?_)
      cases g with
      | error e => dsimp only; split <;> exact Logs.pure _ _
      | ok a => dsimp only; split <;> exact Logs.pure _ _
    · split
      · exact Logs.pure _ _
      · exact ih _

/-- The calls of `waitForServiceAccount`. -/
theorem waitForServiceAccount_logs (sa : ServiceAccount) :
    Logs (waitForServiceAccount c sa) (fun call =>
      call = .serviceAccountListerGet impersonationNamespace sa.ObjectMeta.Name
      ∨ call = .serviceAccountListerList impersonationNamespace) := by
  unfold waitForServiceAccount
  refine Logs.bind ((ExponentialBackoff_logs c sa 10 none).mono (fun _ h => Or.inl h))
    (fun res => ?_)
  split
  · split <;>
      first
        | exact Logs.pure _ _
        | exact Logs.call (Or.inr rfl)
  · exact Logs.pure _ _

end LogsOfSteps

/-- Every call of `SetUpImpersonation` satisfies `createdAsSpecified`. -/
theorem SetUpImpersonation_logs {σ : Type} (c : Client σ) (user : DefaultInfo) :
    Logs (SetUpImpersonation c user) (createdAsSpecified user) := by
  unfold SetUpImpersonation
  refine Logs.bind ((checkAndUpdateRole_logs c user _).mono ?_) (fun checked => ?_)
  · rintro call (rfl | ⟨r, rfl⟩) <;> trivial
  split
  · exact Logs.pure _ _
  split
  · refine (getServiceAccount_logs c user).mono ?_
    rintro call (rfl | rfl) <;> trivial
  refine Logs.bind ((createNamespace_logs c).mono ?_) (fun err => ?_)
  · rintro call (rfl | rfl)
    · trivial
    · exact ⟨rfl, rfl⟩
  split
  · exact Logs.pure _ _
  refine Logs.bind ((createRole_logs c user _).mono ?_) (fun created => ?_)
  · rintro call (rfl | rfl | rfl)
    · trivial
    · exact ⟨rfl, rfl, rfl⟩
    · trivial
  split
  · exact Logs.pure _ _
  split
  · exact Logs.pure _ _
  rename_i role _
  refine Logs.bind ((createServiceAccount_logs c user role).mono ?_) (fun ensured => ?_)
  · rintro call (rfl | rfl | rfl)
    · trivial
    · exact ⟨rfl, rfl, rfl⟩
    · trivial
  split
  · exact Logs.pure _ _
  split
  · exact Logs.pure _ _
  rename_i sa _
  refine Logs.bind ((createRoleBinding_logs c user role sa).mono ?_) (fun err => ?_)
  · rintro call (rfl | rfl)
    · trivial
    · exact ⟨rfl, rfl⟩
  split
  · exact Logs.pure _ _
  refine (waitForServiceAccount_logs c sa).mono ?_
  rintro call (rfl | rfl) <;> trivial

/-- C18. In every run of `SetUpImpersonation`, a namespace it creates is named
`cattle-impersonation-system`; a ClusterRole, service account or ClusterRoleBinding it
creates is named `cattle-impersonation-` followed by the uid; the service account is
created in the namespace `cattle-impersonation-system`; each created object carries the
label `authz.cluster.cattle.io/impersonator` with value `true`; and the rules of the
ClusterRole are `rulesForUser` of the identity. From the empty cluster `tokenSoon` the
write calls for `alice` are exactly the four creates of these objects. -/
theorem created_objects_specified :
    (∀ (σ : Type) (c : Client σ) (user : DefaultInfo) (s : σ),
      ∀ call ∈ (SetUpImpersonation c user).calls s, createdAsSpecified user call)
    ∧ ((SetUpImpersonation (kube "c1") alice).calls tokenSoon).filter Call.isWrite
      = [.namespaceCreate namespaceObject,
         .clusterRoleCreate currentRole,
         .serviceAccountCreate "cattle-impersonation-system"
           (serviceAccountObject "cattle-impersonation-u-1" currentRole),
         .clusterRoleBindingCreate
           (clusterRoleBindingObject "cattle-impersonation-u-1" currentRole createdAccount)] :=
  ⟨fun _ c user s => (SetUpImpersonation_logs c user).mem s, by decide⟩

/-- The calls of a run of `SetUpImpersonation` whose role-ensure step returned `role`. -/
theorem SetUpImpersonation_calls_after_role {σ : Type} (c : Client σ) (user : DefaultInfo)
    (s : σ) (st1 st2 st3 : σ × List Call) (role : ClusterRole)
    (h1 : checkAndUpdateRole c user (rulesForUser user) (s, []) = ((none, none), st1))
    (h2 : createNamespace c st1 = (none, st2))
    (h3 : createRole c user (rulesForUser user) st2 = ((some role, none), st3)) :
    ∀ call ∈ (SetUpImpersonation c user).calls s,
      (∀ ns obj, call ≠ .serviceAccountCreate ns obj) ∧ (∀ obj, call ≠ .clusterRoleBindingCreate obj)
      ∨ call = .serviceAccountCreate impersonationNamespace
          (serviceAccountObject (ImpersonationPrefix ++ user.UID) role)
      ∨ ∃ sa st4, createServiceAccount c user role st3 = ((some sa, none), st4)
          ∧ call = .clusterRoleBindingCreate
              (clusterRoleBindingObject (ImpersonationPrefix ++ user.UID) role sa) := by
  obtain ⟨n1, hn1, p1⟩ := checkAndUpdateRole_logs c user (rulesForUser user) (s, [])
  obtain ⟨n2, hn2, p2⟩ := createNamespace_logs c st1
  obtain ⟨n3, hn3, p3⟩ := createRole_logs c user (rulesForUser user) st2
  obtain ⟨n4, hn4, p4⟩ := createServiceAccount_logs c user role st3
  rw [h1] at hn1
  rw [h2] at hn2
  rw [h3] at hn3
  simp only [List.nil_append] at hn1
  have pre : ∀ call ∈ st3.2,
      (∀ ns obj, call ≠ .serviceAccountCreate ns obj)
      ∧ (∀ obj, call ≠ .clusterRoleBindingCreate obj) := by
    intro call hc
    rw [hn3, hn2, hn1] at hc
    simp only [List.mem_append] at hc
    rcases hc with (hc | hc) | hc
    · rcases p1 call hc with rfl | ⟨r, rfl⟩ <;> simp
    · rcases p2 call hc with rfl | rfl <;> simp
    · rcases p3 call hc with rfl | rfl | rfl <;> simp
  have hsa : ∀ call ∈ n4,
      (∀ ns obj, call ≠ .serviceAccountCreate ns obj)
        ∧ (∀ obj, call ≠ .clusterRoleBindingCreate obj)
      ∨ call = .serviceAccountCreate impersonationNamespace
          (serviceAccountObject (ImpersonationPrefix ++ user.UID) role) := by
    intro call hc
    rcases p4 call hc with rfl | rfl | rfl
    · left; simp
    · right; rfl
    · left; simp
  rcases hsr : createServiceAccount c user role st3 with ⟨⟨sa0, err⟩, st4⟩
  rw [hsr] at hn4
  simp only [] at hn4
  have upto4 : ∀ call ∈ st4.2,
      (∀ ns obj, call ≠ .serviceAccountCreate ns obj)
        ∧ (∀ obj, call ≠ .clusterRoleBindingCreate obj)
      ∨ call = .serviceAccountCreate impersonationNamespace
          (serviceAccountObject (ImpersonationPrefix ++ user.UID) role) := by
    intro call hc
    rw [hn4] at hc
    rcases List.mem_append.mp hc with hc | hc
    · exact Or.inl (pre call hc)
    · exact hsa call hc
  intro call hcall
  simp only [M.calls, SetUpImpersonation, M.bind_apply, M.pure_apply, h1, h2, h3, hsr] at hcall
  cases err with
  | some e =>
    rcases upto4 call hcall with h | h
    · exact Or.inl h
    · exact Or.inr (Or.inl h)
  | none =>
  cases sa0 with
  | none =>
    rcases upto4 call hcall with h | h
    · exact Or.inl h
    · exact Or.inr (Or.inl h)
  | some sa =>
  simp only [] at hcall
  obtain ⟨n5, hn5, p5⟩ := createRoleBinding_logs c user role sa st4
  rcases hbr : createRoleBinding c user role sa st4 with ⟨err, st5⟩
  rw [hbr] at hn5
  simp only [M.bind_apply, hbr] at hn5 hcall
  have upto5 : ∀ call ∈ st5.2,
      (∀ ns obj, call ≠ .serviceAccountCreate ns obj)
        ∧ (∀ obj, call ≠ .clusterRoleBindingCreate obj)
      ∨ call = .serviceAccountCreate impersonationNamespace
          (serviceAccountObject (ImpersonationPrefix ++ user.UID) role)
      ∨ call = .clusterRoleBindingCreate
          (clusterRoleBindingObject (ImpersonationPrefix ++ user.UID) role sa) := by
    intro call hc
    rw [hn5] at hc
    rcases List.mem_append.mp hc with hc | hc
    · rcases upto4 call hc with h | h
      · exact Or.inl h
      · exact Or.inr (Or.inl h)
    · rcases p5 call hc with rfl | rfl
      · left; simp
      · right; right; rfl
  have fin : ∀ call ∈ st5.2,
      (∀ ns obj, call ≠ .serviceAccountCreate ns obj)
        ∧ (∀ obj, call ≠ .clusterRoleBindingCreate obj)
      ∨ call = .serviceAccountCreate impersonationNamespace
          (serviceAccountObject (ImpersonationPrefix ++ user.UID) role)
      ∨ ∃ sa2 st42, ((some sa, none), st4) = ((some sa2, (none : Option Err)), st42)
          ∧ call = .clusterRoleBindingCreate
              (clusterRoleBindingObject (ImpersonationPrefix ++ user.UID) role sa2) :=
    fun call hc => (upto5 call hc).imp id (Or.imp id (fun h => ⟨sa, st4, rfl, h⟩))
  cases err with
  | some e => exact fin call hcall
  | none =>
    simp only [] at hcall
    obtain ⟨n6, hn6, p6⟩ := waitForServiceAccount_logs c sa st5
    rw [hn6] at hcall
    rcases List.mem_append.mp hcall with hc | hc
    · exact fin call hc
    · rcases p6 call hc with rfl | rfl <;> left <;> simp

/-- A run of `SetUpImpersonation` that creates a service account or a binding has been
through the role-ensure step: the probe found no role, the namespace step succeeded and
`createRole` returned a role without error. -/
theorem SetUpImpersonation_reaches_role {σ : Type} (c : Client σ) (user : DefaultInfo) (s : σ)
    (call : Call) (hcall : call ∈ (SetUpImpersonation c user).calls s)
    (hkind : (∃ ns obj, call = .serviceAccountCreate ns obj)
      ∨ ∃ obj, call = .clusterRoleBindingCreate obj) :
    ∃ st1 st2 st3 role,
      checkAndUpdateRole c user (rulesForUser user) (s, []) = ((none, none), st1)
      ∧ createNamespace c st1 = (none, st2)
      ∧ createRole c user (rulesForUser user) st2 = ((some role, none), st3) := by
  have notkind : ∀ {x : Call}, ((∃ ns obj, x = .serviceAccountCreate ns obj)
      ∨ ∃ obj, x = .clusterRoleBindingCreate obj) →
      (x = .clusterRoleListerGet "" (ImpersonationPrefix ++ user.UID)
        ∨ (∃ r, x = .clusterRoleUpdate r)
        ∨ x = .serviceAccountListerGet impersonationNamespace (ImpersonationPrefix ++ user.UID)
        ∨ x = .serviceAccountListerList impersonationNamespace
        ∨ x = .namespaceListerGet "" impersonationNamespace
        ∨ x = .namespaceCreate namespaceObject
        ∨ x = .clusterRoleCreate (clusterRoleObject user (rulesForUser user))
        ∨ x = .clusterRoleGet (ImpersonationPrefix ++ user.UID)) → False := by
    intro x hk hx
    rcases hk with ⟨ns, obj, rfl⟩ | ⟨obj, rfl⟩ <;>
      rcases hx with h | ⟨r, h⟩ | h | h | h | h | h | h <;> cases h
  obtain ⟨n1, hn1, p1⟩ := checkAndUpdateRole_logs c user (rulesForUser user) (s, [])
  rcases h1 : checkAndUpdateRole c user (rulesForUser user) (s, []) with ⟨⟨r, e⟩, st1⟩
  rw [h1] at hn1
  simp only [List.nil_append] at hn1
  have q1 : ∀ x ∈ st1.2, x = .clusterRoleListerGet "" (ImpersonationPrefix ++ user.UID)
      ∨ ∃ r, x = .clusterRoleUpdate r := fun x hx => p1 x (hn1 ▸ hx)
  simp only [M.calls, SetUpImpersonation, M.bind_apply, M.pure_apply, h1] at hcall
  cases e with
  | some e =>
    exfalso
    rcases q1 call hcall with h | h
    · exact notkind hkind (Or.inl h)
    · exact notkind hkind (Or.inr (Or.inl h))
  | none =>
  cases r with
  | some r =>
    exfalso
    simp only [] at hcall
    obtain ⟨n2, hn2, p2⟩ := getServiceAccount_logs c user st1
    rw [hn2] at hcall
    rcases List.mem_append.mp hcall with hc | hc
    · rcases q1 call hc with h | h
      · exact notkind hkind (Or.inl h)
      · exact notkind hkind (Or.inr (Or.inl h))
    · rcases p2 call hc with h | h
      · exact notkind hkind (Or.inr (Or.inr (Or.inl h)))
      · exact notkind hkind (Or.inr (Or.inr (Or.inr (Or.inl h))))
  | none =>
  simp only [] at hcall
  obtain ⟨n2, hn2, p2⟩ := createNamespace_logs c st1
  rcases h2 : createNamespace c st1 with ⟨err, st2⟩
  rw [h2] at hn2
  simp only [M.bind_apply, h2] at hn2 hcall
  have q2 : ∀ x ∈ st2.2, x = .clusterRoleListerGet "" (ImpersonationPrefix ++ user.UID)
      ∨ (∃ r, x = .clusterRoleUpdate r)
      ∨ x = .namespaceListerGet "" impersonationNamespace
      ∨ x = .namespaceCreate namespaceObject := by
    intro x hx
    rw [hn2] at hx
    rcases List.mem_append.mp hx with hc | hc
    · rcases q1 x hc with h | h
      · exact Or.inl h
      · exact Or.inr (Or.inl h)
    · rcases p2 x hc with h | h
      · exact Or.inr (Or.inr (Or.inl h))
      · exact Or.inr (Or.inr (Or.inr h))
  have k2 : ∀ x ∈ st2.2, ((∃ ns obj, x = .serviceAccountCreate ns obj)
      ∨ ∃ obj, x = .clusterRoleBindingCreate obj) → False := by
    intro x hx hk
    rcases q2 x hx with h | h | h | h
    · exact notkind hk (Or.inl h)
    · exact notkind hk (Or.inr (Or.inl h))
    · exact notkind hk (Or.inr (Or.inr (Or.inr (Or.inr (Or.inl h)))))
    · exact notkind hk (Or.inr (Or.inr (Or.inr (Or.inr (Or.inr (Or.inl h))))))
  cases err with
  | some e => exact (k2 call hcall hkind).elim
  | none =>
  simp only [] at hcall
  obtain ⟨n3, hn3, p3⟩ := createRole_logs c user (rulesForUser user) st2
  rcases h3 : createRole c user (rulesForUser user) st2 with ⟨⟨role, err⟩, st3⟩
  rw [h3] at hn3
  simp only [M.bind_apply, h3] at hn3 hcall
  have k3 : ∀ x ∈ st3.2, ((∃ ns obj, x = .serviceAccountCreate ns obj)
      ∨ ∃ obj, x = .clusterRoleBindingCreate obj) → False := by
    intro x hx hk
    rw [hn3] at hx
    rcases List.mem_append.mp hx with hc | hc
    · exact k2 x hc hk
    · rcases p3 x hc with h | h | h
      · exact notkind hk (Or.inl h)
      · exact notkind hk (Or.inr (Or.inr (Or.inr (Or.inr (Or.inr (Or.inr (Or.inl h)))))))
      · exact notkind hk (Or.inr (Or.inr (Or.inr (Or.inr (Or.inr (Or.inr (Or.inr h)))))))
  cases err with
  | some e => exact (k3 call hcall hkind).elim
  | none =>
  cases role with
  | none => exact (k3 call hcall hkind).elim
  | some role => exact ⟨st1, st2, st3, role, rfl, h2, h3⟩

/-- C19. Whenever `SetUpImpersonation` creates the service account, the run has been
through the role-ensure step, which returned a role, and the created account has
exactly one owner reference: apiVersion `rbac.authorization.k8s.io/v1`, kind
`ClusterRole`, name and UID of that role. Whenever it creates the ClusterRoleBinding,
the principal-ensure step has moreover returned a service account, and the binding has
that same single owner reference, exactly one subject (kind `ServiceAccount`, name and
namespace of that account) and the roleRef of kind `ClusterRole`, apiGroup
`rbac.authorization.k8s.io`, named as the role. -/
theorem created_objects_owned {σ : Type} (c : Client σ) (user : DefaultInfo) (s : σ) :
    (∀ ns obj, Call.serviceAccountCreate ns obj ∈ (SetUpImpersonation c user).calls s →
      ∃ st1 st2 st3 role,
        checkAndUpdateRole c user (rulesForUser user) (s, []) = ((none, none), st1)
        ∧ createNamespace c st1 = (none, st2)
        ∧ createRole c user (rulesForUser user) st2 = ((some role, none), st3)
        ∧ obj.ObjectMeta.OwnerReferences = ownerOf role)
    ∧ (∀ obj, Call.clusterRoleBindingCreate obj ∈ (SetUpImpersonation c user).calls s →
      ∃ st1 st2 st3 role sa st4,
        checkAndUpdateRole c user (rulesForUser user) (s, []) = ((none, none), st1)
        ∧ createNamespace c st1 = (none, st2)
        ∧ createRole c user (rulesForUser user) st2 = ((some role, none), st3)
        ∧ createServiceAccount c user role st3 = ((some sa, none), st4)
        ∧ obj.ObjectMeta.OwnerReferences = ownerOf role
        ∧ obj.Subjects = [{
            Kind := "ServiceAccount", APIGroup := "",
            Name := sa.ObjectMeta.Name, Namespace := sa.ObjectMeta.Namespace }]
        ∧ obj.RoleRef = {
            APIGroup := "rbac.authorization.k8s.io", Kind := "ClusterRole",
            Name := role.ObjectMeta.Name }) := by
  refine ⟨?_, ?_⟩
  · intro ns obj hcall
    obtain ⟨st1, st2, st3, role, h1, h2, h3⟩ :=
      SetUpImpersonation_reaches_role c user s _ hcall (Or.inl ⟨ns, obj, rfl⟩)
    refine ⟨st1, st2, st3, role, h1, h2, h3, ?_⟩
    rcases SetUpImpersonation_calls_after_role c user s st1 st2 st3 role h1 h2 h3 _ hcall
      with h | h | ⟨sa, st4, _, h⟩
    · exact absurd rfl (h.1 ns obj)
    · cases h
      rfl
    · cases h
  · intro obj hcall
    obtain ⟨st1, st2, st3, role, h1, h2, h3⟩ :=
      SetUpImpersonation_reaches_role c user s _ hcall (Or.inr ⟨obj, rfl⟩)
    rcases SetUpImpersonation_calls_after_role c user s st1 st2 st3 role h1 h2 h3 _ hcall
      with h | h | ⟨sa, st4, h4, h⟩
    · exact absurd rfl (h.2 obj)
    · cases h
    · cases h
      exact ⟨st1, st2, st3, role, sa, st4, h1, h2, h3, h4, rfl, rfl, rfl⟩

/-- C19 at a concrete input: the service account and the binding created for `alice`
on `tokenSoon` are owned by the role the role-ensure step returned. -/
theorem created_objects_owned_witness :
    (∃ st1 st2 st3 role,
      checkAndUpdateRole (kube "c1") alice (rulesForUser alice) (tokenSoon, [])
        = ((none, none), st1)
      ∧ createNamespace (kube "c1") st1 = (none, st2)
      ∧ createRole (kube "c1") alice (rulesForUser alice) st2 = ((some role, none), st3)
      ∧ (serviceAccountObject "cattle-impersonation-u-1"
          currentRole).ObjectMeta.OwnerReferences = ownerOf role)
    ∧ (∃ st1 st2 st3 role sa st4,
      checkAndUpdateRole (kube "c1") alice (rulesForUser alice) (tokenSoon, [])
        = ((none, none), st1)
      ∧ createNamespace (kube "c1") st1 = (none, st2)
      ∧ createRole (kube "c1") alice (rulesForUser alice) st2 = ((some role, none), st3)
      ∧ createServiceAccount (kube "c1") alice role st3 = ((some sa, none), st4)
      ∧ (clusterRoleBindingObject "cattle-impersonation-u-1" currentRole
          createdAccount).ObjectMeta.OwnerReferences = ownerOf role
      ∧ (clusterRoleBindingObject "cattle-impersonation-u-1" currentRole
          createdAccount).Subjects = [{
            Kind := "ServiceAccount", APIGroup := "",
            Name := sa.ObjectMeta.Name, Namespace := sa.ObjectMeta.Namespace }]
      ∧ (clusterRoleBindingObject "cattle-impersonation-u-1" currentRole
          createdAccount).RoleRef = {
            APIGroup := "rbac.authorization.k8s.io", Kind := "ClusterRole",
            Name := role.ObjectMeta.Name }) :=
  ⟨(created_objects_owned (kube "c1") alice tokenSoon).1 "cattle-impersonation-system"
      (serviceAccountObject "cattle-impersonation-u-1" currentRole) (by decide),
   (created_objects_owned (kube "c1") alice tokenSoon).2
      (clusterRoleBindingObject "cattle-impersonation-u-1" currentRole createdAccount)
      (by decide)⟩

/-! ## Rule generator: what the rules depend on -/

/-- C21. The rule list depends only on uid, groups and extras: two identities with the
same uid, the same groups and the same extras, key by key, have equal rule lists, same
elements in the same order, whatever their display names; and `rulesForUser` on one
identity is one list. -/
theorem rulesForUser_depends_on (a b : DefaultInfo) (huid : a.UID = b.UID)
    (hgroups : a.Groups = b.Groups) (hextra : ∀ k, a.Extra.lookup k = b.Extra.lookup k) :
    rulesForUser a = rulesForUser b ∧ rulesForUser a = rulesForUser a := by
  refine ⟨?_, rfl⟩
  simp only [rulesForUser, huid, hgroups, hextra]

/-- C21 at a concrete input: `alice` under another display name. -/
theorem rulesForUser_depends_on_witness :
    rulesForUser alice = rulesForUser { alice with Name := "Alice Liddell" }
    ∧ rulesForUser alice = rulesForUser alice :=
  rulesForUser_depends_on alice { alice with Name := "Alice Liddell" } rfl rfl (fun _ => rfl)

/-! ## Resource reconciler: order of the steps -/

section StepShapes

variable {σ : Type} (c : Client σ) (user : DefaultInfo)

/-- The calls of `createNamespace`: the probe, followed by the create only when the
probe reported not-found. -/
theorem createNamespace_shape (st : σ × List Call) :
    (createNamespace c st).2.2 = st.2 ++ [.namespaceListerGet "" impersonationNamespace]
    ∨ ((∃ e, (c.namespaceListerGet "" impersonationNamespace st.1).1 = .error e
          ∧ IsNotFound e = true)
       ∧ (createNamespace c st).2.2
          = st.2 ++ [.namespaceListerGet "" impersonationNamespace,
                     .namespaceCreate namespaceObject]) := by
  rcases hg : c.namespaceListerGet "" impersonationNamespace st.1 with ⟨res, s1⟩
  cases res with
  | ok v => left; simp [createNamespace, hg]
  | error e =>
    by_cases hn : IsNotFound e = true
    · right
      refine ⟨⟨e, rfl, hn⟩, ?_⟩
      rcases hc : c.namespaceCreate namespaceObject s1 with ⟨⟨o, err⟩, s2⟩
      cases err with
      | none => simp [createNamespace, hg, hn, hc]
      | some e2 =>
        by_cases ha : IsAlreadyExists e2 = true <;> simp [createNamespace, hg, hn, hc, ha]
    · left; simp [createNamespace, hg, hn]

/-- The calls of `createRole`: the probe, followed by the create only when the probe
reported not-found, followed by at most one uncached read. -/
theorem createRole_shape (rules : Slice PolicyRule) (st : σ × List Call) :
    (createRole c user rules st).2.2
      = st.2 ++ [.clusterRoleListerGet "" (ImpersonationPrefix ++ user.UID)]
    ∨ ((∃ e, (c.clusterRoleListerGet "" (ImpersonationPrefix ++ user.UID) st.1).1 = .error e
          ∧ IsNotFound e = true)
       ∧ ((createRole c user rules st).2.2
            = st.2 ++ [.clusterRoleListerGet "" (ImpersonationPrefix ++ user.UID),
                       .clusterRoleCreate (clusterRoleObject user rules)]
          ∨ (createRole c user rules st).2.2
            = st.2 ++ [.clusterRoleListerGet "" (ImpersonationPrefix ++ user.UID),
                       .clusterRoleCreate (clusterRoleObject user rules),
                       .clusterRoleGet (ImpersonationPrefix ++ user.UID)])) := by
  rcases hg : c.clusterRoleListerGet "" (ImpersonationPrefix ++ user.UID) st.1 with ⟨res, s1⟩
  cases res with
  | ok v => left; simp [createRole, hg]
  | error e =>
    by_cases hn : IsNotFound e = true
    · right
      refine ⟨⟨e, rfl, hn⟩, ?_⟩
      rcases hc : c.clusterRoleCreate (clusterRoleObject user rules) s1 with ⟨⟨o, err⟩, s2⟩
      cases err with
      | none => left; simp [createRole, hg, hn, hc]
      | some e2 =>
        by_cases ha : IsAlreadyExists e2 = true
        · right; simp [createRole, hg, hn, hc, ha]
        · left; simp [createRole, hg, hn, hc, ha]
    · left; simp [createRole, hg, hn]

/-- The calls of `createServiceAccount`: the probe, followed by the create only when
the probe reported not-found, followed by at most one uncached read. -/
theorem createServiceAccount_shape (role : ClusterRole) (st : σ × List Call) :
    (createServiceAccount c user role st).2.2
      = st.2 ++ [.serviceAccountListerGet impersonationNamespace
                  (ImpersonationPrefix ++ user.UID)]
    ∨ ((∃ e, (c.serviceAccountListerGet impersonationNamespace
                (ImpersonationPrefix ++ user.UID) st.1).1 = .error e
          ∧ IsNotFound e = true)
       ∧ ((createServiceAccount c user role st).2.2
            = st.2 ++ [.serviceAccountListerGet impersonationNamespace
                         (ImpersonationPrefix ++ user.UID),
                       .serviceAccountCreate impersonationNamespace
                         (serviceAccountObject (ImpersonationPrefix ++ user.UID) role)]
          ∨ (createServiceAccount c user role st).2.2
            = st.2 ++ [.serviceAccountListerGet impersonationNamespace
                         (ImpersonationPrefix ++ user.UID),
                       .serviceAccountCreate impersonationNamespace
                         (serviceAccountObject (ImpersonationPrefix ++ user.UID) role),
                       .serviceAccountGet impersonationNamespace
                         (ImpersonationPrefix ++ user.UID)])) := by
  rcases hg : c.serviceAccountListerGet impersonationNamespace
    (ImpersonationPrefix ++ user.UID) st.1 with ⟨res, s1⟩
  cases res with
  | ok v => left; simp [createServiceAccount, hg]
  | error e =>
    by_cases hn : IsNotFound e = true
    · right
      refine ⟨⟨e, rfl, hn⟩, ?_⟩
      rcases hc : c.serviceAccountCreate impersonationNamespace
        (serviceAccountObject (ImpersonationPrefix ++ user.UID) role) s1 with ⟨⟨o, err⟩, s2⟩
      cases err with
      | none => left; simp [createServiceAccount, hg, hn, hc]
      | some e2 =>
        by_cases ha : IsAlreadyExists e2 = true
        · right; simp [createServiceAccount, hg, hn, hc, ha]
        · left; simp [createServiceAccount, hg, hn, hc, ha]
    · left; simp [createServiceAccount, hg, hn]

/-- The calls of `createRoleBinding`: the probe, followed by the create only when the
probe reported not-found. -/
theorem createRoleBinding_shape (role : ClusterRole) (sa : ServiceAccount)
    (st : σ × List Call) :
    (createRoleBinding c user role sa st).2.2
      = st.2 ++ [.clusterRoleBindingListerGet "" (ImpersonationPrefix ++ user.UID)]
    ∨ ((∃ e, (c.clusterRoleBindingListerGet "" (ImpersonationPrefix ++ user.UID) st.1).1
            = .error e ∧ IsNotFound e = true)
       ∧ (createRoleBinding c user role sa st).2.2
          = st.2 ++ [.clusterRoleBindingListerGet "" (ImpersonationPrefix ++ user.UID),
                     .clusterRoleBindingCreate
                       (clusterRoleBindingObject (ImpersonationPrefix ++ user.UID) role sa)]) := by
  rcases hg : c.clusterRoleBindingListerGet "" (ImpersonationPrefix ++ user.UID) st.1
    with ⟨res, s1⟩
  cases res with
  | ok v => left; simp [createRoleBinding, hg]
  | error e =>
    by_cases hn : IsNotFound e = true
    · right
      refine ⟨⟨e, rfl, hn⟩, ?_⟩
      rcases hc : c.clusterRoleBindingCreate
        (clusterRoleBindingObject (ImpersonationPrefix ++ user.UID) role sa) s1
        with ⟨⟨o, err⟩, s2⟩
      cases err with
      | none => simp [createRoleBinding, hg, hn, hc]
      | some e2 =>
        by_cases ha : IsAlreadyExists e2 = true <;> simp [createRoleBinding, hg, hn, hc, ha]
    · left; simp [createRoleBinding, hg, hn]

end StepShapes

/-- The write calls of a log, by operation name. -/
theorem writes_append (a b : List Call) :
    ((a ++ b).filter Call.isWrite).map Call.op
      = (a.filter Call.isWrite).map Call.op ++ (b.filter Call.isWrite).map Call.op := by
  simp

/-- C22. On the role-absent path (the first probe of the ClusterRole reports
not-found) the write calls of `SetUpImpersonation` are, in this order and each at most
once, the creates of the namespace, the ClusterRole, the service account and the
binding. The run ends with the first step that returns an error: its result is that
error and its log is the log of that step, so no later probe, write or poll is issued;
the polls of `waitForServiceAccount` run only after `createRoleBinding` has returned
without error. Each step logs its probe first and a create only when that probe reported
not-found, and the wait logs only reads of the service account. -/
theorem SetUpImpersonation_step_order {σ : Type} (c : Client σ) (user : DefaultInfo)
    (s s1 : σ) (e : Err)
    (h : c.clusterRoleListerGet "" (ImpersonationPrefix ++ user.UID) s = (.error e, s1))
    (hn : IsNotFound e = true) :
    List.Sublist ((((SetUpImpersonation c user).calls s).filter Call.isWrite).map Call.op)
      ["Namespaces.Create", "ClusterRoles.Create", "ServiceAccounts.Create",
       "ClusterRoleBindings.Create"]
    ∧ ((∃ err st2,
          createNamespace c (s1, [.clusterRoleListerGet "" (ImpersonationPrefix ++ user.UID)])
            = (some err, st2)
          ∧ SetUpImpersonation c user (s, []) = ((none, some err), st2))
      ∨ ∃ st2,
          createNamespace c (s1, [.clusterRoleListerGet "" (ImpersonationPrefix ++ user.UID)])
            = (none, st2)
          ∧ ((∃ r err st3, createRole c user (rulesForUser user) st2 = ((r, some err), st3)
              ∧ SetUpImpersonation c user (s, []) = ((none, some err), st3))
            ∨ ∃ role st3, createRole c user (rulesForUser user) st2 = ((some role, none), st3)
              ∧ ((∃ a err st4, createServiceAccount c user role st3 = ((a, some err), st4)
                  ∧ SetUpImpersonation c user (s, []) = ((none, some err), st4))
                ∨ ∃ sa st4, createServiceAccount c user role st3 = ((some sa, none), st4)
                  ∧ ((∃ err st5, createRoleBinding c user role sa st4 = (some err, st5)
                      ∧ SetUpImpersonation c user (s, []) = ((none, some err), st5))
                    ∨ ∃ st5, createRoleBinding c user role sa st4 = (none, st5)
                      ∧ SetUpImpersonation c user (s, [])
                        = waitForServiceAccount c sa st5))))
    ∧ (∀ st : σ × List Call,
        (createNamespace c st).2.2 = st.2 ++ [.namespaceListerGet "" impersonationNamespace]
        ∨ ((∃ e, (c.namespaceListerGet "" impersonationNamespace st.1).1 = .error e
              ∧ IsNotFound e = true)
           ∧ (createNamespace c st).2.2
              = st.2 ++ [.namespaceListerGet "" impersonationNamespace,
                         .namespaceCreate namespaceObject]))
    ∧ (∀ st : σ × List Call,
        (createRole c user (rulesForUser user) st).2.2
          = st.2 ++ [.clusterRoleListerGet "" (ImpersonationPrefix ++ user.UID)]
        ∨ ((∃ e, (c.clusterRoleListerGet "" (ImpersonationPrefix ++ user.UID) st.1).1
                = .error e ∧ IsNotFound e = true)
           ∧ ((createRole c user (rulesForUser user) st).2.2
                = st.2 ++ [.clusterRoleListerGet "" (ImpersonationPrefix ++ user.UID),
                           .clusterRoleCreate (clusterRoleObject user (rulesForUser user))]
              ∨ (createRole c user (rulesForUser user) st).2.2
                = st.2 ++ [.clusterRoleListerGet "" (ImpersonationPrefix ++ user.UID),
                           .clusterRoleCreate (clusterRoleObject user (rulesForUser user)),
                           .clusterRoleGet (ImpersonationPrefix ++ user.UID)])))
    ∧ (∀ (role : ClusterRole) (st : σ × List Call),
        (createServiceAccount c user role st).2.2
          = st.2 ++ [.serviceAccountListerGet impersonationNamespace
                      (ImpersonationPrefix ++ user.UID)]
        ∨ ((∃ e, (c.serviceAccountListerGet impersonationNamespace
                    (ImpersonationPrefix ++ user.UID) st.1).1 = .error e
              ∧ IsNotFound e = true)
           ∧ ((createServiceAccount c user role st).2.2
                = st.2 ++ [.serviceAccountListerGet impersonationNamespace
                             (ImpersonationPrefix ++ user.UID),
                           .serviceAccountCreate impersonationNamespace
                             (serviceAccountObject (ImpersonationPrefix ++ user.UID) role)]
              ∨ (createServiceAccount c user role st).2.2
                = st.2 ++ [.serviceAccountListerGet impersonationNamespace
                             (ImpersonationPrefix ++ user.UID),
                           .serviceAccountCreate impersonationNamespace
                             (serviceAccountObject (ImpersonationPrefix ++ user.UID) role),
                           .serviceAccountGet impersonationNamespace
                             (ImpersonationPrefix ++ user.UID)])))
    ∧ (∀ (role : ClusterRole) (sa : ServiceAccount) (st : σ × List Call),
        (createRoleBinding c user role sa st).2.2
          = st.2 ++ [.clusterRoleBindingListerGet "" (ImpersonationPrefix ++ user.UID)]
        ∨ ((∃ e, (c.clusterRoleBindingListerGet "" (ImpersonationPrefix ++ user.UID) st.1).1
                = .error e ∧ IsNotFound e = true)
           ∧ (createRoleBinding c user role sa st).2.2
              = st.2 ++ [.clusterRoleBindingListerGet "" (ImpersonationPrefix ++ user.UID),
                         .clusterRoleBindingCreate
                           (clusterRoleBindingObject (ImpersonationPrefix ++ user.UID)
                             role sa)]))
    ∧ (∀ (sa : ServiceAccount) (st : σ × List Call),
        ∃ polls, (waitForServiceAccount c sa st).2.2 = st.2 ++ polls
          ∧ ∀ call ∈ polls,
              call = .serviceAccountListerGet impersonationNamespace sa.ObjectMeta.Name
              ∨ call = .serviceAccountListerList impersonationNamespace) := by
  have h1 : checkAndUpdateRole c user (rulesForUser user) (s, [])
      = ((none, none), (s1, [.clusterRoleListerGet "" (ImpersonationPrefix ++ user.UID)])) := by
    simp [checkAndUpdateRole, h, hn]
  refine ⟨?_, ?_, createNamespace_shape c, createRole_shape c user _,
    createServiceAccount_shape c user, createRoleBinding_shape c user,
    fun sa st => waitForServiceAccount_logs c sa st⟩
  · -- the write calls, step by step
    have ext : ∀ (prev : List String) (x : String) (old new : List Call),
        List.Sublist ((old.filter Call.isWrite).map Call.op) prev →
        List.Sublist ((new.filter Call.isWrite).map Call.op)
          ((old.filter Call.isWrite).map Call.op ++ [x]) →
        List.Sublist ((new.filter Call.isWrite).map Call.op) (prev ++ [x]) :=
      fun prev x old new hold hnew => hnew.trans (hold.append (List.Sublist.refl _))
    have w2 : ∀ st : σ × List Call,
        List.Sublist (((createNamespace c st).2.2.filter Call.isWrite).map Call.op)
          (((st.2.filter Call.isWrite).map Call.op) ++ ["Namespaces.Create"]) := by
      intro st
      rcases createNamespace_shape c st with hs | ⟨_, hs⟩ <;> rw [hs, writes_append] <;>
        exact List.Sublist.append (List.Sublist.refl _) (by simp [Call.isWrite, Call.op])
    have w3 : ∀ st : σ × List Call,
        List.Sublist
          (((createRole c user (rulesForUser user) st).2.2.filter Call.isWrite).map Call.op)
          (((st.2.filter Call.isWrite).map Call.op) ++ ["ClusterRoles.Create"]) := by
      intro st
      rcases createRole_shape c user (rulesForUser user) st with hs | ⟨_, hs | hs⟩ <;>
        rw [hs, writes_append] <;>
        exact List.Sublist.append (List.Sublist.refl _) (by simp [Call.isWrite, Call.op])
    have w4 : ∀ (role : ClusterRole) (st : σ × List Call),
        List.Sublist
          (((createServiceAccount c user role st).2.2.filter Call.isWrite).map Call.op)
          (((st.2.filter Call.isWrite).map Call.op) ++ ["ServiceAccounts.Create"]) := by
      intro role st
      rcases createServiceAccount_shape c user role st with hs | ⟨_, hs | hs⟩ <;>
        rw [hs, writes_append] <;>
        exact List.Sublist.append (List.Sublist.refl _) (by simp [Call.isWrite, Call.op])
    have w5 : ∀ (role : ClusterRole) (sa : ServiceAccount) (st : σ × List Call),
        List.Sublist
          (((createRoleBinding c user role sa st).2.2.filter Call.isWrite).map Call.op)
          (((st.2.filter Call.isWrite).map Call.op) ++ ["ClusterRoleBindings.Create"]) := by
      intro role sa st
      rcases createRoleBinding_shape c user role sa st with hs | ⟨_, hs⟩ <;>
        rw [hs, writes_append] <;>
        exact List.Sublist.append (List.Sublist.refl _) (by simp [Call.isWrite, Call.op])
    have w6 : ∀ (sa : ServiceAccount) (st : σ × List Call),
        ((waitForServiceAccount c sa st).2.2.filter Call.isWrite).map Call.op
          = (st.2.filter Call.isWrite).map Call.op := by
      intro sa st
      obtain ⟨polls, hp, pp⟩ := waitForServiceAccount_logs c sa st
      rw [hp, writes_append]
      have : polls.filter Call.isWrite = [] := by
        rw [List.filter_eq_nil_iff]
        intro x hx
        rcases pp x hx with rfl | rfl <;> simp [Call.isWrite]
      simp [this]
    have t1 : List.Sublist ["Namespaces.Create"]
        ["Namespaces.Create", "ClusterRoles.Create", "ServiceAccounts.Create",
         "ClusterRoleBindings.Create"] := by decide
    have t2 : List.Sublist ["Namespaces.Create", "ClusterRoles.Create"]
        ["Namespaces.Create", "ClusterRoles.Create", "ServiceAccounts.Create",
         "ClusterRoleBindings.Create"] := by decide
    have t3 : List.Sublist ["Namespaces.Create", "ClusterRoles.Create", "ServiceAccounts.Create"]
        ["Namespaces.Create", "ClusterRoles.Create", "ServiceAccounts.Create",
         "ClusterRoleBindings.Create"] := by decide
    have k1 : List.Sublist
        (((s1, [Call.clusterRoleListerGet "" (ImpersonationPrefix ++ user.UID)]).2.filter
          Call.isWrite).map Call.op) [] := by
      simp [Call.isWrite]
    simp only [M.calls, SetUpImpersonation, M.bind_apply, M.pure_apply, h1]
    have j2 := ext _ _ _ _ k1
      (w2 (s1, [.clusterRoleListerGet "" (ImpersonationPrefix ++ user.UID)]))
    rcases h2 : createNamespace c
      (s1, [.clusterRoleListerGet "" (ImpersonationPrefix ++ user.UID)]) with ⟨err, st2⟩
    rw [h2] at j2
    cases err with
    | some err => exact List.Sublist.trans j2 t1
    | none =>
    simp only [M.bind_apply, M.pure_apply]
    have j3 := ext _ _ _ _ j2 (w3 st2)
    rcases h3 : createRole c user (rulesForUser user) st2 with ⟨⟨r, err⟩, st3⟩
    rw [h3] at j3
    cases err with
    | some err => exact List.Sublist.trans j3 t2
    | none =>
    cases r with
    | none => exact List.Sublist.trans j3 t2
    | some role =>
    simp only [M.bind_apply, M.pure_apply]
    have j4 := ext _ _ _ _ j3 (w4 role st3)
    rcases h4 : createServiceAccount c user role st3 with ⟨⟨a, err⟩, st4⟩
    rw [h4] at j4
    cases err with
    | some err => exact List.Sublist.trans j4 t3
    | none =>
    cases a with
    | none => exact List.Sublist.trans j4 t3
    | some sa =>
    simp only [M.bind_apply, M.pure_apply]
    have j5 := ext _ _ _ _ j4 (w5 role sa st4)
    rcases h5 : createRoleBinding c user role sa st4 with ⟨err, st5⟩
    rw [h5] at j5
    cases err with
    | some err => exact j5
    | none =>
    simp only [M.bind_apply, M.pure_apply]
    rw [w6]
    exact j5
  · -- the run ends with the first step that returns an error
    simp only [SetUpImpersonation, M.bind_apply, M.pure_apply, h1]
    rcases h2 : createNamespace c
      (s1, [.clusterRoleListerGet "" (ImpersonationPrefix ++ user.UID)]) with ⟨err, st2⟩
    cases err with
    | some err => exact Or.inl ⟨err, st2, rfl, rfl⟩
    | none =>
    refine Or.inr ⟨st2, rfl, ?_⟩
    simp only [M.bind_apply, M.pure_apply]
    have nil3 := createRole_nil c user (rulesForUser user) st2
    rcases h3 : createRole c user (rulesForUser user) st2 with ⟨⟨r, err⟩, st3⟩
    rw [h3] at nil3
    cases err with
    | some err => exact Or.inl ⟨r, err, st3, rfl, rfl⟩
    | none =>
    cases r with
    | none => simp at nil3
    | some role =>
    refine Or.inr ⟨role, st3, rfl, ?_⟩
    simp only [M.bind_apply, M.pure_apply]
    have nil4 := createServiceAccount_nil c user role st3
    rcases h4 : createServiceAccount c user role st3 with ⟨⟨a, err⟩, st4⟩
    rw [h4] at nil4
    cases err with
    | some err => exact Or.inl ⟨a, err, st4, rfl, rfl⟩
    | none =>
    cases a with
    | none => simp at nil4
    | some sa =>
    refine Or.inr ⟨sa, st4, rfl, ?_⟩
    simp only [M.bind_apply, M.pure_apply]
    rcases h5 : createRoleBinding c user role sa st4 with ⟨err, st5⟩
    cases err with
    | some err => exact Or.inl ⟨err, st5, rfl, rfl⟩
    | none => exact Or.inr ⟨st5, rfl, rfl⟩

/-- C22 at concrete inputs: a complete run for `alice` on the empty cluster
`tokenSoon`, and a run on the same cluster whose service-account create is refused,
which ends with that call. -/
theorem SetUpImpersonation_step_order_witness :
    (List.Sublist
        ((((SetUpImpersonation (kube "c1") alice).calls tokenSoon).filter Call.isWrite).map
          Call.op)
        ["Namespaces.Create", "ClusterRoles.Create", "ServiceAccounts.Create",
         "ClusterRoleBindings.Create"]
      ∧ ((SetUpImpersonation (kube "c1") alice).calls tokenSoon).map Call.op
        = ["ClusterRoles.Lister.Get", "Namespaces.Lister.Get", "Namespaces.Create",
           "ClusterRoles.Lister.Get", "ClusterRoles.Create", "ServiceAccounts.Lister.Get",
           "ServiceAccounts.Create", "ClusterRoleBindings.Lister.Get",
           "ClusterRoleBindings.Create", "ServiceAccounts.Lister.Get"])
    ∧ (List.Sublist
        ((((SetUpImpersonation brokenAccountCreate alice).calls tokenSoon).filter
          Call.isWrite).map Call.op)
        ["Namespaces.Create", "ClusterRoles.Create", "ServiceAccounts.Create",
         "ClusterRoleBindings.Create"]
      ∧ ((SetUpImpersonation brokenAccountCreate alice).calls tokenSoon).map Call.op
        = ["ClusterRoles.Lister.Get", "Namespaces.Lister.Get", "Namespaces.Create",
           "ClusterRoles.Lister.Get", "ClusterRoles.Create", "ServiceAccounts.Lister.Get",
           "ServiceAccounts.Create"]
      ∧ (SetUpImpersonation brokenAccountCreate alice).result tokenSoon
        = (none, some (.status (.other "Forbidden") "serviceaccounts is forbidden"))) :=
  ⟨⟨(SetUpImpersonation_step_order (kube "c1") alice tokenSoon tokenSoon.tick
        (notFoundErr "clusterrole" "cattle-impersonation-u-1") (by decide) (by decide)).1,
     by decide⟩,
   ⟨(SetUpImpersonation_step_order brokenAccountCreate alice tokenSoon tokenSoon.tick
        (notFoundErr "clusterrole" "cattle-impersonation-u-1") (by decide) (by decide)).1,
     by decide, by decide⟩⟩

/-! ## Handler: the grant-index key -/

/-- The calls of `deleteServiceAccountImpersonator`. -/
theorem deleteServiceAccountImpersonator_logs {σ : Type} (c : Client σ) (username : String) :
    Logs (deleteServiceAccountImpersonator c username) (fun call =>
      call = .crtbByIndex c.rtbByClusterAndUserIndex (indexKey c.ClusterName username)
      ∨ call = .prtbByIndex c.rtbByClusterAndUserIndex (indexKey c.ClusterName username)
      ∨ call = .clusterRoleDelete (ImpersonationPrefix ++ username)) := by
  unfold deleteServiceAccountImpersonator
  refine Logs.bind (Logs.call (Or.inl rfl)) (fun r => ?_)
  cases r with
  | error e => exact Logs.pure _ _
  | ok crtbs =>
    dsimp only
    refine Logs.bind (Logs.call (Or.inr (Or.inl rfl))) (fun r2 => ?_)
    cases r2 with
    | error e => exact Logs.pure _ _
    | ok prtbs =>
      dsimp only
      split
      · exact Logs.pure _ _
      · refine Logs.bind (Logs.call (Or.inr (Or.inr rfl))) (fun err => ?_)
        split
        · split <;> exact Logs.pure _ _
        · exact Logs.pure _ _

/-- The characters of a key. -/
theorem indexKey_data (cluster username : String) :
    (indexKey cluster username).data = cluster.data ++ '-' :: username.data := by
  simp [indexKey, String.data_append]

/-- Equal keys give equal pairs when the cluster names have the same length, and in
particular when they are equal, or when neither contains the separator. -/
theorem indexKey_injective (c1 c2 u1 u2 : String) (h : indexKey c1 u1 = indexKey c2 u2) :
    (c1.length = c2.length → c1 = c2 ∧ u1 = u2)
    ∧ (c1 = c2 → u1 = u2)
    ∧ ('-' ∉ c1.data → '-' ∉ c2.data → c1 = c2 ∧ u1 = u2) := by
  have hd : c1.data ++ '-' :: u1.data = c2.data ++ '-' :: u2.data := by
    rw [← indexKey_data, ← indexKey_data, h]
  have bylen : c1.length = c2.length → c1 = c2 ∧ u1 = u2 := by
    intro hl
    have := List.append_inj hd (show c1.data.length = c2.data.length from hl)
    refine ⟨String.ext this.1, String.ext ?_⟩
    exact (List.cons.inj this.2).2
  refine ⟨bylen, ?_, ?_⟩
  · intro hc
    exact (bylen (by rw [hc])).2
  · intro h1 h2
    refine bylen (show c1.data.length = c2.data.length from ?_)
    have key : ∀ (l1 l2 r1 r2 : List Char), '-' ∉ l1 → '-' ∉ l2 →
        l1 ++ '-' :: r1 = l2 ++ '-' :: r2 → l1.length = l2.length := by
      intro l1
      induction l1 with
      | nil =>
        intro l2 r1 r2 _ n2 he
        cases l2 with
        | nil => rfl
        | cons x xs =>
          simp only [List.nil_append, List.cons_append, List.cons.injEq] at he
          exact absurd (he.1 ▸ List.mem_cons_self _ _) n2
      | cons y ys ih =>
        intro l2 r1 r2 n1 n2 he
        cases l2 with
        | nil =>
          simp only [List.nil_append, List.cons_append, List.cons.injEq] at he
          exact absurd (he.1 ▸ List.mem_cons_self _ _) n1
        | cons x xs =>
          simp only [List.cons_append, List.cons.injEq] at he
          simp only [List.length_cons, Nat.add_right_cancel_iff]
          exact ih xs r1 r2 (fun hm => n1 (List.mem_cons_of_mem _ hm))
            (fun hm => n2 (List.mem_cons_of_mem _ hm)) he.2
    exact key c1.data c2.data u1.data u2.data h1 h2 hd

/-- C23, as stated, fails: the pairs (`a-b`, `c`) and (`a`, `b-c`) differ and have the
same key `a-b-c`. The removals for the two pairs look up the same key, and the removal
for user `b-c` on cluster `a` counts the grant of user `c` on cluster `a-b` as a
reference: it issues no delete and returns nil. -/
theorem deleteServiceAccountImpersonator_key_collision :
    indexKey "a-b" "c" = indexKey "a" "b-c"
    ∧ (("a-b", "c") == (("a", "b-c") : String × String)) = false
    ∧ ((deleteServiceAccountImpersonator (kube "a-b") "c").calls otherGrantWorld).head?
      = ((deleteServiceAccountImpersonator (kube "a") "b-c").calls otherGrantWorld).head?
    ∧ (deleteServiceAccountImpersonator (kube "a") "b-c").calls otherGrantWorld
      = [.crtbByIndex "rtbByClusterAndUser" "a-b-c", .prtbByIndex "rtbByClusterAndUser" "a-b-c"]
    ∧ (deleteServiceAccountImpersonator (kube "a") "b-c").result otherGrantWorld = none := by
  decide

/-- C23, amended. Every grant-index lookup of `deleteServiceAccountImpersonator` uses
the key cluster name, `-`, username. When two removals look up the same key, the two
(cluster, username) pairs are equal provided the cluster names have the same length, or
neither cluster name contains `-`; for one cluster name, the usernames are equal. -/
theorem deleteServiceAccountImpersonator_key {σ τ : Type} (ca : Client σ) (cb : Client τ)
    (ua ub : String) (sa : σ) (sb : τ) (ia ib key : String)
    (ha : Call.crtbByIndex ia key ∈ (deleteServiceAccountImpersonator ca ua).calls sa
      ∨ Call.prtbByIndex ia key ∈ (deleteServiceAccountImpersonator ca ua).calls sa)
    (hb : Call.crtbByIndex ib key ∈ (deleteServiceAccountImpersonator cb ub).calls sb
      ∨ Call.prtbByIndex ib key ∈ (deleteServiceAccountImpersonator cb ub).calls sb) :
    key = ca.ClusterName ++ "-" ++ ua
    ∧ key = cb.ClusterName ++ "-" ++ ub
    ∧ (ca.ClusterName.length = cb.ClusterName.length →
        ca.ClusterName = cb.ClusterName ∧ ua = ub)
    ∧ (ca.ClusterName = cb.ClusterName → ua = ub)
    ∧ ('-' ∉ ca.ClusterName.data → '-' ∉ cb.ClusterName.data →
        ca.ClusterName = cb.ClusterName ∧ ua = ub) := by
  have keyOf : ∀ {ρ : Type} (c : Client ρ) (u : String) (s : ρ) (i : String),
      (Call.crtbByIndex i key ∈ (deleteServiceAccountImpersonator c u).calls s
        ∨ Call.prtbByIndex i key ∈ (deleteServiceAccountImpersonator c u).calls s) →
      key = indexKey c.ClusterName u := by
    intro ρ c u s i hmem
    rcases hmem with hmem | hmem <;>
      rcases (deleteServiceAccountImpersonator_logs c u).mem s _ hmem with hc | hc | hc <;>
      cases hc <;> rfl
  have e1 := keyOf ca ua sa ia ha
  have e2 := keyOf cb ub sb ib hb
  exact ⟨e1, e2, indexKey_injective _ _ _ _ (e1.symm.trans e2)⟩

/-- C23, amended, at a concrete input: two removals for user `u-1` on cluster `c1`,
from different states. -/
theorem deleteServiceAccountImpersonator_key_witness :
    Call.crtbByIndex "rtbByClusterAndUser" "c1-u-1"
      ∈ (deleteServiceAccountImpersonator (kube "c1") "u-1").calls calmWorld
    ∧ Call.prtbByIndex "rtbByClusterAndUser" "c1-u-1"
      ∈ (deleteServiceAccountImpersonator (kube "c1") "u-1").calls otherGrantWorld
    ∧ "c1-u-1" = (kube "c1").ClusterName ++ "-" ++ "u-1"
    ∧ ((kube "c1").ClusterName = (kube "c1").ClusterName ∧ "u-1" = "u-1") :=
  ⟨by decide, by decide,
   (deleteServiceAccountImpersonator_key (kube "c1") (kube "c1") "u-1" "u-1" calmWorld
      otherGrantWorld "rtbByClusterAndUser" "rtbByClusterAndUser" "c1-u-1"
      (Or.inl (by decide)) (Or.inr (by decide))).1,
   (deleteServiceAccountImpersonator_key (kube "c1") (kube "c1") "u-1" "u-1" calmWorld
      otherGrantWorld "rtbByClusterAndUser" "rtbByClusterAndUser" "c1-u-1"
      (Or.inl (by decide)) (Or.inr (by decide))).2.2.1 rfl⟩

/-! ## Handler: the role name of ensure and remove -/

/-- The calls of `getUser`. -/
theorem getUser_logs {σ : Type} (c : Client σ) (username groupname : String) :
    Logs (getUser c username groupname) (fun call =>
      call = .userListerGet "" username ∨ call = .userAttributeListerGet "" username) := by
  unfold getUser
  refine Logs.bind (Logs.call (Or.inl rfl)) (fun r => ?_)
  cases r with
  | error e => exact Logs.pure _ _
  | ok u =>
    dsimp only
    refine Logs.bind (Logs.call (Or.inr rfl)) (fun r2 => ?_)
    cases r2 with
    | error e => dsimp only; split <;> exact Logs.pure _ _
    | ok a => exact Logs.bind (Logs.silent _ _) (fun _ => Logs.pure _ _)

/-- A sequence whose first part starts with the call `a` starts with `a`. -/
theorem Logs.bind_first {σ α β : Type} {m : M σ α} {f : α → M σ β} {P : Call → Prop}
    {a : Call} (hm : Logs m P) (hf : ∀ x, Logs (f x) P)
    (hfirst : ∀ st, ∃ rest, (m st).2.2 = st.2 ++ a :: rest) :
    Logs (m >>= f) P ∧ ∀ st, ∃ rest, ((m >>= f) st).2.2 = st.2 ++ a :: rest := by
  refine ⟨Logs.bind hm hf, fun st => ?_⟩
  obtain ⟨r1, h1⟩ := hfirst st
  obtain ⟨n2, h2, _⟩ := hf (m st).1 (m st).2
  exact ⟨r1 ++ n2, by simp only [M.bind_apply, h2, h1, List.append_assoc, List.cons_append]⟩

/-- The first call of `checkAndUpdateRole` is the probe of the ClusterRole. -/
theorem checkAndUpdateRole_probe_first {σ : Type} (c : Client σ) (user : DefaultInfo)
    (rules : Slice PolicyRule) (st : σ × List Call) :
    ∃ rest, (checkAndUpdateRole c user rules st).2.2
      = st.2 ++ .clusterRoleListerGet "" (ImpersonationPrefix ++ user.UID) :: rest := by
  rcases hg : c.clusterRoleListerGet "" (ImpersonationPrefix ++ user.UID) st.1 with ⟨res, s1⟩
  cases res with
  | error e =>
    by_cases hn : IsNotFound e = true <;>
      exact ⟨[], by simp [checkAndUpdateRole, hg, hn]⟩
  | ok role =>
    by_cases hr : role.Rules = rules
    · exact ⟨[], by simp [checkAndUpdateRole, hg, hr]⟩
    · exact ⟨[.clusterRoleUpdate { role with Rules := rules }],
        by simp [checkAndUpdateRole, hg, hr]⟩

/-- Every ClusterRole that `SetUpImpersonation` probes, creates or reads is named by the
prefix and the uid, and every run starts with the probe of that name. -/
theorem SetUpImpersonation_role_names {σ : Type} (c : Client σ) (user : DefaultInfo) :
    Logs (SetUpImpersonation c user) (fun call =>
      ∀ n, call.roleName = some n → n = ImpersonationPrefix ++ user.UID)
    ∧ ∀ st, ∃ rest, (SetUpImpersonation c user st).2.2
        = st.2 ++ .clusterRoleListerGet "" (ImpersonationPrefix ++ user.UID) :: rest := by
  unfold SetUpImpersonation
  refine Logs.bind_first ((checkAndUpdateRole_logs c user _).mono ?_) (fun checked => ?_)
    (checkAndUpdateRole_probe_first c user _)
  · rintro call (rfl | ⟨r, rfl⟩) n hn <;> simp [Call.roleName] at hn
    exact hn.symm
  split
  · exact Logs.pure _ _
  split
  · refine (getServiceAccount_logs c user).mono ?_
    rintro call (rfl | rfl) n hn <;> simp [Call.roleName] at hn
  refine Logs.bind ((createNamespace_logs c).mono ?_) (fun err => ?_)
  · rintro call (rfl | rfl) n hn <;> simp [Call.roleName] at hn
  split
  · exact Logs.pure _ _
  refine Logs.bind ((createRole_logs c user _).mono ?_) (fun created => ?_)
  · rintro call (rfl | rfl | rfl) n hn <;> simp [Call.roleName, clusterRoleObject] at hn <;>
      exact hn.symm
  split
  · exact Logs.pure _ _
  split
  · exact Logs.pure _ _
  rename_i role _
  refine Logs.bind ((createServiceAccount_logs c user role).mono ?_) (fun ensured => ?_)
  · rintro call (rfl | rfl | rfl) n hn <;> simp [Call.roleName] at hn
  split
  · exact Logs.pure _ _
  split
  · exact Logs.pure _ _
  rename_i sa _
  refine Logs.bind ((createRoleBinding_logs c user role sa).mono ?_) (fun err => ?_)
  · rintro call (rfl | rfl) n hn <;> simp [Call.roleName] at hn
  split
  · exact Logs.pure _ _
  refine (waitForServiceAccount_logs c sa).mono ?_
  rintro call (rfl | rfl) n hn <;> simp [Call.roleName] at hn

/-- C24. When the user lister answers the lookup by `username` with a record whose
object name is that username, every ClusterRole that
`ensureServiceAccountImpersonator` probes, creates or reads, for any groupname, and every
ClusterRole that `deleteServiceAccountImpersonator` deletes, from any state, has the
name `cattle-impersonation-` followed by the username. The names are in fact used: an
ensure whose `getUser` succeeds continues with the probe of that name, and a delete that
finds no grant issues the delete of that name. -/
theorem ensure_and_delete_role_name {σ : Type} (c : Client σ) (username groupname : String)
    (s s1 : σ) (u : User) (h : c.userListerGet "" username s = (.ok u, s1))
    (hu : u.Name = username) :
    (∀ call ∈ (ensureServiceAccountImpersonator c username groupname).calls s,
        ∀ n, call.roleName = some n → n = ImpersonationPrefix ++ username)
    ∧ (∀ t : σ, ∀ call ∈ (deleteServiceAccountImpersonator c username).calls t,
        ∀ n, call.roleName = some n → n = ImpersonationPrefix ++ username)
    ∧ (((getUser c username groupname).result s).2 = none →
        ∃ rest, (ensureServiceAccountImpersonator c username groupname).calls s
          = (getUser c username groupname).calls s
            ++ .clusterRoleListerGet "" (ImpersonationPrefix ++ username) :: rest)
    ∧ (∀ t t1 t2 : σ,
        c.crtbByIndex c.rtbByClusterAndUserIndex (c.ClusterName ++ "-" ++ username) t
          = (.ok [], t1) →
        c.prtbByIndex c.rtbByClusterAndUserIndex (c.ClusterName ++ "-" ++ username) t1
          = (.ok [], t2) →
        (deleteServiceAccountImpersonator c username).calls t
          = [.crtbByIndex c.rtbByClusterAndUserIndex (c.ClusterName ++ "-" ++ username),
             .prtbByIndex c.rtbByClusterAndUserIndex (c.ClusterName ++ "-" ++ username),
             .clusterRoleDelete (ImpersonationPrefix ++ username)]) := by
  obtain ⟨n1, hn1, p1⟩ := getUser_logs c username groupname (s, [])
  have found := getUser_found c username groupname s s1 u h
  rcases hgu : getUser c username groupname (s, []) with ⟨⟨user, err⟩, st1⟩
  simp only [M.result, hgu] at found
  rw [hgu] at hn1
  simp only [List.nil_append] at hn1
  have q1 : ∀ call ∈ st1.2, ∀ n, call.roleName = some n → n = ImpersonationPrefix ++ username := by
    intro call hc n hr
    rcases p1 call (hn1 ▸ hc) with rfl | rfl <;> simp [Call.roleName] at hr
  refine ⟨?_, ?_, ?_, ?_⟩
  · simp only [M.calls, ensureServiceAccountImpersonator, M.bind_apply, M.pure_apply, hgu]
    cases err with
    | some e => by_cases hnf : IsNotFound e = true <;> simpa [hnf] using q1
    | none =>
      have huid : user.UID = username := by
        rcases found with ⟨groups, hg⟩ | ⟨e, _, _, hg⟩
        · rw [← hu]
          exact congrArg (fun r => r.1.UID) hg
        · simp at hg
      obtain ⟨n2, hn2, p2⟩ := (SetUpImpersonation_role_names c user).1 st1
      simp only [M.bind_apply, M.pure_apply]
      rw [hn2]
      intro call hc n hr
      rcases List.mem_append.mp hc with hc | hc
      · exact q1 call hc n hr
      · rw [← huid]
        exact p2 call hc n hr
  · intro t call hc n hr
    rcases (deleteServiceAccountImpersonator_logs c username).mem t call hc with rfl | rfl | rfl <;>
      simp [Call.roleName] at hr
    exact hr.symm
  · intro hs
    simp only [M.calls, M.result, ensureServiceAccountImpersonator, M.bind_apply,
      M.pure_apply, hgu] at hs ⊢
    subst hs
    have huid : user.UID = username := by
      rcases found with ⟨groups, hg⟩ | ⟨e, _, _, hg⟩
      · rw [← hu]
        exact congrArg (fun r => r.1.UID) hg
      · simp at hg
    obtain ⟨rest, hrest⟩ := (SetUpImpersonation_role_names c user).2 st1
    exact ⟨rest, by simp only [M.bind_apply, M.pure_apply]; rw [hrest, huid]⟩
  · intro t t1 t2 h1 h2
    rcases h3 : c.clusterRoleDelete (ImpersonationPrefix ++ username) t2 with ⟨err, t3⟩
    cases err with
    | none => simp [deleteServiceAccountImpersonator, M.calls, h1, h2, h3]
    | some e =>
      by_cases hnf : IsNotFound e = true <;>
        simp [deleteServiceAccountImpersonator, M.calls, h1, h2, h3, hnf]

/-- C24 at a concrete input: user `u-1` of `calmWorld` on cluster `c1`. -/
theorem ensure_and_delete_role_name_witness :
    (∃ rest, (ensureServiceAccountImpersonator (kube "c1") "u-1" "devs").calls calmWorld
        = (getUser (kube "c1") "u-1" "devs").calls calmWorld
          ++ .clusterRoleListerGet "" "cattle-impersonation-u-1" :: rest)
    ∧ (deleteServiceAccountImpersonator (kube "c1") "u-1").calls calmWorld
        = [.crtbByIndex "rtbByClusterAndUser" "c1-u-1", .prtbByIndex "rtbByClusterAndUser" "c1-u-1",
           .clusterRoleDelete "cattle-impersonation-u-1"] :=
  ⟨(ensure_and_delete_role_name (kube "c1") "u-1" "devs" calmWorld calmWorld
      { Name := "u-1", Username := "alice" } (by decide) (by decide)).2.2.1 (by decide),
   (ensure_and_delete_role_name (kube "c1") "u-1" "devs" calmWorld calmWorld
      { Name := "u-1", Username := "alice" } (by decide) (by decide)).2.2.2
      calmWorld calmWorld calmWorld (by decide) (by decide)⟩

/-! ## Idempotence of ensure: the rules of the stored role -/

/-- `pure` keeps every property. -/
theorem Pres.ofPure {σ α : Type} (I : σ → Prop) (a : α) : Pres I (pure a : M σ α) :=
  fun _ h => h

/-- A call keeps what its answer keeps. -/
theorem Pres.ofCall {σ α : Type} {I : σ → Prop} {c : Call} {f : σ → α × σ}
    (h : ∀ s, I s → I (f s).2) : Pres I (M.call c f) :=
  fun st hi => h st.1 hi

/-- A step that is not a call keeps what its effect keeps. -/
theorem Pres.ofSilent {σ α : Type} {I : σ → Prop} {f : σ → α × σ}
    (h : ∀ s, I s → I (f s).2) : Pres I (M.silent f) :=
  fun st hi => h st.1 hi

/-- A sequence keeps what its two parts keep. -/
theorem Pres.andThen {σ α β : Type} {I : σ → Prop} {m : M σ α} {f : α → M σ β}
    (hm : Pres I m) (hf : ∀ a, Pres I (f a)) : Pres I (m >>= f) :=
  fun st hi => hf (m st).1 (m st).2 (hm st hi)

/-- A background step keeps `Carries`. -/
theorem tick_carries {n : String} {rules : Slice PolicyRule} {w : World}
    (h : Carries n rules w) : Carries n rules w.tick := by
  unfold World.tick
  cases hsch : w.schedule with
  | nil => exact h
  | cons b rest =>
    cases b with
    | idle => exact h
    | sync => exact h
    | attachToken sa secret token =>
      simp only [Background.apply]
      split
      · exact h
      · exact h
    | createClusterRole role =>
      simp only [Background.apply]
      split
      · exact h
      · rename_i hno
        refine ⟨?_, ?_⟩
        · rw [hasRole_append, h.1]; rfl
        · intro r hr hname
          simp only [List.mem_append, List.mem_singleton] at hr
          rcases hr with hr | hr
          · exact h.2 r hr hname
          · exfalso
            apply hno
            have := h.1
            simp only [hasRole, List.any_eq_true, decide_eq_true_eq] at this ⊢
            obtain ⟨x, hx, hxn⟩ := this
            exact ⟨x, hx, by rw [hxn, ← hname, hr]⟩

/-- A change of the store that leaves its ClusterRoles alone keeps `Carries`. -/
theorem Carries.ofStore {n : String} {rules : Slice PolicyRule} {w : World}
    (h : Carries n rules w) (store : Objects)
    (hs : store.clusterRoles = w.store.clusterRoles) :
    Carries n rules { w with store := store } := by
  unfold Carries hasRole at h ⊢
  simpa [hs] using h

/-- The calls of the reference environment other than the ClusterRole `Update` and
`Delete` keep `Carries`. -/
theorem kube_carries (cl n : String) (rules : Slice PolicyRule) (w : World)
    (h : Carries n rules w) :
    (∀ ns name, Carries n rules ((kube cl).clusterRoleListerGet ns name w).2)
    ∧ (∀ obj, Carries n rules ((kube cl).clusterRoleCreate obj w).2)
    ∧ (∀ name, Carries n rules ((kube cl).clusterRoleGet name w).2)
    ∧ (∀ ns name, Carries n rules ((kube cl).namespaceListerGet ns name w).2)
    ∧ (∀ obj, Carries n rules ((kube cl).namespaceCreate obj w).2)
    ∧ (∀ ns name, Carries n rules ((kube cl).serviceAccountListerGet ns name w).2)
    ∧ (∀ ns, Carries n rules ((kube cl).serviceAccountListerList ns w).2)
    ∧ (∀ ns obj, Carries n rules ((kube cl).serviceAccountCreate ns obj w).2)
    ∧ (∀ ns name, Carries n rules ((kube cl).serviceAccountGet ns name w).2)
    ∧ (∀ ns name, Carries n rules ((kube cl).clusterRoleBindingListerGet ns name w).2)
    ∧ (∀ obj, Carries n rules ((kube cl).clusterRoleBindingCreate obj w).2) := by
  have ht := tick_carries h
  refine ⟨?_, ?_, ?_, ?_, ?_, ?_, ?_, ?_, ?_, ?_, ?_⟩
  · intro ns name; exact ht
  · intro obj
    simp only [kube]
    split
    · exact ht
    · rename_i hno
      refine ⟨?_, ?_⟩
      · show hasRole { w.tick.store with
          clusterRoles := w.tick.store.clusterRoles ++ [obj.served] } n = true
        rw [hasRole_append, ht.1]; rfl
      · intro r hr hname
        simp only [List.mem_append, List.mem_singleton] at hr
        rcases hr with hr | hr
        · exact ht.2 r hr hname
        · exfalso
          apply hno
          have := ht.1
          simp only [hasRole, List.any_eq_true, decide_eq_true_eq] at this ⊢
          obtain ⟨x, hx, hxn⟩ := this
          exact ⟨x, hx, by rw [hxn, ← hname, hr]⟩
  · intro name; exact ht
  · intro ns name; exact ht
  · intro obj
    simp only [kube]
    split
    · exact ht
    · exact ht.ofStore _ rfl
  · intro ns name; exact ht
  · intro ns; exact ht
  · intro ns obj
    simp only [kube]
    split
    · exact ht
    · exact ht.ofStore _ rfl
  · intro ns name; exact ht
  · intro ns name; exact ht
  · intro obj
    simp only [kube]
    split
    · exact ht
    · exact ht.ofStore _ rfl

section KeepsRules

variable (cl : String) (user : DefaultInfo) (n : String) (rules : Slice PolicyRule)

/-- `getServiceAccount` keeps `Carries`. -/
theorem getServiceAccount_carries :
    Pres (Carries n rules) (getServiceAccount (kube cl) user) := by
  unfold getServiceAccount
  refine Pres.andThen (Pres.ofCall (fun s h => (kube_carries cl n rules s h).2.2.2.2.2.1 _ _))
    (fun r => ?_)
  cases r with
  | error e =>
    dsimp only
    split <;>
      first
        | exact Pres.ofPure _ _
        | exact Pres.andThen
            (Pres.andThen (Pres.ofCall (fun s h => (kube_carries cl n rules s h).2.2.2.2.2.2.1 _))
              (fun _ => Pres.ofPure _ _))
            (fun _ => Pres.ofPure _ _)
  | ok sa => exact Pres.ofPure _ _

/-- `createNamespace` keeps `Carries`. -/
theorem createNamespace_carries : Pres (Carries n rules) (createNamespace (kube cl)) := by
  unfold createNamespace
  refine Pres.andThen (Pres.ofCall (fun s h => (kube_carries cl n rules s h).2.2.2.1 _ _))
    (fun r => ?_)
  cases r with
  | ok v => exact Pres.ofPure _ _
  | error e =>
    dsimp only
    split
    · refine Pres.andThen (Pres.ofCall (fun s h => (kube_carries cl n rules s h).2.2.2.2.1 _))
        (fun created => ?_)
      split
      · split <;> exact Pres.ofPure _ _
      · exact Pres.ofPure _ _
    · exact Pres.ofPure _ _

/-- `createRole` keeps `Carries`. -/
theorem createRole_carries (rules2 : Slice PolicyRule) :
    Pres (Carries n rules) (createRole (kube cl) user rules2) := by
  unfold createRole
  refine Pres.andThen (Pres.ofCall (fun s h => (kube_carries cl n rules s h).1 _ _)) (fun r => ?_)
  cases r with
  | ok v => exact Pres.ofPure _ _
  | error e =>
    dsimp only
    split
    · refine Pres.andThen (Pres.ofCall (fun s h => (kube_carries cl n rules s h).2.1 _))
        (fun created => ?_)
      split
      · split
        · exact Pres.andThen (Pres.ofCall (fun s h => (kube_carries cl n rules s h).2.2.1 _))
            (fun _ => Pres.ofPure _ _)
        · exact Pres.ofPure _ _
      · exact Pres.ofPure _ _
    · exact Pres.ofPure _ _

/-- `createServiceAccount` keeps `Carries`. -/
theorem createServiceAccount_carries (role : ClusterRole) :
    Pres (Carries n rules) (createServiceAccount (kube cl) user role) := by
  unfold createServiceAccount
  refine Pres.andThen (Pres.ofCall (fun s h => (kube_carries cl n rules s h).2.2.2.2.2.1 _ _))
    (fun r => ?_)
  cases r with
  | ok v => exact Pres.ofPure _ _
  | error e =>
    dsimp only
    split
    · refine Pres.andThen
        (Pres.ofCall (fun s h => (kube_carries cl n rules s h).2.2.2.2.2.2.2.1 _ _))
        (fun created => ?_)
      split
      · split
        · exact Pres.andThen
            (Pres.ofCall (fun s h => (kube_carries cl n rules s h).2.2.2.2.2.2.2.2.1 _ _))
            (fun _ => Pres.ofPure _ _)
        · exact Pres.ofPure _ _
      · exact Pres.ofPure _ _
    · exact Pres.ofPure _ _

/-- `createRoleBinding` keeps `Carries`. -/
theorem createRoleBinding_carries (role : ClusterRole) (sa : ServiceAccount) :
    Pres (Carries n rules) (createRoleBinding (kube cl) user role sa) := by
  unfold createRoleBinding
  refine Pres.andThen
    (Pres.ofCall (fun s h => (kube_carries cl n rules s h).2.2.2.2.2.2.2.2.2.1 _ _))
    (fun r => ?_)
  cases r with
  | ok v => exact Pres.ofPure _ _
  | error e =>
    dsimp only
    split
    · refine Pres.andThen
        (Pres.ofCall (fun s h => (kube_carries cl n rules s h).2.2.2.2.2.2.2.2.2.2 _))
        (fun created => ?_)
      split
      · split <;> exact Pres.ofPure _ _
      · exact Pres.ofPure _ _
    · exact Pres.ofPure _ _

/-- The polls keep `Carries`. -/
theorem ExponentialBackoff_carries (sa : ServiceAccount) :
    ∀ (k : Nat) (r : Option ServiceAccount),
      Pres (Carries n rules) (ExponentialBackoff k (waitCondition (kube cl) sa) r) := by
  intro k
  induction k with
  | zero => intro r; exact Pres.ofPure _ _
  | succ k ih =>
    intro r
    unfold ExponentialBackoff
    refine Pres.andThen ?_ (fun res => ?_)
    · unfold waitCondition
      refine Pres.andThen
        (Pres.ofCall (fun s h => (kube_carries cl n rules s h).2.2.2.2.2.1 _ _)) (fun g => ?_)
      cases g with
      | error e => dsimp only; split <;> exact Pres.ofPure _ _
      | ok a => dsimp only; split <;> exact Pres.ofPure _ _
    · split
      · exact Pres.ofPure _ _
      · exact ih _

/-- `waitForServiceAccount` keeps `Carries`. -/
theorem waitForServiceAccount_carries (sa : ServiceAccount) :
    Pres (Carries n rules) (waitForServiceAccount (kube cl) sa) := by
  unfold waitForServiceAccount
  refine Pres.andThen (ExponentialBackoff_carries cl n rules sa 10 none) (fun res => ?_)
  split
  · split <;>
      first
        | exact Pres.ofPure _ _
        | exact Pres.andThen
            (Pres.andThen (Pres.ofCall (fun s h => (kube_carries cl n rules s h).2.2.2.2.2.2.1 _))
              (fun _ => Pres.ofPure _ _))
            (fun _ => Pres.ofPure _ _)
  · exact Pres.ofPure _ _

end KeepsRules

/-- Calls other than the ClusterRole `Update`, `Create` and uncached `Get` do not change
what a log shows of the writing of the role. -/
theorem wroteRole_append (log new : List Call)
    (h : ∀ call ∈ new, call.op ≠ "ClusterRoles.Update" ∧ call.op ≠ "ClusterRoles.Create"
      ∧ call.op ≠ "ClusterRoles.Get") :
    wroteRole (log ++ new) = wroteRole log := by
  have e : ∀ name : String, (name = "ClusterRoles.Update" ∨ name = "ClusterRoles.Create"
      ∨ name = "ClusterRoles.Get") → new.any (fun call => call.op == name) = false := by
    intro name hname
    rw [List.any_eq_false]
    intro call hc
    have := h call hc
    rcases hname with rfl | rfl | rfl <;> simp [this.1, this.2.1, this.2.2]
  simp only [wroteRole, List.any_append, e _ (Or.inl rfl), e _ (Or.inr (Or.inl rfl)),
    e _ (Or.inr (Or.inr rfl)), Bool.or_false]

/-- A computation that keeps `Carries` and issues none of the three ClusterRole calls
keeps `RulesKept`. -/
theorem RulesKept.step {α : Type} {n : String} {rules : Slice PolicyRule} {m : M World α}
    (hp : Pres (Carries n rules) m)
    (hl : Logs m (fun call => call.op ≠ "ClusterRoles.Update"
      ∧ call.op ≠ "ClusterRoles.Create" ∧ call.op ≠ "ClusterRoles.Get"))
    (st : World × List Call) (h : RulesKept n rules st) : RulesKept n rules (m st).2 := by
  obtain ⟨new, hnew, hfree⟩ := hl st
  intro hw
  rw [hnew, wroteRole_append _ _ hfree] at hw
  exact hp st (h hw)

/-- A ClusterRole `Update` that the reference environment accepts leaves the store with
the rules of its object, as the server returns them. -/
theorem kube_roleUpdate_carries (cl : String) (obj : ClusterRole) (w : World)
    (h : ((kube cl).clusterRoleUpdate obj w).1.2 = none) :
    Carries obj.ObjectMeta.Name (servedRules obj.Rules)
      ((kube cl).clusterRoleUpdate obj w).2 := by
  simp only [kube] at h ⊢
  split at h
  · rename_i hany
    rw [if_pos hany]
    refine ⟨?_, ?_⟩
    · exact (hasRole_update w.tick.store obj.served obj.ObjectMeta.Name).trans hany
    · intro r hr hname
      simp only [List.mem_map] at hr
      obtain ⟨r0, _, rfl⟩ := hr
      by_cases hn : r0.ObjectMeta.Name = obj.served.ObjectMeta.Name
      · simp [hn]
      · simp only [hn, ↓reduceIte] at hname
        exact absurd hname hn
  · cases h

/-- A ClusterRole `Create` that the reference environment accepts leaves the store with
the rules of its object, as the server returns them. -/
theorem kube_roleCreate_carries (cl : String) (obj : ClusterRole) (w : World)
    (h : ((kube cl).clusterRoleCreate obj w).1.2 = none) :
    Carries obj.ObjectMeta.Name (servedRules obj.Rules)
      ((kube cl).clusterRoleCreate obj w).2 := by
  simp only [kube] at h ⊢
  split at h
  · cases h
  · rename_i hno
    rw [if_neg hno]
    refine ⟨?_, ?_⟩
    · show hasRole { w.tick.store with
        clusterRoles := w.tick.store.clusterRoles ++ [obj.served] } _ = true
      rw [hasRole_append]
      simp
    · intro r hr hname
      simp only [List.mem_append, List.mem_singleton] at hr
      rcases hr with hr | hr
      · exfalso
        apply hno
        simp only [List.any_eq_true, decide_eq_true_eq]
        exact ⟨r, hr, hname⟩
      · rw [hr]; rfl

/-- The reference environment refuses a ClusterRole `Create` only for a name that is
taken. -/
theorem kube_roleCreate_error (cl : String) (obj : ClusterRole) (w : World) (e : Err)
    (h : ((kube cl).clusterRoleCreate obj w).1.2 = some e) : IsAlreadyExists e = true := by
  simp only [kube] at h
  split at h
  · cases h; rfl
  · cases h

/-- A create that falls back on the uncached `Get` does not count as writing the role. -/
theorem wroteRole_fallback (log : List Call) (ns name : String) (obj : ClusterRole)
    (name2 : String)
    (h : wroteRole (log ++ [.clusterRoleListerGet ns name] ++ [.clusterRoleCreate obj]
      ++ [.clusterRoleGet name2]) = true) : wroteRole log = true := by
  have e1 : ([Call.clusterRoleListerGet ns name, .clusterRoleCreate obj,
      .clusterRoleGet name2]).any (fun call => call.op == "ClusterRoles.Update") = false := rfl
  have e3 : ([Call.clusterRoleListerGet ns name, .clusterRoleCreate obj,
      .clusterRoleGet name2]).any (fun call => call.op == "ClusterRoles.Get") = true := rfl
  have h2 : wroteRole (log ++ [.clusterRoleListerGet ns name, .clusterRoleCreate obj,
      .clusterRoleGet name2]) = true := by
    rw [← h]
    congr 1
    simp
  simp only [wroteRole, List.any_append, e1, e3, Bool.or_false, Bool.or_true, Bool.not_true,
    Bool.and_false] at h2
  simp only [wroteRole, h2, Bool.true_or]

section KeepsWritten

variable (cl : String) (user : DefaultInfo)

/-- `checkAndUpdateRole` keeps `RulesKept`: an update it gets through leaves the store
with the rules it was given. -/
theorem checkAndUpdateRole_kept (rules : Slice PolicyRule) (hs : servedRules rules = rules)
    (st : World × List Call) (hk : RulesKept (ImpersonationPrefix ++ user.UID) rules st)
    (hok : (checkAndUpdateRole (kube cl) user rules st).1.2 = none) :
    RulesKept (ImpersonationPrefix ++ user.UID) rules
      (checkAndUpdateRole (kube cl) user rules st).2 := by
  have h1 : Carries (ImpersonationPrefix ++ user.UID) rules st.1 →
      Carries (ImpersonationPrefix ++ user.UID) rules
        ((kube cl).clusterRoleListerGet "" (ImpersonationPrefix ++ user.UID) st.1).2 :=
    fun h => (kube_carries cl _ rules st.1 h).1 _ _
  have ev := (kube_roleLister cl (ImpersonationPrefix ++ user.UID) st.1).1
  have probe : ∀ w : World, RulesKept (ImpersonationPrefix ++ user.UID) rules
      (((kube cl).clusterRoleListerGet "" (ImpersonationPrefix ++ user.UID) st.1).2,
        st.2 ++ [.clusterRoleListerGet "" (ImpersonationPrefix ++ user.UID)]) := by
    intro _ hw
    rw [wroteRole_append _ _ (by simp [Call.op])] at hw
    exact h1 (hk hw)
  rcases hg : (kube cl).clusterRoleListerGet "" (ImpersonationPrefix ++ user.UID) st.1
    with ⟨res, s1⟩
  rw [hg] at ev probe
  simp only [checkAndUpdateRole, M.bind_apply, M.call_apply, M.pure_apply, hg] at hok ⊢
  cases res with
  | error e =>
    by_cases hn : IsNotFound e = true
    · simpa [hn] using probe st.1
    · simpa [hn] using probe st.1
  | ok role =>
    by_cases hr : role.Rules = rules
    · simpa [hr] using probe st.1
    · simp only [ne_eq, hr, not_false_eq_true, ↓reduceIte, M.bind_apply, M.silent_apply,
        M.call_apply, M.pure_apply] at hok ⊢
      intro _
      have := kube_roleUpdate_carries cl { role with Rules := rules }
        ((kube cl).clusterRoleAssignRules role rules s1) hok
      simpa [(ev role rfl).1, hs] using this

/-- `createRole` keeps `RulesKept`: a create it gets through leaves the store with the
rules it was given. -/
theorem createRole_kept (rules : Slice PolicyRule) (hs : servedRules rules = rules)
    (st : World × List Call) (hk : RulesKept (ImpersonationPrefix ++ user.UID) rules st) :
    RulesKept (ImpersonationPrefix ++ user.UID) rules (createRole (kube cl) user rules st).2 := by
  have pres := createRole_carries cl user (ImpersonationPrefix ++ user.UID) rules rules st
  rcases hg : (kube cl).clusterRoleListerGet "" (ImpersonationPrefix ++ user.UID) st.1
    with ⟨res, s1⟩
  have evc := kube_roleCreate_carries cl (clusterRoleObject user rules) s1
  have eve := kube_roleCreate_error cl (clusterRoleObject user rules) s1
  rcases hc : (kube cl).clusterRoleCreate (clusterRoleObject user rules) s1 with ⟨⟨o, err⟩, s2⟩
  rw [hc] at evc eve
  simp only [createRole, M.bind_apply, M.call_apply, M.pure_apply, hg] at pres ⊢
  cases res with
  | ok role =>
    intro hw
    simp only [M.pure_apply] at hw pres ⊢
    rw [wroteRole_append _ _ (by simp [Call.op])] at hw
    exact pres (hk hw)
  | error e =>
    by_cases hn : IsNotFound e = true
    · cases err with
      | none =>
        simp only [hn, hc, ↓reduceIte, M.bind_apply, M.call_apply, M.pure_apply]
        intro _
        have := evc rfl
        simpa [clusterRoleObject, hs] using this
      | some e2 =>
        have ha := eve e2 rfl
        simp only [hn, hc, ha, ↓reduceIte, M.bind_apply, M.call_apply, M.pure_apply] at pres ⊢
        intro hw
        exact pres (hk (wroteRole_fallback _ _ _ _ _ hw))
    · intro hw
      simp only [hn, Bool.false_eq_true, ↓reduceIte, M.pure_apply] at hw pres ⊢
      rw [wroteRole_append _ _ (by simp [Call.op])] at hw
      exact pres (hk hw)

/-- `SetUpImpersonation` keeps `RulesKept`: when it returns no error and its log shows
that it has written the ClusterRole itself, the store carries `rulesForUser` for the
role. -/
theorem SetUpImpersonation_kept (hs : servedRules (rulesForUser user) = rulesForUser user)
    (st : World × List Call)
    (hk : RulesKept (ImpersonationPrefix ++ user.UID) (rulesForUser user) st)
    (hok : (SetUpImpersonation (kube cl) user st).1.2 = none) :
    RulesKept (ImpersonationPrefix ++ user.UID) (rulesForUser user)
      (SetUpImpersonation (kube cl) user st).2 := by
  have fget := RulesKept.step
    (getServiceAccount_carries cl user (ImpersonationPrefix ++ user.UID) (rulesForUser user))
    ((getServiceAccount_logs (kube cl) user).mono
      (by rintro call (rfl | rfl) <;> simp [Call.op]))
  have fns := RulesKept.step
    (createNamespace_carries cl (ImpersonationPrefix ++ user.UID) (rulesForUser user))
    ((createNamespace_logs (kube cl)).mono (by rintro call (rfl | rfl) <;> simp [Call.op]))
  have fsa := fun role => RulesKept.step
    (createServiceAccount_carries cl user (ImpersonationPrefix ++ user.UID) (rulesForUser user)
      role)
    ((createServiceAccount_logs (kube cl) user role).mono
      (by rintro call (rfl | rfl | rfl) <;> simp [Call.op]))
  have frb := fun role sa => RulesKept.step
    (createRoleBinding_carries cl user (ImpersonationPrefix ++ user.UID) (rulesForUser user)
      role sa)
    ((createRoleBinding_logs (kube cl) user role sa).mono
      (by rintro call (rfl | rfl) <;> simp [Call.op]))
  have fwait := fun sa => RulesKept.step
    (waitForServiceAccount_carries cl (ImpersonationPrefix ++ user.UID) (rulesForUser user) sa)
    ((waitForServiceAccount_logs (kube cl) sa).mono
      (by rintro call (rfl | rfl) <;> simp [Call.op]))
  have hc := checkAndUpdateRole_kept cl user (rulesForUser user) hs st hk
  rcases hcr : checkAndUpdateRole (kube cl) user (rulesForUser user) st with ⟨⟨role, err⟩, st1⟩
  rw [hcr] at hc
  simp only [SetUpImpersonation, M.bind_apply, M.pure_apply, hcr] at hok ⊢
  cases err with
  | some e => simp at hok
  | none =>
  have k1 := hc rfl
  cases role with
  | some r => exact fget st1 k1
  | none =>
  simp only [M.bind_apply, M.pure_apply] at hok ⊢
  have k2 := fns st1 k1
  rcases hn : createNamespace (kube cl) st1 with ⟨err, st2⟩
  rw [hn] at k2 hok
  cases err with
  | some e => simp at hok
  | none =>
  simp only [M.bind_apply, M.pure_apply] at hok ⊢
  have k3 := createRole_kept cl user (rulesForUser user) hs st2 k2
  rcases hr : createRole (kube cl) user (rulesForUser user) st2 with ⟨⟨role, err⟩, st3⟩
  rw [hr] at k3 hok
  cases err with
  | some e => simp at hok
  | none =>
  cases role with
  | none => simp at hok
  | some role =>
  simp only [M.bind_apply, M.pure_apply] at hok ⊢
  have k4 := fsa role st3 k3
  rcases hsa : createServiceAccount (kube cl) user role st3 with ⟨⟨sa, err⟩, st4⟩
  rw [hsa] at k4 hok
  cases err with
  | some e => simp at hok
  | none =>
  cases sa with
  | none => simp at hok
  | some sa =>
  simp only [M.bind_apply, M.pure_apply] at hok ⊢
  have k5 := frb role sa st4 k4
  rcases hrb : createRoleBinding (kube cl) user role sa st4 with ⟨err, st5⟩
  rw [hrb] at k5 hok
  cases err with
  | some e => simp at hok
  | none => exact fwait sa st5 k5

end KeepsWritten

/-- The extras that `getUser` builds hold no empty list. -/
theorem extrasOf_lookup (u : User) :
    (extrasOf u).lookup "principalid" ≠ some (.of [])
    ∧ (extrasOf u).lookup "username" ≠ some (.of []) := by
  by_cases hp : u.PrincipalIDs.length > 0
  · have hne : u.PrincipalIDs ≠ [] := by
      intro h
      rw [h] at hp
      exact absurd hp (by decide)
    simp [extrasOf, hp, List.lookup, hne]
  · simp [extrasOf, hp, List.lookup]

/-- The rules of an identity that `getUser` returns come back from the server as they
were sent. -/
theorem getUser_served {σ : Type} (c : Client σ) (username groupname : String) (s : σ)
    (h : ((getUser c username groupname).result s).2 = none) :
    servedRules (rulesForUser ((getUser c username groupname).result s).1)
      = rulesForUser ((getUser c username groupname).result s).1 := by
  rcases hu : c.userListerGet "" username s with ⟨res, s1⟩
  cases res with
  | error e => simp [getUser, M.result, hu] at h
  | ok u =>
    rcases getUser_found c username groupname s s1 u hu with ⟨groups, hg⟩ | ⟨e, _, _, hg⟩
    · rw [hg]
      exact servedRules_rulesForUser _ (extrasOf_lookup u).1 (extrasOf_lookup u).2
    · rw [hg] at h
      simp at h

/-- C4, amended. In the reference environment, start from any store and any schedule,
with a cached view that shows the ClusterRole or the service account of the user only
if the store holds one. Let a first `ensureServiceAccountImpersonator` return success,
let the cached view then reflect the store, and let the second call, for the same user
record, attributes and groupname, come to the same groups as the first (the `range` over
the group principals visits them in an order that gives the same list). If the first
call has written the ClusterRole itself (its log shows an `Update`, or a `Create` that
did not fall back on the role of another writer), or if the ClusterRole it has found or
taken over carries `rulesForUser` of the identity in the store, then the second call
returns success and issues no create, update or delete, whatever the cluster does on
its own in between. -/
theorem ensureServiceAccountImpersonator_twice (cl username groupname : String) (w0 : World)
    (sched : List Background) (seeds : List Nat)
    (hlag : w0.lags (ImpersonationPrefix
      ++ ((getUser (kube cl) username groupname).result w0).1.UID))
    (hfirst : (ensureServiceAccountImpersonator (kube cl) username groupname).result w0 = none)
    (hsame : ((getUser (kube cl) username groupname).result
        { (ensureServiceAccountImpersonator (kube cl) username groupname).final w0 with
          cache := ((ensureServiceAccountImpersonator (kube cl) username groupname).final
            w0).store,
          schedule := sched, rangeSeeds := seeds }).1.Groups
      = ((getUser (kube cl) username groupname).result w0).1.Groups)
    (hown : wroteRole ((ensureServiceAccountImpersonator (kube cl) username groupname).calls w0)
        = true
      ∨ ∀ r ∈ ((ensureServiceAccountImpersonator (kube cl) username groupname).final
          w0).store.clusterRoles,
        r.ObjectMeta.Name
          = ImpersonationPrefix ++ ((getUser (kube cl) username groupname).result w0).1.UID →
        r.Rules = rulesForUser ((getUser (kube cl) username groupname).result w0).1) :
    (ensureServiceAccountImpersonator (kube cl) username groupname).result
        { (ensureServiceAccountImpersonator (kube cl) username groupname).final w0 with
          cache := ((ensureServiceAccountImpersonator (kube cl) username groupname).final
            w0).store,
          schedule := sched, rangeSeeds := seeds } = none
    ∧ ((ensureServiceAccountImpersonator (kube cl) username groupname).calls
        { (ensureServiceAccountImpersonator (kube cl) username groupname).final w0 with
          cache := ((ensureServiceAccountImpersonator (kube cl) username groupname).final
            w0).store,
          schedule := sched, rangeSeeds := seeds }).filter Call.isWrite = [] := by
  obtain ⟨⟨seeds1, hg1⟩, hg2, hg3⟩ := getUser_kube cl username groupname (w0, [])
  obtain ⟨new1, hnew1, pnew1⟩ := getUser_logs (kube cl) username groupname (w0, [])
  have hserved := getUser_served (kube cl) username groupname w0
  rcases hg : getUser (kube cl) username groupname (w0, []) with ⟨⟨id, err⟩, st1⟩
  rw [hg] at hg1 hg2 hg3 hnew1
  simp only [M.result, M.final, M.calls, hg] at hlag hfirst hsame hown hserved ⊢
  simp only [] at hg1 hg2 hg3 hnew1
  have hu1 : st1.1.users = w0.users := by rw [hg1]
  have ha1 : st1.1.userAttributes = w0.userAttributes := by rw [hg1]
  cases err with
  | some e =>
    simp only [ensureServiceAccountImpersonator, M.bind_apply, hg] at hfirst hsame hown ⊢
    by_cases hn : IsNotFound e = true
    · simp only [hn, ↓reduceIte, M.pure_apply] at hfirst hsame hown ⊢
      obtain ⟨k1, k2, k3⟩ := getUser_kube cl username groupname
        ({ st1.1 with cache := st1.1.store, schedule := sched, rangeSeeds := seeds }, [])
      have k4 := (hg3
        ({ st1.1 with cache := st1.1.store, schedule := sched, rangeSeeds := seeds }, [])
        (by simp [hu1]) (by simp [ha1])).1
      rcases hgk : getUser (kube cl) username groupname
        ({ st1.1 with cache := st1.1.store, schedule := sched, rangeSeeds := seeds }, [])
        with ⟨⟨id2, err2⟩, st3⟩
      rw [hgk] at k2 k4
      simp only [] at k4
      subst k4
      simp only [hn, ↓reduceIte, M.pure_apply]
      exact ⟨trivial, by simpa using k2⟩
    · simp [hn] at hfirst
  | none =>
    simp only [ensureServiceAccountImpersonator, M.bind_apply, hg, M.pure_apply]
      at hfirst hsame hown ⊢
    have hheld0 : Held (ImpersonationPrefix ++ id.UID) w0.users w0.userAttributes False False
        st1.1 := by
      rw [hg1]
      exact ⟨hlag, rfl, rfl, False.elim, False.elim⟩
    have hheld := SetUpImpersonation_held cl id w0.users w0.userAttributes False False st1 hheld0
    have hkept0 : RulesKept (ImpersonationPrefix ++ id.UID) (rulesForUser id) st1 := by
      intro hw
      rw [hnew1, wroteRole_append _ _
        (by intro call hc; rcases pnew1 call hc with rfl | rfl <;> simp [Call.op])] at hw
      cases hw
    have hkept := SetUpImpersonation_kept cl id (hserved rfl) st1 hkept0
    rcases hs : SetUpImpersonation (kube cl) id st1 with ⟨⟨sa, err2⟩, st2⟩
    rw [hs] at hheld hfirst hsame hown hkept
    simp only [] at hheld hfirst hsame hown hkept
    subst hfirst
    obtain ⟨_, hu, ha, hR, hA⟩ := hheld
    have hrules : ∀ r ∈ st2.1.store.clusterRoles,
        r.ObjectMeta.Name = ImpersonationPrefix ++ id.UID → r.Rules = rulesForUser id := by
      rcases hown with hw | hr
      · exact (hkept rfl hw).2
      · exact hr
    have hsettled : Settled (ImpersonationPrefix ++ id.UID) (rulesForUser id)
        { st2.1 with cache := st2.1.store, schedule := sched, rangeSeeds := seeds } :=
      ⟨⟨hR (Or.inr rfl), hA (Or.inr rfl), hrules⟩, ⟨hR (Or.inr rfl), hA (Or.inr rfl), hrules⟩⟩
    simp only [hs]
    obtain ⟨k1, k2, k3⟩ := getUser_kube cl username groupname
      ({ st2.1 with cache := st2.1.store, schedule := sched, rangeSeeds := seeds }, [])
    have k4 := hg3
      ({ st2.1 with cache := st2.1.store, schedule := sched, rangeSeeds := seeds }, [])
      (by simp [hu]) (by simp [ha])
    rcases hgk : getUser (kube cl) username groupname
      ({ st2.1 with cache := st2.1.store, schedule := sched, rangeSeeds := seeds }, [])
      with ⟨⟨id2, err3⟩, st3⟩
    rw [hgk] at k1 k2 k4 hsame
    simp only [] at k1 k2 k4 hsame
    have k5 := k4.2 hsame
    simp only [Prod.mk.injEq] at k5
    obtain ⟨rfl, rfl⟩ := k5
    obtain ⟨seeds3, k1⟩ := k1
    have hsettled3 : Settled (ImpersonationPrefix ++ id2.UID) (rulesForUser id2) st3.1 := by
      rw [k1]
      exact hsettled
    obtain ⟨sa2, hsa2⟩ := SetUpImpersonation_settled cl id2 st3 hsettled3
    simp only [M.bind_apply, M.pure_apply, hsa2]
    refine ⟨trivial, ?_⟩
    simp only [List.filter_append, k2]
    simp [Call.isWrite]

/-- C4, as stated, fails, in four ways. On `raceWorld`, whose cached view and store
agree at the start, the first call for `alice` finds no role, loses the race for the
role `Create`, takes over `rivalRole` through the uncached `Get` and succeeds; with the
cached view then reflecting the store, the second call finds that role with other rules
and issues an `Update`. On `bobTwice` the first call creates the role of `u-bob` itself;
the second call visits the group principals in the other order, comes to another groups
list and so to other rules, and issues an `Update`. On `staleCacheWorld` the first call
succeeds on the cached role without a write; once the cached view reflects the store,
the second call issues an `Update`. On `ghostCacheWorld`, whose cached view shows a role
and an account that the store does not hold, the first call succeeds without a write;
once the cached view reflects the store, the second call issues the four creates and
fails. -/
theorem ensureServiceAccountImpersonator_second_call_updates :
    (raceWorld.cache = raceWorld.store
      ∧ (ensureServiceAccountImpersonator (kube "c1") "u-1" "").result raceWorld = none
      ∧ ((ensureServiceAccountImpersonator (kube "c1") "u-1" "").calls raceWorld).map Call.op
        = ["userLister.Get", "userAttributeLister.Get", "ClusterRoles.Lister.Get",
           "Namespaces.Lister.Get", "Namespaces.Create", "ClusterRoles.Lister.Get",
           "ClusterRoles.Create", "ClusterRoles.Get", "ServiceAccounts.Lister.Get",
           "ServiceAccounts.Create", "ClusterRoleBindings.Lister.Get",
           "ClusterRoleBindings.Create", "ServiceAccounts.Lister.Get"]
      ∧ ((ensureServiceAccountImpersonator (kube "c1") "u-1" "").calls
          { (ensureServiceAccountImpersonator (kube "c1") "u-1" "").final raceWorld with
            cache := ((ensureServiceAccountImpersonator (kube "c1") "u-1" "").final
              raceWorld).store,
            schedule := [] }).filter Call.isWrite
        = [.clusterRoleUpdate { rivalRole with Rules := rulesForUser alice }])
    ∧ (bobTwice.cache = bobTwice.store
      ∧ (ensureServiceAccountImpersonator (kube "c1") "u-bob" "").result bobTwice = none
      ∧ (((ensureServiceAccountImpersonator (kube "c1") "u-bob" "").calls bobTwice).filter
          Call.isWrite).map Call.op
        = ["Namespaces.Create", "ClusterRoles.Create", "ServiceAccounts.Create",
           "ClusterRoleBindings.Create"]
      ∧ (((ensureServiceAccountImpersonator (kube "c1") "u-bob" "").calls
          { (ensureServiceAccountImpersonator (kube "c1") "u-bob" "").final bobTwice with
            cache := ((ensureServiceAccountImpersonator (kube "c1") "u-bob" "").final
              bobTwice).store,
            schedule := [] }).filter Call.isWrite).map Call.op
        = ["ClusterRoles.Update"])
    ∧ ((ensureServiceAccountImpersonator (kube "c1") "u-1" "").result staleCacheWorld = none
      ∧ ((ensureServiceAccountImpersonator (kube "c1") "u-1" "").calls staleCacheWorld).filter
          Call.isWrite = []
      ∧ ((ensureServiceAccountImpersonator (kube "c1") "u-1" "").calls
          { (ensureServiceAccountImpersonator (kube "c1") "u-1" "").final staleCacheWorld with
            cache := ((ensureServiceAccountImpersonator (kube "c1") "u-1" "").final
              staleCacheWorld).store,
            schedule := [] }).filter Call.isWrite
        = [.clusterRoleUpdate { staleRole with Rules := rulesForUser alice }])
    ∧ ((ensureServiceAccountImpersonator (kube "c1") "u-1" "").result ghostCacheWorld = none
      ∧ ((ensureServiceAccountImpersonator (kube "c1") "u-1" "").calls ghostCacheWorld).filter
          Call.isWrite = []
      ∧ (((ensureServiceAccountImpersonator (kube "c1") "u-1" "").calls
          { (ensureServiceAccountImpersonator (kube "c1") "u-1" "").final ghostCacheWorld with
            cache := ((ensureServiceAccountImpersonator (kube "c1") "u-1" "").final
              ghostCacheWorld).store,
            schedule := [] }).filter Call.isWrite).map Call.op
        = ["Namespaces.Create", "ClusterRoles.Create", "ServiceAccounts.Create",
           "ClusterRoleBindings.Create"]
      ∧ ((ensureServiceAccountImpersonator (kube "c1") "u-1" "").result
          { (ensureServiceAccountImpersonator (kube "c1") "u-1" "").final ghostCacheWorld with
            cache := ((ensureServiceAccountImpersonator (kube "c1") "u-1" "").final
              ghostCacheWorld).store,
            schedule := [] }).isSome = true) := by
  decide

/-- C4, amended, at concrete inputs: on `calmWorld` the first call for `alice` creates
the four objects and succeeds, and the second call succeeds without a write; on
`bobTwice` the same holds for `u-bob` when the second call visits the group principals
in the order of the first. -/
theorem ensureServiceAccountImpersonator_twice_witness :
    ((ensureServiceAccountImpersonator (kube "c1") "u-1" "").result
        { (ensureServiceAccountImpersonator (kube "c1") "u-1" "").final calmWorld with
          cache := ((ensureServiceAccountImpersonator (kube "c1") "u-1" "").final
            calmWorld).store,
          schedule := [.idle, .sync], rangeSeeds := [] } = none
      ∧ ((ensureServiceAccountImpersonator (kube "c1") "u-1" "").calls
          { (ensureServiceAccountImpersonator (kube "c1") "u-1" "").final calmWorld with
            cache := ((ensureServiceAccountImpersonator (kube "c1") "u-1" "").final
              calmWorld).store,
            schedule := [.idle, .sync], rangeSeeds := [] }).filter Call.isWrite = [])
    ∧ ((ensureServiceAccountImpersonator (kube "c1") "u-bob" "").result
        { (ensureServiceAccountImpersonator (kube "c1") "u-bob" "").final bobTwice with
          cache := ((ensureServiceAccountImpersonator (kube "c1") "u-bob" "").final
            bobTwice).store,
          schedule := [.idle, .sync], rangeSeeds := [0] } = none
      ∧ ((ensureServiceAccountImpersonator (kube "c1") "u-bob" "").calls
          { (ensureServiceAccountImpersonator (kube "c1") "u-bob" "").final bobTwice with
            cache := ((ensureServiceAccountImpersonator (kube "c1") "u-bob" "").final
              bobTwice).store,
            schedule := [.idle, .sync], rangeSeeds := [0] }).filter Call.isWrite = []) :=
  ⟨ensureServiceAccountImpersonator_twice "c1" "u-1" "" calmWorld [.idle, .sync] []
      (by unfold World.lags; decide) (by decide) (by decide) (Or.inl (by decide)),
   ensureServiceAccountImpersonator_twice "c1" "u-bob" "" bobTwice [.idle, .sync] [0]
      (by unfold World.lags; decide) (by decide) (by decide) (Or.inl (by decide))⟩

end Impersonation
